import Mathlib

/-!
# WILC3000 SPI transport (`wilc3000/wilc_spi.c`)

A shallow embedding of the SPI host-interface driver: the CRC-7 command
checksum, the command encoders `spi_cmd` / `spi_cmd_complete`, the response
parsing of the combined transaction, the chunked data phase and the register
access wrappers, followed by theorems about them.

Conventions of the embedding.

* A `uint8_t` is a `Nat` below 256; a cast `(uint8_t)e` is `u8 e = e % 256`.
  Bytes read out of a receive buffer go through `rd`, which truncates to 8 bits.
* The three transport callbacks `g_spi.spi_tx`, `g_spi.spi_rx`, `g_spi.spi_trx`
  are modelled by a `Bus`: `log` records every invocation with its arguments,
  oldest first, and `resp k` is the outcome of the invocation made when `k`
  invocations are in the log (`none`: the callback returned 0, `some bytes`: it
  returned non-zero and, for a receive, filled the buffer with `bytes`).
* A loop whose trip count depends on data carries a pass counter that starts at
  a bound of the trip count; the `_fuel` theorems show the counter is never
  used up.
* The caller's buffer `b` is a `List Nat`; a store `b[i] = x` is `List.set`.
* The driver is embedded as built without `USE_OLD_SPI_SW` (the `#else`
  branches); the compile-time switch `BIG_ENDIAN` is the Boolean parameter
  `big_endian` of the register access functions.
* A `uint32_t` is a `Nat` below `2^32`; `u32` truncates and `not32` is `~` on 32 bits.
  A local that C leaves uninitialised holds 0 until its first store.
* The register addresses and masks of `wilc_wlan.h`, which is not among the sources, are
  the fields of the parameter `k : wilc_consts`.
* `spi_read_int` has a loop without a bound in the source; its embedding takes the number
  of passes it may make and is `none` when that number does not suffice.
* `crc7_indices`, `wb_stores` and `rb_reads` list the table and buffer indices that the
  code uses, in the order in which the embedded functions go through them.
-/

namespace Wilc

/-! ## Crc7 -/

/-- The table `crc7_syndrome_table[256]`. -/
def crc7_syndrome_table : List Nat := [
  0x00, 0x09, 0x12, 0x1b, 0x24, 0x2d, 0x36, 0x3f,
  0x48, 0x41, 0x5a, 0x53, 0x6c, 0x65, 0x7e, 0x77,
  0x19, 0x10, 0x0b, 0x02, 0x3d, 0x34, 0x2f, 0x26,
  0x51, 0x58, 0x43, 0x4a, 0x75, 0x7c, 0x67, 0x6e,
  0x32, 0x3b, 0x20, 0x29, 0x16, 0x1f, 0x04, 0x0d,
  0x7a, 0x73, 0x68, 0x61, 0x5e, 0x57, 0x4c, 0x45,
  0x2b, 0x22, 0x39, 0x30, 0x0f, 0x06, 0x1d, 0x14,
  0x63, 0x6a, 0x71, 0x78, 0x47, 0x4e, 0x55, 0x5c,
  0x64, 0x6d, 0x76, 0x7f, 0x40, 0x49, 0x52, 0x5b,
  0x2c, 0x25, 0x3e, 0x37, 0x08, 0x01, 0x1a, 0x13,
  0x7d, 0x74, 0x6f, 0x66, 0x59, 0x50, 0x4b, 0x42,
  0x35, 0x3c, 0x27, 0x2e, 0x11, 0x18, 0x03, 0x0a,
  0x56, 0x5f, 0x44, 0x4d, 0x72, 0x7b, 0x60, 0x69,
  0x1e, 0x17, 0x0c, 0x05, 0x3a, 0x33, 0x28, 0x21,
  0x4f, 0x46, 0x5d, 0x54, 0x6b, 0x62, 0x79, 0x70,
  0x07, 0x0e, 0x15, 0x1c, 0x23, 0x2a, 0x31, 0x38,
  0x41, 0x48, 0x53, 0x5a, 0x65, 0x6c, 0x77, 0x7e,
  0x09, 0x00, 0x1b, 0x12, 0x2d, 0x24, 0x3f, 0x36,
  0x58, 0x51, 0x4a, 0x43, 0x7c, 0x75, 0x6e, 0x67,
  0x10, 0x19, 0x02, 0x0b, 0x34, 0x3d, 0x26, 0x2f,
  0x73, 0x7a, 0x61, 0x68, 0x57, 0x5e, 0x45, 0x4c,
  0x3b, 0x32, 0x29, 0x20, 0x1f, 0x16, 0x0d, 0x04,
  0x6a, 0x63, 0x78, 0x71, 0x4e, 0x47, 0x5c, 0x55,
  0x22, 0x2b, 0x30, 0x39, 0x06, 0x0f, 0x14, 0x1d,
  0x25, 0x2c, 0x37, 0x3e, 0x01, 0x08, 0x13, 0x1a,
  0x6d, 0x64, 0x7f, 0x76, 0x49, 0x40, 0x5b, 0x52,
  0x3c, 0x35, 0x2e, 0x27, 0x18, 0x11, 0x0a, 0x03,
  0x74, 0x7d, 0x66, 0x6f, 0x50, 0x59, 0x42, 0x4b,
  0x17, 0x1e, 0x05, 0x0c, 0x33, 0x3a, 0x21, 0x28,
  0x5f, 0x56, 0x4d, 0x44, 0x7b, 0x72, 0x69, 0x60,
  0x0e, 0x07, 0x1c, 0x15, 0x2a, 0x23, 0x38, 0x31,
  0x46, 0x4f, 0x54, 0x5d, 0x62, 0x6b, 0x70, 0x79]

/-- Cast to `uint8_t`. -/
def u8 (x : Nat) : Nat := x % 256

/-- The function `crc7_byte`: one table lookup. The index `(crc << 1) ^ data` is computed
in `int`; an index outside the table (undefined in C) reads as 0. -/
def crc7_byte (crc data : Nat) : Nat :=
  crc7_syndrome_table.getD ((crc <<< 1) ^^^ data) 0

/-- The function `crc7`: `while (len--) crc = crc7_byte(crc, *buffer++);` over the
`len` bytes of `buffer`. -/
def crc7 (crc : Nat) : List Nat → Nat
  | [] => crc
  | d :: rest => crc7 (crc7_byte crc d) rest

/-! ### The standard CRC-7, stated independently of the table -/

/-- The CRC-7 generator polynomial `x^7 + x^3 + 1`, one bit per coefficient. -/
def CRC7_POLY : Nat := 0x89

/-- Long division over GF(2) by the generator: `gf2_reduce p k` cancels the coefficients
of `x^(k+6)`, ..., `x^7` of `p`, highest first, by adding shifted copies of the generator. -/
def gf2_reduce (p : Nat) : Nat → Nat
  | 0 => p
  | k + 1 => gf2_reduce (if p.testBit (k + 7) then p ^^^ (CRC7_POLY <<< k) else p) k

/-- The remainder of `i(x) * x^7` modulo the generator, for a polynomial `i` of degree
below 8 (a byte). -/
def crc7_remainder (i : Nat) : Nat := gf2_reduce (i <<< 7) 8

/-- One clock of the 7-bit CRC shift register with input bit `bit`: the feedback is the
bit shifted out xor the input bit, and it is added at the taps `x^3` and `x^0`. -/
def crc7_shift_bit (crc : Nat) (bit : Bool) : Nat :=
  let shifted := (crc <<< 1) % 128
  if (crc.testBit 6) != bit then shifted ^^^ 0x09 else shifted

/-- The shift register clocked with the 8 bits of the byte `d`, most significant first. -/
def crc7_shift_byte (crc d : Nat) : Nat :=
  [7, 6, 5, 4, 3, 2, 1, 0].foldl (fun c k => crc7_shift_bit c (d.testBit k)) crc

/-- The bit-by-bit CRC-7 of the byte sequence `s`, started from `crc`. -/
def crc7_bitwise (crc : Nat) (s : List Nat) : Nat := s.foldl crc7_shift_byte crc

/-- The shift register clocked with the low `n` bits of `d`, bit `n - 1` first. -/
def shift_bits (c d : Nat) : Nat → Nat
  | 0 => c
  | n + 1 => shift_bits (crc7_shift_bit c (d.testBit n)) d n

/-! ## Protocol constants -/

def CMD_DMA_WRITE : Nat := 0xc1
def CMD_DMA_READ : Nat := 0xc2
def CMD_INTERNAL_WRITE : Nat := 0xc3
def CMD_INTERNAL_READ : Nat := 0xc4
def CMD_TERMINATE : Nat := 0xc5
def CMD_REPEAT : Nat := 0xc6
def CMD_DMA_EXT_WRITE : Nat := 0xc7
def CMD_DMA_EXT_READ : Nat := 0xc8
def CMD_SINGLE_WRITE : Nat := 0xc9
def CMD_SINGLE_READ : Nat := 0xca
def CMD_RESET : Nat := 0xcf
def N_OK : Int := 1
def N_FAIL : Int := 0
def N_RESET : Int := -1
def N_RETRY : Int := -2
def DATA_PKT_SZ_8K : Nat := 8 * 1024
def DATA_PKT_SZ : Nat := DATA_PKT_SZ_8K

/-- The eleven opcodes handled by the `switch` of the two encoders. -/
def supported_cmds : List Nat :=
  [CMD_DMA_WRITE, CMD_DMA_READ, CMD_INTERNAL_WRITE, CMD_INTERNAL_READ, CMD_TERMINATE,
    CMD_REPEAT, CMD_DMA_EXT_WRITE, CMD_DMA_EXT_READ, CMD_SINGLE_WRITE, CMD_SINGLE_READ,
    CMD_RESET]

/-! ## Session configuration and transport -/

/-- The configuration fields of `struct wilc_spi` (the global `g_spi`); the three
callbacks of the struct are the `Bus`. -/
structure wilc_spi where
  crc_off : Int
  nint : Int
  has_thrpt_enh : Int
deriving DecidableEq, Repr

/-- One invocation of a transport callback, with its arguments.
`tx data`: `spi_tx` of a driver-local buffer holding `data`;
`tx_buf ix nbytes data`: `spi_tx(&b[ix], nbytes)` on the caller's buffer, which holds `data` there;
`rx len`: `spi_rx` of `len` bytes into a driver-local buffer;
`rx_buf ix nbytes`: `spi_rx(&b[ix], nbytes)` into the caller's buffer;
`trx wb`: `spi_trx(wb, rb, len2)` with `wb` the `len2` bytes sent. -/
inductive Ev where
  | tx (data : List Nat)
  | tx_buf (ix nbytes : Nat) (data : List Nat)
  | rx (len : Nat)
  | rx_buf (ix nbytes : Nat)
  | trx (wb : List Nat)
deriving DecidableEq, Repr

/-- The transport: the outcome of each callback invocation, and the invocations so far. -/
structure Bus where
  resp : Nat → Option (List Nat)
  log : List Ev

/-- Byte `i` of the `uint8_t` buffer `buf` (an element never assigned reads as 0). -/
def rd (buf : List Nat) (i : Nat) : Nat := u8 (buf.getD i 0)

/-- A call `g_spi.spi_tx(buf, len)` of a local buffer: success flag and the bus afterwards. -/
def spi_tx (bus : Bus) (data : List Nat) : Bool × Bus :=
  ((bus.resp bus.log.length).isSome, { bus with log := bus.log ++ [Ev.tx data] })

/-- A call `g_spi.spi_tx(&b[ix], nbytes)` on the caller's buffer `b`. -/
def spi_tx_buf (bus : Bus) (b : List Nat) (ix nbytes : Nat) : Bool × Bus :=
  ((bus.resp bus.log.length).isSome,
    { bus with log := bus.log ++ [Ev.tx_buf ix nbytes ((b.drop ix).take nbytes)] })

/-- A call `g_spi.spi_rx(buf, len)` into a local buffer: the bytes received, or `none`
when the callback fails. -/
def spi_rx (bus : Bus) (len : Nat) : Option (List Nat) × Bus :=
  (bus.resp bus.log.length, { bus with log := bus.log ++ [Ev.rx len] })

/-- A call `g_spi.spi_rx(&b[ix], nbytes)` into the caller's buffer. -/
def spi_rx_buf (bus : Bus) (ix nbytes : Nat) : Option (List Nat) × Bus :=
  (bus.resp bus.log.length, { bus with log := bus.log ++ [Ev.rx_buf ix nbytes] })

/-- A call `g_spi.spi_trx(wb, rb, len2)`: the received buffer `rb`, or `none` on failure. -/
def spi_trx (bus : Bus) (wb : List Nat) : Option (List Nat) × Bus :=
  (bus.resp bus.log.length, { bus with log := bus.log ++ [Ev.trx wb] })

/-- The caller's buffer after `nbytes` received bytes `data` were stored from `b[ix]` on. -/
def buf_store (b : List Nat) (ix nbytes : Nat) (data : List Nat) : List Nat :=
  (List.range nbytes).foldl (fun acc i => acc.set (ix + i) (rd data i)) b

/-! ## Command encoding: `spi_cmd` -/

/-- The `switch (cmd)` of `spi_cmd`: the bytes stored into `bc[0..]` and the value of
`len`, or `none` for the `default` case (`result = N_FAIL`). -/
def spi_cmd_bc (cmd adr data sz clockless : Nat) : Option (List Nat × Nat) :=
  if cmd = CMD_SINGLE_READ then
    some ([cmd, u8 (adr >>> 16), u8 (adr >>> 8), u8 adr], 5)
  else if cmd = CMD_INTERNAL_READ then
    some ([cmd, if clockless ≠ 0 then u8 (adr >>> 8) ||| (1 <<< 7) else u8 (adr >>> 8),
      u8 adr, 0x00], 5)
  else if cmd = CMD_TERMINATE then some ([cmd, 0x00, 0x00, 0x00], 5)
  else if cmd = CMD_REPEAT then some ([cmd, 0x00, 0x00, 0x00], 5)
  else if cmd = CMD_RESET then some ([cmd, 0xff, 0xff, 0xff], 5)
  else if cmd = CMD_DMA_WRITE ∨ cmd = CMD_DMA_READ then
    some ([cmd, u8 (adr >>> 16), u8 (adr >>> 8), u8 adr, u8 (sz >>> 8), u8 sz], 7)
  else if cmd = CMD_DMA_EXT_WRITE ∨ cmd = CMD_DMA_EXT_READ then
    some ([cmd, u8 (adr >>> 16), u8 (adr >>> 8), u8 adr,
      u8 (sz >>> 16), u8 (sz >>> 8), u8 sz], 8)
  else if cmd = CMD_INTERNAL_WRITE then
    some ([cmd, if clockless ≠ 0 then u8 (adr >>> 8) ||| (1 <<< 7) else u8 (adr >>> 8),
      u8 adr, u8 (data >>> 24), u8 (data >>> 16), u8 (data >>> 8), u8 data], 8)
  else if cmd = CMD_SINGLE_WRITE then
    some ([cmd, u8 (adr >>> 16), u8 (adr >>> 8), u8 adr,
      u8 (data >>> 24), u8 (data >>> 16), u8 (data >>> 8), u8 data], 9)
  else none

/-- The checksum step shared by both encoders: with `crc_off == 0` the byte
`buf[len - 1] = crc7(0x7f, buf, len - 1) << 1` is stored and `len` bytes form the command,
otherwise `len -= 1`. Returns the command bytes `buf[0 .. len)` for the final `len`. -/
def cmd_frame (g : wilc_spi) (buf : List Nat) (len : Nat) : List Nat :=
  if g.crc_off = 0 then buf.take (len - 1) ++ [u8 (crc7 0x7f (buf.take (len - 1)) <<< 1)]
  else buf.take (len - 1)

/-- The function `spi_cmd`. -/
def spi_cmd (g : wilc_spi) (bus : Bus) (cmd adr data sz clockless : Nat) : Int × Bus :=
  match spi_cmd_bc cmd adr data sz clockless with
  | none => (N_FAIL, bus)
  | some (bc, len) =>
    let r := spi_tx bus (cmd_frame g bc len)
    if r.1 then (N_OK, r.2) else (N_FAIL, r.2)

/-! ## The combined transaction: `spi_cmd_complete` -/

/-- What `spi_cmd_complete` and `spi_data_read` hand back: the `int`
result, the caller's buffer `b` afterwards, and the bus afterwards. -/
structure CmdResult where
  result : Int
  b : List Nat
  bus : Bus

/-- The `switch (cmd)` of `spi_cmd_complete`: the bytes stored into `wb[0..]` and the
value of `len`, or `none` for the `default` case. The data bytes of the two register
writes are taken from the caller's buffer, `b[3]` first. -/
def spi_cmd_complete_wb (cmd adr : Nat) (b : List Nat) (sz clockless : Nat) :
    Option (List Nat × Nat) :=
  if cmd = CMD_SINGLE_READ then
    some ([cmd, u8 (adr >>> 16), u8 (adr >>> 8), u8 adr], 5)
  else if cmd = CMD_INTERNAL_READ then
    some ([cmd, if clockless = 1 then u8 (adr >>> 8) ||| (1 <<< 7) else u8 (adr >>> 8),
      u8 adr, 0x00], 5)
  else if cmd = CMD_TERMINATE then some ([cmd, 0x00, 0x00, 0x00], 5)
  else if cmd = CMD_REPEAT then some ([cmd, 0x00, 0x00, 0x00], 5)
  else if cmd = CMD_RESET then some ([cmd, 0xff, 0xff, 0xff], 5)
  else if cmd = CMD_DMA_WRITE ∨ cmd = CMD_DMA_READ then
    some ([cmd, u8 (adr >>> 16), u8 (adr >>> 8), u8 adr, u8 (sz >>> 8), u8 sz], 7)
  else if cmd = CMD_DMA_EXT_WRITE ∨ cmd = CMD_DMA_EXT_READ then
    some ([cmd, u8 (adr >>> 16), u8 (adr >>> 8), u8 adr,
      u8 (sz >>> 16), u8 (sz >>> 8), u8 sz], 8)
  else if cmd = CMD_INTERNAL_WRITE then
    some ([cmd, if clockless = 1 then u8 (adr >>> 8) ||| (1 <<< 7) else u8 (adr >>> 8),
      u8 adr, rd b 3, rd b 2, rd b 1, rd b 0], 8)
  else if cmd = CMD_SINGLE_WRITE then
    some ([cmd, u8 (adr >>> 16), u8 (adr >>> 8), u8 adr,
      rd b 3, rd b 2, rd b 1, rd b 0], 9)
  else none

/-- The test `(cmd == CMD_RESET) || (cmd == CMD_TERMINATE) || (cmd == CMD_REPEAT)`. -/
def is_ctl (cmd : Nat) : Bool :=
  cmd = CMD_RESET ∨ cmd = CMD_TERMINATE ∨ cmd = CMD_REPEAT

/-- The test `(cmd == CMD_INTERNAL_READ) || (cmd == CMD_SINGLE_READ)`. -/
def is_reg_read (cmd : Nat) : Bool :=
  cmd = CMD_INTERNAL_READ ∨ cmd = CMD_SINGLE_READ

/-- The test `(cmd == CMD_DMA_READ) || (cmd == CMD_DMA_EXT_READ)`. -/
def is_dma_read (cmd : Nat) : Bool :=
  cmd = CMD_DMA_READ ∨ cmd = CMD_DMA_EXT_READ

def NUM_SKIP_BYTES : Nat := 1
def NUM_RSP_BYTES : Nat := 2
def NUM_DATA_HDR_BYTES : Nat := 1
def NUM_DATA_BYTES : Nat := 4
def NUM_CRC_BYTES : Nat := 2
def NUM_DUMMY_BYTES : Nat := 3

/-- The value of `len` after the checksum step (`len -= 1` when the checksum is off). -/
def cmd_len (g : wilc_spi) (len : Nat) : Nat :=
  if g.crc_off = 0 then len else len - 1

/-- The total length `len2` of the combined transaction, from the command length `len`. -/
def spi_cmd_complete_len2 (g : wilc_spi) (cmd len : Nat) : Nat :=
  if is_ctl cmd then len + (NUM_SKIP_BYTES + NUM_RSP_BYTES + NUM_DUMMY_BYTES)
  else if is_reg_read cmd then
    if g.crc_off = 0 then
      len + (NUM_RSP_BYTES + NUM_DATA_HDR_BYTES + NUM_DATA_BYTES + NUM_CRC_BYTES
        + NUM_DUMMY_BYTES)
    else
      len + (NUM_RSP_BYTES + NUM_DATA_HDR_BYTES + NUM_DATA_BYTES + NUM_DUMMY_BYTES)
  else len + (NUM_RSP_BYTES + NUM_DUMMY_BYTES)

/-- The test `((rsp >> 4) & 0xf) == 0xf` for a data-response header byte. -/
def is_data_hdr (rsp : Nat) : Bool := (rsp >>> 4) &&& 0xf = 0xf

/-- The data-response header scan inside the combined buffer,
`do { if (rix < len2) rsp = rb[rix++]; else { retry = 0; break; }
      if (((rsp >> 4) & 0xf) == 0xf) break; } while (retry--);`
started with the given `retry` and `rix`; returns the final `rix` and `retry`. -/
def data_hdr_scan (rb : List Nat) (len2 : Nat) : Nat → Nat → Nat × Int
  | 0, rix =>
    if rix < len2 then
      if is_data_hdr (rd rb rix) then (rix + 1, 0) else (rix + 1, -1)
    else (rix, 0)
  | retry + 1, rix =>
    if rix < len2 then
      if is_data_hdr (rd rb rix) then (rix + 1, (retry : Int) + 1)
      else data_hdr_scan rb len2 retry (rix + 1)
    else (rix, 0)

/-- The data-response header scan on the bus,
`do { if (!g_spi.spi_rx(&rsp, 1)) { result = N_FAIL; break; }
      if (((rsp >> 4) & 0xf) == 0xf) break; } while (retry--);`
started with the given `retry`; returns whether every receive succeeded, the final
`retry`, and the bus. -/
def rx_hdr_scan : Nat → Bus → Bool × Int × Bus
  | 0, bus =>
    let r := spi_rx bus 1
    match r.1 with
    | none => (false, 0, r.2)
    | some d => if is_data_hdr (rd d 0) then (true, 0, r.2) else (true, -1, r.2)
  | retry + 1, bus =>
    let r := spi_rx bus 1
    match r.1 with
    | none => (false, (retry : Int) + 1, r.2)
    | some d =>
      if is_data_hdr (rd d 0) then (true, (retry : Int) + 1, r.2)
      else rx_hdr_scan retry r.2

/-- The loop `for (ix = 0; (rix < len2) && (ix < sz); ) b[ix++] = rb[rix++];`, which
runs at most `len2 - rix` times (the first argument); returns `ix` and `b`. -/
def copy_dummy (rb : List Nat) (len2 sz : Nat) : Nat → Nat → Nat → List Nat → Nat × List Nat
  | 0, _, ix, b => (ix, b)
  | n + 1, rix, ix, b =>
    if rix < len2 ∧ ix < sz then copy_dummy rb len2 sz n (rix + 1) (ix + 1) (b.set ix (rd rb rix))
    else (ix, b)

/-- The loop `while (sz > 0) { ... }` of `spi_cmd_complete` that reads the data left after
the first packet. Every completed pass lowers `sz` by `nbytes >= 1`, so the loop makes at
most `sz` passes; the first argument counts the passes still allowed and is `sz` initially
(`dma_read_rest_fuel`). The offset `ix` is an `int` in the source and ends at the size
asked for: the embedding keeps it as a `Nat` and is the code for a size below `2^31`;
from `2^31` on `ix += nbytes` overflows, which C leaves undefined. -/
def dma_read_rest (g : wilc_spi) : Nat → Bus → List Nat → Nat → Nat → CmdResult
  | 0, bus, b, _, _ => ⟨N_OK, b, bus⟩
  | n + 1, bus, b, ix, sz =>
    if sz > 0 then
      let nbytes := if sz ≤ DATA_PKT_SZ then sz else DATA_PKT_SZ
      let s := rx_hdr_scan 10 bus
      if !s.1 then ⟨N_FAIL, b, s.2.2⟩ else
      let r := spi_rx_buf s.2.2 ix nbytes
      match r.1 with
      | none => ⟨N_FAIL, b, r.2⟩
      | some d =>
        let b1 := buf_store b ix nbytes d
        if g.crc_off = 0 then
          let c := spi_rx r.2 2
          match c.1 with
          | none => ⟨N_FAIL, b1, c.2⟩
          | some _ => dma_read_rest g n c.2 b1 (ix + nbytes) (sz - nbytes)
        else dma_read_rest g n r.2 b1 (ix + nbytes) (sz - nbytes)
    else ⟨N_OK, b, bus⟩

/-- The branch of `spi_cmd_complete` for `CMD_DMA_READ` / `CMD_DMA_EXT_READ`, entered
after the data header was found with `rix` pointing behind it. -/
def dma_read_data (g : wilc_spi) (bus : Bus) (rb : List Nat) (len2 rix : Nat)
    (b : List Nat) (sz : Nat) : CmdResult :=
  let c := copy_dummy rb len2 sz (len2 - rix) rix 0 b
  let ix := c.1
  let b0 := c.2
  let sz := sz - ix
  if sz > 0 then
    let nbytes := if sz ≤ DATA_PKT_SZ - ix then sz else DATA_PKT_SZ - ix
    let r := spi_rx_buf bus ix nbytes
    match r.1 with
    | none => ⟨N_FAIL, b0, r.2⟩
    | some d =>
      let b1 := buf_store b0 ix nbytes d
      if g.crc_off = 0 then
        let c := spi_rx r.2 2
        match c.1 with
        | none => ⟨N_FAIL, b1, c.2⟩
        | some _ => dma_read_rest g (sz - nbytes) c.2 b1 (ix + nbytes) (sz - nbytes)
      else dma_read_rest g (sz - nbytes) r.2 b1 (ix + nbytes) (sz - nbytes)
  else ⟨N_OK, b0, bus⟩

/-- The branch of `spi_cmd_complete` for `CMD_INTERNAL_READ` / `CMD_SINGLE_READ`, entered
after the data header was found with `rix` pointing behind it: the four data bytes, then
the two checksum bytes when the checksum is on. -/
def reg_read_data (g : wilc_spi) (bus : Bus) (rb : List Nat) (len2 rix : Nat)
    (b : List Nat) : CmdResult :=
  if rix + 3 < len2 then
    let b1 := (((b.set 0 (rd rb rix)).set 1 (rd rb (rix + 1))).set 2
      (rd rb (rix + 2))).set 3 (rd rb (rix + 3))
    if g.crc_off = 0 then
      if (rix + 4) + 1 < len2 then ⟨N_OK, b1, bus⟩ else ⟨N_FAIL, b1, bus⟩
    else ⟨N_OK, b1, bus⟩
  else ⟨N_FAIL, b, bus⟩

/-- The block of `spi_cmd_complete` for the four read opcodes, entered with `rix` behind
the state byte: the data header scan with `retry = 100`, then the data. -/
def spi_cmd_complete_data (g : wilc_spi) (bus : Bus) (cmd : Nat) (b : List Nat) (sz : Nat)
    (rb : List Nat) (len2 rix : Nat) : CmdResult :=
  let s := data_hdr_scan rb len2 100 rix
  if s.2 ≤ 0 then ⟨N_RESET, b, bus⟩ else
  if is_reg_read cmd then reg_read_data g bus rb len2 s.1 b
  else if is_dma_read cmd then dma_read_data g bus rb len2 s.1 b sz
  else ⟨N_OK, b, bus⟩

/-- The part of `spi_cmd_complete` after a successful `spi_trx`: parsing the received
buffer `rb` of the combined transaction, `len` being the command length. -/
def spi_cmd_complete_rsp (g : wilc_spi) (bus : Bus) (cmd : Nat) (b : List Nat) (sz : Nat)
    (rb : List Nat) (len len2 : Nat) : CmdResult :=
  let rix := if is_ctl cmd then len + 1 else len
  if rd rb rix ≠ cmd then ⟨N_FAIL, b, bus⟩ else
  if rd rb (rix + 1) ≠ 0x00 then ⟨N_FAIL, b, bus⟩ else
  if is_reg_read cmd ∨ is_dma_read cmd then
    spi_cmd_complete_data g bus cmd b sz rb len2 (rix + 2)
  else ⟨N_OK, b, bus⟩

/-- The function `spi_cmd_complete`. -/
def spi_cmd_complete (g : wilc_spi) (bus : Bus) (cmd adr : Nat) (b : List Nat)
    (sz clockless : Nat) : CmdResult :=
  match spi_cmd_complete_wb cmd adr b sz clockless with
  | none => ⟨N_FAIL, b, bus⟩
  | some (wb0, len0) =>
    let len := cmd_len g len0
    let len2 := spi_cmd_complete_len2 g cmd len
    if len2 > 32 then ⟨N_FAIL, b, bus⟩ else
    let wb := cmd_frame g wb0 len0 ++ List.replicate (len2 - len) 0
    let r := spi_trx bus wb
    match r.1 with
    | none => ⟨N_FAIL, b, r.2⟩
    | some rb => spi_cmd_complete_rsp g r.2 cmd b sz rb len len2

/-! ## The data phase: `spi_data_read`, `spi_data_write` -/

/-- The `do { ... } while (sz);` loop of `spi_data_read`. A completed pass lowers a
non-zero `sz` by `nbytes >= 1`; the first argument counts the further passes allowed and
is `sz` initially, which is never used up (`spi_data_read_loop_fuel`). The offset `ix` is
an `int` in the source and ends at the initial `sz`: the embedding keeps it as a `Nat` and
is the code while that stays below `2^31`; beyond that `ix += nbytes` overflows, which C
leaves undefined. -/
def spi_data_read_loop (g : wilc_spi) : Nat → Bus → List Nat → Nat → Nat → CmdResult
  | fuel, bus, b, ix, sz =>
    let nbytes := if sz ≤ DATA_PKT_SZ then sz else DATA_PKT_SZ
    let s := rx_hdr_scan 10 bus
    if !s.1 then ⟨N_FAIL, b, s.2.2⟩ else
    if s.2.1 ≤ 0 then ⟨N_FAIL, b, s.2.2⟩ else
    let r := spi_rx_buf s.2.2 ix nbytes
    match r.1 with
    | none => ⟨N_FAIL, b, r.2⟩
    | some d =>
      let b1 := buf_store b ix nbytes d
      let c := if g.crc_off = 0 then spi_rx r.2 2 else (some [], r.2)
      match c.1 with
      | none => ⟨N_FAIL, b1, c.2⟩
      | some _ =>
        if sz - nbytes ≠ 0 then
          match fuel with
          | 0 => ⟨N_OK, b1, c.2⟩
          | f + 1 => spi_data_read_loop g f c.2 b1 (ix + nbytes) (sz - nbytes)
        else ⟨N_OK, b1, c.2⟩

/-- The function `spi_data_read`. -/
def spi_data_read (g : wilc_spi) (bus : Bus) (b : List Nat) (sz : Nat) : CmdResult :=
  spi_data_read_loop g sz bus b 0 sz

/-- The order tag of a written data block: `cmd = 0xf0; ...; cmd |= order;` for the block
at offset `ix` with `sz` bytes still to send. -/
def data_write_cmd (ix sz : Nat) : Nat :=
  let order :=
    if ix = 0 then (if sz ≤ DATA_PKT_SZ then 0x3 else 0x1)
    else (if sz ≤ DATA_PKT_SZ then 0x3 else 0x2)
  0xf0 ||| order

/-- The `do { ... } while (sz);` loop of `spi_data_write`; the first argument counts the
further passes allowed, as in `spi_data_read_loop` (`spi_data_write_loop_fuel`). The local
`crc[2]` is `{0}` and is never assigned. The offset `ix` is an `int` in the source and ends
at the initial `sz`: the embedding keeps it as a `Nat` and is the code for `sz < 2^31`;
from `2^31` on `ix += nbytes` overflows, which C leaves undefined. -/
def spi_data_write_loop (g : wilc_spi) (b : List Nat) : Nat → Bus → Nat → Nat → Int × Bus
  | fuel, bus, ix, sz =>
    let nbytes := if sz ≤ DATA_PKT_SZ then sz else DATA_PKT_SZ
    let r1 := spi_tx bus [data_write_cmd ix sz]
    if !r1.1 then (N_FAIL, r1.2) else
    let r2 := spi_tx_buf r1.2 b ix nbytes
    if !r2.1 then (N_FAIL, r2.2) else
    let r3 := if g.crc_off = 0 then spi_tx r2.2 [0, 0] else (true, r2.2)
    if !r3.1 then (N_FAIL, r3.2) else
    if sz - nbytes ≠ 0 then
      match fuel with
      | 0 => (N_OK, r3.2)
      | f + 1 => spi_data_write_loop g b f r3.2 (ix + nbytes) (sz - nbytes)
    else (N_OK, r3.2)

/-- The function `spi_data_write`. -/
def spi_data_write (g : wilc_spi) (bus : Bus) (b : List Nat) (sz : Nat) : Int × Bus :=
  spi_data_write_loop g b sz bus 0 sz

/-! ## Register and block access -/

/-- Modelled from the spec: the macro `BYTE_SWAP` comes from a header that is not part of
these sources; it is taken to be the 32-bit byte reversal behind the spec's
"host-endianness correction" that swaps the bytes of a register value. -/
def BYTE_SWAP (v : Nat) : Nat :=
  (u8 v <<< 24) ||| (u8 (v >>> 8) <<< 16) ||| (u8 (v >>> 16) <<< 8) ||| u8 (v >>> 24)

/-- The four bytes of the `uint32_t` object `v` in memory order, as seen through
`(uint8_t *)&v`, on a little-endian or big-endian host. -/
def u32_mem (big_endian : Bool) (v : Nat) : List Nat :=
  if big_endian then [u8 (v >>> 24), u8 (v >>> 16), u8 (v >>> 8), u8 v]
  else [u8 v, u8 (v >>> 8), u8 (v >>> 16), u8 (v >>> 24)]

/-- The `uint32_t` value of four bytes in memory order. -/
def u32_of_mem (big_endian : Bool) (m : List Nat) : Nat :=
  if big_endian then
    (rd m 0 <<< 24) ||| (rd m 1 <<< 16) ||| (rd m 2 <<< 8) ||| rd m 3
  else
    (rd m 3 <<< 24) ||| (rd m 2 <<< 16) ||| (rd m 1 <<< 8) ||| rd m 0

/-- The function `spi_internal_write`. -/
def spi_internal_write (big_endian : Bool) (g : wilc_spi) (bus : Bus) (adr dat : Nat) :
    Int × Bus :=
  let dat := if big_endian then BYTE_SWAP dat else dat
  let r := spi_cmd_complete g bus CMD_INTERNAL_WRITE adr (u32_mem big_endian dat) 4 0
  (r.result, r.bus)

/-- The function `spi_internal_read`; `data` is the previous content of `*data`, and the
second component of the result its content afterwards. -/
def spi_internal_read (big_endian : Bool) (g : wilc_spi) (bus : Bus) (adr data : Nat) :
    Int × Nat × Bus :=
  let r := spi_cmd_complete g bus CMD_INTERNAL_READ adr (u32_mem big_endian data) 4 0
  let v := u32_of_mem big_endian r.b
  if r.result ≠ N_OK then (0, v, r.bus)
  else (1, if big_endian then BYTE_SWAP v else v, r.bus)

/-- The function `spi_write_reg`. -/
def spi_write_reg (big_endian : Bool) (g : wilc_spi) (bus : Bus) (addr data : Nat) :
    Int × Bus :=
  let data := if big_endian then BYTE_SWAP data else data
  let cmd := if addr < 0x30 then CMD_INTERNAL_WRITE else CMD_SINGLE_WRITE
  let clockless := if addr < 0x30 then 1 else 0
  let r := spi_cmd_complete g bus cmd addr (u32_mem big_endian data) 4 clockless
  (r.result, r.bus)

/-- The function `spi_read_reg`; `data` is the previous content of `*data`, and the
second component of the result its content afterwards. -/
def spi_read_reg (big_endian : Bool) (g : wilc_spi) (bus : Bus) (addr data : Nat) :
    Int × Nat × Bus :=
  let cmd := if addr < 0x30 then CMD_INTERNAL_READ else CMD_SINGLE_READ
  let clockless := if addr < 0x30 then 1 else 0
  let r := spi_cmd_complete g bus cmd addr (u32_mem big_endian data) 4 clockless
  let v := u32_of_mem big_endian r.b
  if r.result ≠ N_OK then (0, v, r.bus)
  else (1, if big_endian then BYTE_SWAP v else v, r.bus)

/-- The function `spi_write`. The command is sent with `b == NULL`, which
`CMD_DMA_EXT_WRITE` never dereferences. -/
def spi_write (g : wilc_spi) (bus : Bus) (addr : Nat) (buf : List Nat) (size : Nat) :
    Int × Bus :=
  if size ≤ 4 then (0, bus) else
  let r := spi_cmd_complete g bus CMD_DMA_EXT_WRITE addr [] size 0
  if r.result ≠ N_OK then (0, r.bus) else
  let w := spi_data_write g r.bus buf size
  (1, w.2)

/-- The function `spi_read`: result, the buffer `buf` afterwards, and the bus. -/
def spi_read (g : wilc_spi) (bus : Bus) (addr : Nat) (buf : List Nat) (size : Nat) :
    Int × List Nat × Bus :=
  if size ≤ 4 then (0, buf, bus) else
  let r := spi_cmd_complete g bus CMD_DMA_EXT_READ addr buf size 0
  if r.result ≠ N_OK then (0, r.b, r.bus) else (1, r.b, r.bus)

/-! ## Session: `spi_init`, `spi_read_int`, `spi_sync_ext` -/

/-- Truncation to `uint32_t`. -/
def u32 (x : Nat) : Nat := x % 2 ^ 32

/-- The operator `~` on a `uint32_t`. -/
def not32 (x : Nat) : Nat := 2 ^ 32 - 1 - u32 x

/-- The constants that `wilc_spi.c` takes from `wilc_wlan.h`, a header that is not among
the sources: register addresses, the interrupt masks and offsets, and the largest number
of interrupt lines. -/
structure wilc_consts where
  WILC_SPI_REG_BASE : Nat
  WILC_SPI_PROTOCOL_OFFSET : Nat
  WILC_VMM_TO_HOST_SIZE : Nat
  IRQ_DMA_WD_CNT_MASK : Nat
  IRG_FLAGS_OFFSET : Nat
  MAX_NUM_INT : Int
  WILC_PIN_MUX_0 : Nat
  WILC_INTR_ENABLE : Nat
  WILC_INTR2_ENABLE : Nat

/-- The driver's state across calls: the global `g_spi` (its three callbacks being `bus`)
and the `static int isinit` of `spi_init`. -/
structure Session where
  g : wilc_spi
  isinit : Int
  bus : Bus

/-- What `spi_init` uses of `*inp`: `io_func.io_init` (`none` when the pointer is null,
otherwise the value the call returns) and the transport callbacks `io_func.u.spi`. -/
structure wilc_wlan_inp where
  io_init : Option Int
  spi : Bus

/-- The end of a first-time `spi_init`: the chip id read, then `has_thrpt_enh = 1` and
`isinit = 1`. Returns the result, `g_spi`, `isinit` and the bus. -/
def spi_init_chipid (big_endian : Bool) (g : wilc_spi) (bus : Bus) :
    Int × wilc_spi × Int × Bus :=
  let r := spi_read_reg big_endian g bus 0x3b0000 0
  if r.1 = 0 then (0, g, 0, r.2.2)
  else (1, { g with has_thrpt_enh := 1 }, 1, r.2.2)

/-- The value `spi_init` writes back to the protocol register:
`reg &= ~0xc; reg &= ~0x70; reg |= (0x5 << 4);`. -/
def protocol_reg_crc_off (reg : Nat) : Nat :=
  ((reg &&& not32 0xc) &&& not32 0x70) ||| (0x5 <<< 4)

/-- The block `if (g_spi.crc_off == 0) { ... }` of `spi_init` and what follows it, `reg`
being the protocol register value read before. -/
def spi_init_crc (k : wilc_consts) (big_endian : Bool) (g : wilc_spi) (bus : Bus)
    (reg : Nat) : Int × wilc_spi × Int × Bus :=
  if g.crc_off = 0 then
    let w := spi_internal_write big_endian g bus k.WILC_SPI_PROTOCOL_OFFSET
      (protocol_reg_crc_off reg)
    if w.1 = 0 then (0, g, 0, w.2)
    else spi_init_chipid big_endian { g with crc_off := 1 } w.2
  else spi_init_chipid big_endian g bus

/-- The protocol configuration of a first-time `spi_init`, from `g_spi.crc_off = 0` on:
the read of the protocol register with the checksum on and, when it fails, with the
checksum off. -/
def spi_init_protocol (k : wilc_consts) (big_endian : Bool) (g : wilc_spi) (bus : Bus) :
    Int × wilc_spi × Int × Bus :=
  let g := { g with crc_off := 0 }
  let r1 := spi_internal_read big_endian g bus k.WILC_SPI_PROTOCOL_OFFSET 0
  if r1.1 = 0 then
    let g := { g with crc_off := 1 }
    let r2 := spi_internal_read big_endian g r1.2.2 k.WILC_SPI_PROTOCOL_OFFSET r1.2.1
    if r2.1 = 0 then (0, g, 0, r2.2.2)
    else spi_init_crc k big_endian g r2.2.2 r2.2.1
  else spi_init_crc k big_endian g r1.2.2 r1.2.1

/-- The function `spi_init`. On the first-time path `g_spi` is zeroed and, once
`io_init` has succeeded, its callbacks are those of `inp`; before that no transport call
is made and the session's bus is left as it is. -/
def spi_init (k : wilc_consts) (big_endian : Bool) (s : Session) (inp : wilc_wlan_inp) :
    Int × Session :=
  if s.isinit ≠ 0 then
    let r := spi_read_reg big_endian s.g s.bus 0x3b0000 0
    if r.1 = 0 then (0, { s with bus := r.2.2 }) else (1, { s with bus := r.2.2 })
  else
    match inp.io_init with
    | none => (0, { s with g := ⟨0, 0, 0⟩ })
    | some v =>
      if v = 0 then (0, { s with g := ⟨0, 0, 0⟩ })
      else
        let r := spi_init_protocol k big_endian ⟨0, 0, 0⟩ inp.spi
        (r.1, ⟨r.2.1, r.2.2.1, r.2.2.2⟩)

/-- The subtraction `a - b` on `uint32_t`. -/
def sub32 (a b : Nat) : Nat := (u32 a + 2 ^ 32 - u32 b) % 2 ^ 32

/-- One pass of the `do { ... } while (happended);` loop of `spi_read_int`, entered with
the status `tmp` assembled so far: the flag register reads, whose results are not tested,
and the test against `unknown_mask`. Returns `tmp`, `happended` and the bus. The counter
`j` only appears in the error message. The embedding is the code when the flag reads succeed
and `0 <= nint < 32`: a flag read that fails leaves `irq_flags` indeterminate in C (it
reads as 0 here), and C defines `1ul << g_spi.nint` only for such a count (the shift is
by `nint.toNat` here). -/
def spi_read_int_pass (k : wilc_consts) (big_endian : Bool) (g : wilc_spi) (bus : Bus)
    (tmp : Nat) : Nat × Bool × Bus :=
  let r1 := spi_read_reg big_endian g bus 0x1a90 0
  let tmp1 := tmp ||| u32 ((r1.2.1 >>> 27) <<< k.IRG_FLAGS_OFFSET)
  let r2 := if g.nint > 5 then spi_read_reg big_endian g r1.2.2 0x1a94 r1.2.1 else r1
  let tmp2 :=
    if g.nint > 5 then
      tmp1 ||| u32 (((r2.2.1 >>> 0) &&& 0x7) <<< (k.IRG_FLAGS_OFFSET + 5))
    else tmp1
  let unknown_mask := not32 ((1 <<< g.nint.toNat) - 1)
  (tmp2, decide ((tmp2 >>> k.IRG_FLAGS_OFFSET) &&& unknown_mask ≠ 0), r2.2.2)

/-- The loop `do { ... } while (happended);` of `spi_read_int`, which the source does not
bound: the first argument is the number of passes allowed, and the result is `none` when
the loop has not ended within them, otherwise the final `tmp` and the bus. -/
def spi_read_int_loop (k : wilc_consts) (big_endian : Bool) (g : wilc_spi) :
    Nat → Bus → Nat → Option (Nat × Bus)
  | 0, _, _ => none
  | n + 1, bus, tmp =>
    let p := spi_read_int_pass k big_endian g bus tmp
    if p.2.1 then spi_read_int_loop k big_endian g n p.2.2 p.1
    else some (p.1, p.2.2)

/-- The function `spi_read_int`, allowed `passes` passes of its loop: `none` when it has
not returned within them, otherwise `ret`, `*int_status` and the bus; `int_status` is the
previous content of `*int_status`. -/
def spi_read_int (k : wilc_consts) (big_endian : Bool) (g : wilc_spi) (bus : Bus)
    (int_status : Nat) (passes : Nat) : Option (Int × Nat × Bus) :=
  if g.has_thrpt_enh ≠ 0 then
    some (spi_internal_read big_endian g bus (sub32 0xe840 k.WILC_SPI_REG_BASE) int_status)
  else
    let r := spi_read_reg big_endian g bus k.WILC_VMM_TO_HOST_SIZE 0
    if r.1 = 0 then some (r.1, int_status, r.2.2)
    else
      let tmp := (r.2.1 >>> 2) &&& k.IRQ_DMA_WD_CNT_MASK
      match spi_read_int_loop k big_endian g passes r.2.2 tmp with
      | none => none
      | some l => some (r.1, l.1, l.2)

/-- The loops `for (i = 0; (i < lim) && (nint > 0); i++, nint--) reg |= (1 << (base + i));`
of `spi_sync_ext`; the first argument is `lim - i`. Returns `reg` and `nint`. -/
def enable_lines (base : Nat) : Nat → Nat → Int → Nat → Nat × Int
  | 0, _, nint, reg => (reg, nint)
  | n + 1, i, nint, reg =>
    if nint > 0 then enable_lines base n (i + 1) (nint - 1) (reg ||| u32 (1 <<< (base + i)))
    else (reg, nint)

/-- The part of `spi_sync_ext` after the write of `WILC_INTR_ENABLE`, with `nint` the
number of lines left: the block `if (nint) { ... }` and `return 1`. -/
def spi_sync_ext_intr2 (k : wilc_consts) (big_endian : Bool) (g : wilc_spi) (bus : Bus)
    (nint : Int) (reg : Nat) : Int × wilc_spi × Bus :=
  if nint ≠ 0 then
    let r3 := spi_read_reg big_endian g bus k.WILC_INTR2_ENABLE reg
    if r3.1 = 0 then (0, g, r3.2.2)
    else
      let e := enable_lines 0 3 0 nint r3.2.1
      let r4 := spi_read_reg big_endian g r3.2.2 k.WILC_INTR2_ENABLE e.1
      if r4.1 = 0 then (0, g, r4.2.2) else (1, g, r4.2.2)
  else (1, g, bus)

/-- The part of `spi_sync_ext` from the read of `WILC_INTR_ENABLE` on. -/
def spi_sync_ext_intr (k : wilc_consts) (big_endian : Bool) (g : wilc_spi) (bus : Bus)
    (nint : Int) (reg : Nat) : Int × wilc_spi × Bus :=
  let r2 := spi_read_reg big_endian g bus k.WILC_INTR_ENABLE reg
  if r2.1 = 0 then (0, g, r2.2.2)
  else
    let e := enable_lines 27 5 0 nint r2.2.1
    let w2 := spi_write_reg big_endian g r2.2.2 k.WILC_INTR_ENABLE e.1
    if w2.1 = 0 then (0, g, w2.2)
    else spi_sync_ext_intr2 k big_endian g w2.2 e.2 e.1

/-- The function `spi_sync_ext`: result, `g_spi` and the bus afterwards. -/
def spi_sync_ext (k : wilc_consts) (big_endian : Bool) (g : wilc_spi) (bus : Bus)
    (nint : Int) : Int × wilc_spi × Bus :=
  if nint > k.MAX_NUM_INT then (0, g, bus)
  else
    let g := { g with nint := nint }
    let r1 := spi_read_reg big_endian g bus k.WILC_PIN_MUX_0 0
    if r1.1 = 0 then (0, g, r1.2.2)
    else
      let w1 := spi_write_reg big_endian g r1.2.2 k.WILC_PIN_MUX_0 (r1.2.1 ||| (1 <<< 8))
      if w1.1 = 0 then (0, g, w1.2)
      else spi_sync_ext_intr k big_endian g w1.2 nint (r1.2.1 ||| (1 <<< 8))

/-- The outcome of pass number `n` (counted from 0) of the loop of `spi_read_int` started
on `bus` with status `tmp`: the status assembled up to and including that pass, its
`happended`, and the bus behind it. -/
def read_int_after (k : wilc_consts) (big_endian : Bool) (g : wilc_spi) :
    Nat → Bus → Nat → Nat × Bool × Bus
  | 0, bus, tmp => spi_read_int_pass k big_endian g bus tmp
  | n + 1, bus, tmp =>
    read_int_after k big_endian g n (spi_read_int_pass k big_endian g bus tmp).2.2
      (spi_read_int_pass k big_endian g bus tmp).1

/-- The first byte of every combined transaction of a log: the opcodes sent. -/
def opcodes (log : List Ev) : List Nat :=
  log.filterMap (fun e => match e with
    | Ev.trx wb => wb.head?
    | _ => none)

/-! ## Descriptions of the write data phase -/

/-- The transport calls of one written data block at offset `ix` with `sz` bytes still to
send: the tag byte, the payload, and the two checksum bytes when the checksum is on. -/
def data_block (g : wilc_spi) (b : List Nat) (ix sz : Nat) : List Ev :=
  [Ev.tx [data_write_cmd ix sz],
    Ev.tx_buf ix (if sz ≤ DATA_PKT_SZ then sz else DATA_PKT_SZ)
      ((b.drop ix).take (if sz ≤ DATA_PKT_SZ then sz else DATA_PKT_SZ))]
  ++ (if g.crc_off = 0 then [Ev.tx [0, 0]] else [])

/-- The transport calls of a write of `sz >= 1` bytes from offset `ix` on: one data block
for every 8192 bytes started. -/
def data_blocks (g : wilc_spi) (b : List Nat) (ix sz : Nat) : List Ev :=
  (List.range ((sz + 8191) / 8192)).flatMap
    (fun k => data_block g b (ix + 8192 * k) (sz - 8192 * k))

/-- The payload transmits of a log, as `(offset, length)` into the caller's buffer. -/
def payload_segments (log : List Ev) : List (Nat × Nat) :=
  log.filterMap (fun e => match e with
    | Ev.tx_buf ix nbytes _ => some (ix, nbytes)
    | _ => none)

/-! ## Sample sessions -/

/-- A bus whose successive callback invocations have the outcomes listed in `rs`, and
fail once the list is used up. -/
def bus_of (rs : List (Option (List Nat))) : Bus := ⟨fun k => rs.getD k none, []⟩

/-- A received buffer of a SingleRead with the checksum on (`len2 = 17`): echo `0xCA`,
state 0, six bytes that are no data header, the data header `0xF3` at index 13, and only
three bytes behind it. -/
def rb_short : List Nat := [0, 0, 0, 0, 0, 0xca, 0, 0, 0, 0, 0, 0, 0, 0xf3, 0x11, 0x22, 0x33]

/-- A received buffer of a DmaExtRead with the checksum on (`len2 = 13`): echo `0xC8`,
state 0, and no data header in the three bytes left. -/
def rb_no_hdr : List Nat := [0, 0, 0, 0, 0, 0, 0, 0, 0xc8, 0, 0x11, 0x22, 0x33]

/-- A session for a DmaExtRead of 8200 bytes with the checksum on. The combined
transaction (`len2 = 13`) receives echo `0xC8`, state 0, the data header `0xF0` and two
data bytes; the first packet's payload and checksum follow; then the chip answers the
header scan of the second packet with eleven bytes `0x00`, none of them a data header;
the two receives after that succeed as well. -/
def bus_hdr_timeout : Bus :=
  bus_of ([some [0, 0, 0, 0, 0, 0, 0, 0, 0xc8, 0, 0xf0, 0x11, 0x22], some [], some [0, 0]]
    ++ List.replicate 11 (some [0x00]) ++ [some [], some [0, 0]])

/-- A received buffer of a SingleWrite with the checksum on (`len2 = 14`): behind the nine
bytes clocked in while the command goes out, echo `0xC9` and state 0. -/
def rb_write_ok : List Nat := [0, 0, 0, 0, 0, 0, 0, 0, 0, 0xc9, 0, 0, 0, 0]

/-- A sample set of the constants of `wilc_wlan.h`: the flag bits sit above the low 16
bits of the interrupt status, and at most 8 interrupt lines are supported. -/
def consts_sample : wilc_consts :=
  { WILC_SPI_REG_BASE := 0xe800
    WILC_SPI_PROTOCOL_OFFSET := 0x24
    WILC_VMM_TO_HOST_SIZE := 0x150084
    IRQ_DMA_WD_CNT_MASK := 0xffff
    IRG_FLAGS_OFFSET := 16
    MAX_NUM_INT := 8
    WILC_PIN_MUX_0 := 0x1408
    WILC_INTR_ENABLE := 0x1a00
    WILC_INTR2_ENABLE := 0x1a04 }

/-- The received buffer of a successful register read with the checksum off (`len2 = 14`):
behind the four bytes clocked in while the command goes out, the echo, state 0, the data
header `0xF3` and the four data bytes `d`, least significant first. -/
def rb_read_off (echo : Nat) (d : List Nat) : List Nat :=
  [0, 0, 0, 0, echo, 0, 0xf3] ++ d ++ [0, 0, 0]

/-- The received buffer of a successful register read with the checksum on (`len2 = 17`):
echo, state 0, the data header `0xF3`, the four data bytes `d` and two checksum bytes. -/
def rb_read_on (echo : Nat) (d : List Nat) : List Nat :=
  [0, 0, 0, 0, 0, echo, 0, 0xf3] ++ d ++ [0, 0, 0, 0, 0]

/-- The received buffer of a successful InternalWrite with the checksum on, or SingleWrite
with the checksum off (`len = 8`, `len2 = 13`): the echo and state 0. -/
def rb_write8 (echo : Nat) : List Nat := [0, 0, 0, 0, 0, 0, 0, 0, echo, 0, 0, 0, 0]

/-- An `inp` for a chip that kept its checksum-off mode: `io_init` succeeds, the read of
the protocol register with the checksum on gets no echo, the read with the checksum off
succeeds, and so does the chip id read. -/
def inp_crc_retry : wilc_wlan_inp :=
  ⟨some 1, bus_of [some (List.replicate 17 0), some (rb_read_off 0xc4 [0x50, 0, 0, 0]),
    some (rb_read_off 0xca [0xa0, 0x00, 0x30, 0x00])]⟩

/-- An `inp` for a chip in its reset state: `io_init` succeeds, the read of the protocol
register with the checksum on succeeds (value `0x2e`), and so do the InternalWrite and the
chip id read. -/
def inp_crc_on : wilc_wlan_inp :=
  ⟨some 1, bus_of [some (rb_read_on 0xc4 [0x2e, 0, 0, 0]), some (rb_write8 0xc3),
    some (rb_read_off 0xca [0xa0, 0x00, 0x30, 0x00])]⟩

/-- A session before the first `spi_init`. -/
def session_new : Session := ⟨⟨0, 0, 0⟩, 0, bus_of []⟩

/-- A session after a successful `spi_init`, whose next chip id read succeeds. -/
def session_ready : Session :=
  ⟨⟨1, 3, 1⟩, 1, bus_of [some (rb_read_off 0xca [0xa0, 0x00, 0x30, 0x00])]⟩

/-- A bus on which every callback invocation succeeds, every receive yielding `r`. -/
def bus_ok (r : List Nat) : Bus := ⟨fun _ => some r, []⟩

/-- The configuration with the checksum enabled (`crc_off = 0`). -/
def g_crc_on : wilc_spi := ⟨0, 0, 0⟩

/-- The configuration with the checksum disabled (`crc_off = 1`). -/
def g_crc_off : wilc_spi := ⟨1, 0, 0⟩

/-- The configuration of a Legacy session (`has_thrpt_enh = 0`) with the checksum off and
3 interrupt lines. -/
def g_legacy3 : wilc_spi := ⟨1, 3, 0⟩

/-- A bus for `spi_read_int`: the byte count register reads `0x40`; the first read of the
flag register `0x1a90` yields `0x40000000`, flag bit 3, which is outside the 3 lines; every
later register read yields 0. -/
def bus_flag_glitch : Bus :=
  ⟨fun n => if n = 0 then some (rb_read_off 0xca [0x40, 0, 0, 0])
    else if n = 1 then some (rb_read_off 0xca [0, 0, 0, 0x40])
    else some (rb_read_off 0xca [0, 0, 0, 0]), []⟩

/-- A bus for a DmaExtWrite of 8 bytes with the checksum off: the combined transaction
(`len2 = 12`) receives echo `0xC7` and state 0, and the next transport call, the send of
the data tag, fails. -/
def bus_write_tag_fails : Bus :=
  bus_of [some [0, 0, 0, 0, 0, 0, 0, 0xc7, 0, 0, 0, 0], none]

/-- A bus for a DmaExtRead of 8 bytes with the checksum off: the combined transaction
(`len2 = 12`) receives echo `0xC8`, state 0, the data header and two data bytes, and the
next transport call, the receive of the other six bytes, fails. -/
def bus_read_rest_fails : Bus :=
  bus_of [some [0, 0, 0, 0, 0, 0, 0, 0xc8, 0, 0xf3, 0x11, 0x22], none]

/-- A bus for `spi_sync_ext` with the checksum off on which six transactions succeed, in
the order register read, register write, read, write, read, read; every register reads 0. -/
def bus_sync6 : Bus :=
  bus_of [some (rb_read_off 0xca [0, 0, 0, 0]), some (rb_write8 0xc9),
    some (rb_read_off 0xca [0, 0, 0, 0]), some (rb_write8 0xc9),
    some (rb_read_off 0xca [0, 0, 0, 0]), some (rb_read_off 0xca [0, 0, 0, 0])]

/-- The first four bytes of every combined transaction of a log: for a SingleRead and a
SingleWrite the opcode and the three address bytes. -/
def cmd_headers (log : List Ev) : List (List Nat) :=
  log.filterMap (fun e => match e with
    | Ev.trx wb => some (wb.take 4)
    | _ => none)

/-! ## Descriptions used by the later theorems -/

/-- The table indices `(crc << 1) ^ data` that `crc7` computes through `crc7_byte`, one
for every byte of the buffer, in order. -/
def crc7_indices (crc : Nat) : List Nat → List Nat
  | [] => []
  | d :: rest => ((crc <<< 1) ^^^ d) :: crc7_indices (crc7_byte crc d) rest

/-- The value of a field whose bytes are read back most significant byte first. -/
def msb_first (bytes : List Nat) : Nat := bytes.foldl (fun acc x => acc * 256 + x) 0

/-- The indices of `wb` that `spi_cmd_complete` stores to for an opcode of the `switch`,
`hdr` being the bytes `wb[0 ..]` stored up to the end of the `switch` and `len0` the `len`
it sets: those bytes, the checksum byte `wb[len - 1]` when the checksum is on, and the zero
fill `for (wix = len; wix < len2; wix++) wb[wix] = 0;`. -/
def wb_stores (g : wilc_spi) (cmd : Nat) (hdr : List Nat) (len0 : Nat) : List Nat :=
  List.range hdr.length
    ++ (if g.crc_off = 0 then [len0 - 1] else [])
    ++ (List.range (spi_cmd_complete_len2 g cmd (cmd_len g len0) - cmd_len g len0)).map
        (fun i => cmd_len g len0 + i)

/-- The indices at which the data header scan of `spi_cmd_complete` reads `rb`
(`rsp = rb[rix++]`), in the order of `data_hdr_scan`. -/
def data_hdr_scan_reads (rb : List Nat) (len2 : Nat) : Nat → Nat → List Nat
  | 0, rix => if rix < len2 then [rix] else []
  | retry + 1, rix =>
    if rix < len2 then
      if is_data_hdr (rd rb rix) then [rix]
      else rix :: data_hdr_scan_reads rb len2 retry (rix + 1)
    else []

/-- The indices at which the loop `for (ix = 0; (rix < len2) && (ix < sz); )
b[ix++] = rb[rix++];` reads `rb`, in the order of `copy_dummy`. -/
def copy_dummy_reads (len2 sz : Nat) : Nat → Nat → Nat → List Nat
  | 0, _, _ => []
  | n + 1, rix, ix =>
    if rix < len2 ∧ ix < sz then rix :: copy_dummy_reads len2 sz n (rix + 1) (ix + 1)
    else []

/-- The indices at which the register read branch reads `rb`: the four data bytes and,
with the checksum on, the two checksum bytes `crc[0] = rb[rix++]; crc[1] = rb[rix++];`,
in the order of `reg_read_data`. -/
def reg_read_data_reads (g : wilc_spi) (len2 rix : Nat) : List Nat :=
  if rix + 3 < len2 then
    [rix, rix + 1, rix + 2, rix + 3] ++
      (if g.crc_off = 0 then
        (if (rix + 4) + 1 < len2 then [rix + 4, rix + 5] else [])
      else [])
  else []

/-- The indices at which `spi_cmd_complete` reads `rb` after a successful `spi_trx`, in the
order of `spi_cmd_complete_rsp`: the echo byte, the state byte, the data header scan and
the data. -/
def rb_reads (g : wilc_spi) (cmd sz : Nat) (rb : List Nat) (len len2 : Nat) : List Nat :=
  let rix := if is_ctl cmd then len + 1 else len
  if rd rb rix ≠ cmd then [rix] else
  if rd rb (rix + 1) ≠ 0x00 then [rix, rix + 1] else
  if is_reg_read cmd ∨ is_dma_read cmd then
    let s := data_hdr_scan rb len2 100 (rix + 2)
    [rix, rix + 1] ++ data_hdr_scan_reads rb len2 100 (rix + 2) ++
      (if s.2 ≤ 0 then []
      else if is_reg_read cmd then reg_read_data_reads g len2 s.1
      else if is_dma_read cmd then copy_dummy_reads len2 sz (len2 - s.1) s.1 0
      else [])
  else [rix, rix + 1]

/-- The value of a field whose bytes are read least significant byte first. -/
def lsb_first (bytes : List Nat) : Nat := bytes.foldr (fun x acc => x + 256 * acc) 0

/-- The four data bytes that `spi_write_reg` puts on the wire for `data`, in the order
sent: bytes 4 to 7 of the SingleWrite command (`wb[4] = b[3]; ... wb[7] = b[0];`), bytes 3
to 6 of the InternalWrite command, taken from the combined transaction it issues. -/
def write_reg_wire (big_endian : Bool) (g : wilc_spi) (addr data : Nat) : List Nat :=
  match (spi_write_reg big_endian g (bus_of []) addr data).2.log with
  | [Ev.trx wb] => if addr < 0x30 then (wb.drop 3).take 4 else (wb.drop 4).take 4
  | _ => []

/-- The number of one-byte receives `spi_rx(&rsp, 1)` at the start of a log. -/
def rx1_leading : List Ev → Nat
  | Ev.rx len :: rest => if len = 1 then rx1_leading rest + 1 else 0
  | _ => 0

/-- The length of the longest run of consecutive one-byte receives `spi_rx(&rsp, 1)` in a
log: the largest number of receives that one data header scan makes. -/
def rx1_longest_run : List Ev → Nat
  | [] => 0
  | e :: rest => max (rx1_leading (e :: rest)) (rx1_longest_run rest)

/-- The payload receives of a log, as `(offset, length)` into the caller's buffer. -/
def payload_receives (log : List Ev) : List (Nat × Nat) :=
  log.filterMap (fun e => match e with
    | Ev.rx_buf ix nbytes => some (ix, nbytes)
    | _ => none)

/-- Whether the segments `(offset, length)` fill a buffer from offset `start` on in
increasing order without gap or overlap, each between 1 and 8192 bytes long: the offset
behind the last segment if so, `none` otherwise. -/
def segments_end : Nat → List (Nat × Nat) → Option Nat
  | start, [] => some start
  | start, (ix, n) :: rest =>
    if ix = start ∧ 1 ≤ n ∧ n ≤ 8192 then segments_end (start + n) rest else none

/-- Byte `i` of the buffer `b1` is the byte that a payload receive of `log` stored there:
invocation number `j` of the log is a receive `spi_rx(&b[o], n)` with `o <= i < o + n`,
the callback delivered the bytes `d` at that invocation (`resp j = some d`), and `b1[i]`
is byte `i - o` of `d`. -/
def received_at (resp : Nat → Option (List Nat)) (log : List Ev) (b1 : List Nat)
    (i : Nat) : Prop :=
  ∃ j o n d, log[j]? = some (Ev.rx_buf o n) ∧ o ≤ i ∧ i < o + n ∧ resp j = some d ∧
    b1.getD i 0 = rd d (i - o)

/-- A bus for a DmaExtRead with the checksum on, on which every transport call succeeds:
the combined transaction (`len2 = 13`) receives echo `0xC8`, state 0, the data header
`0xF3` and the two data bytes `0x11 0x22`; invocation number `k >= 1` receives the bytes
`0xF0 + k, 0xA1, 0xA2, 0xA3, 0xA4, 0xA5`, the first of which is a data header for `k < 16`. -/
def bus_read_sample : Bus :=
  ⟨fun k => if k = 0 then some [0, 0, 0, 0, 0, 0, 0, 0, 0xc8, 0, 0xf3, 0x11, 0x22]
    else some [0xf0 + k, 0xa1, 0xa2, 0xa3, 0xa4, 0xa5], []⟩

/-! # Theorems -/

/-! ## The checksum -/

theorem crc7_table_eq : crc7_syndrome_table = (List.range 256).map crc7_remainder := by
  decide!

theorem crc7_table_getD (i : Nat) (hi : i < 256) :
    crc7_syndrome_table.getD i 0 = crc7_remainder i := by
  rw [crc7_table_eq, List.getD_eq_getElem?_getD, List.getElem?_map,
    List.getElem?_range hi]
  rfl

theorem crc7_shift_byte_eq (c d : Nat) : crc7_shift_byte c d = shift_bits c d 8 := rfl

theorem crc7_shift_bit_lt (c : Nat) (b : Bool) : crc7_shift_bit c b < 128 := by
  unfold crc7_shift_bit
  have h : (c <<< 1) % 128 < 2 ^ 7 := Nat.mod_lt _ (by norm_num)
  split
  · exact Nat.xor_lt_two_pow h (by norm_num)
  · exact h

/-- One division step on a register aligned at bit `n`, checked on all registers. -/
theorem shift_bit_aligned_all : (List.range 8).all (fun n => (List.range 128).all (fun c =>
    [false, true].all (fun b =>
      ((c <<< (n + 1)) ^^^ (b.toNat <<< (n + 7)) ^^^
        (if (c.testBit 6 != b) then CRC7_POLY <<< n else 0))
          == (crc7_shift_bit c b) <<< n))) = true := by
  decide!

theorem shift_bit_aligned (n c : Nat) (b : Bool) (hn : n < 8) (hc : c < 128) :
    (c <<< (n + 1)) ^^^ (b.toNat <<< (n + 7)) ^^^
        (if (c.testBit 6 != b) then CRC7_POLY <<< n else 0) = (crc7_shift_bit c b) <<< n := by
  have h := shift_bit_aligned_all
  rw [List.all_eq_true] at h
  have h1 := h n (List.mem_range.mpr hn)
  rw [List.all_eq_true] at h1
  have h2 := h1 c (List.mem_range.mpr hc)
  rw [List.all_eq_true] at h2
  have h3 := h2 b (by cases b <;> simp)
  exact beq_iff_eq.mp h3

theorem mod_two_pow_succ_split (n d : Nat) :
    d % 2 ^ (n + 1) = ((d.testBit n).toNat <<< n) ^^^ (d % 2 ^ n) := by
  apply Nat.eq_of_testBit_eq
  intro i
  simp only [Nat.testBit_mod_two_pow, Nat.testBit_xor, Nat.testBit_shiftLeft,
    Nat.testBit_bool_to_nat]
  by_cases h1 : i < n
  · have h2 : i < n + 1 := by omega
    have h3 : ¬ (i ≥ n) := by omega
    simp [h1, h2, h3]
  · by_cases h4 : i = n
    · subst h4
      simp
    · have h5 : ¬ (i < n + 1) := by omega
      have h6 : i ≥ n := by omega
      have h7 : ¬ (i - n = 0) := by omega
      simp [h1, h5, h6, h7]

theorem shiftLeft_xor (a b k : Nat) : (a ^^^ b) <<< k = (a <<< k) ^^^ (b <<< k) := by
  apply Nat.eq_of_testBit_eq
  intro i
  simp only [Nat.testBit_xor, Nat.testBit_shiftLeft]
  by_cases h : i ≥ k <;> simp [h]

/-- One step of the long division is one clock of the shift register. -/
theorem gf2_reduce_step (n c d : Nat) (hn : n < 8) (hc : c < 128) :
    (if ((c <<< (n + 1)) ^^^ ((d % 2 ^ (n + 1)) <<< 7)).testBit (n + 7)
      then ((c <<< (n + 1)) ^^^ ((d % 2 ^ (n + 1)) <<< 7)) ^^^ (CRC7_POLY <<< n)
      else ((c <<< (n + 1)) ^^^ ((d % 2 ^ (n + 1)) <<< 7)))
    = ((crc7_shift_bit c (d.testBit n)) <<< n) ^^^ ((d % 2 ^ n) <<< 7) := by
  have ht : ((c <<< (n + 1)) ^^^ ((d % 2 ^ (n + 1)) <<< 7)).testBit (n + 7)
      = (c.testBit 6 != d.testBit n) := by
    simp only [Nat.testBit_xor, Nat.testBit_shiftLeft, Nat.testBit_mod_two_pow]
    have e1 : n + 7 - (n + 1) = 6 := by omega
    have e2 : n + 7 - 7 = n := by omega
    have e3 : n + 7 ≥ n + 1 := by omega
    simp [e1, e2, e3]
  have hb := shift_bit_aligned n c (d.testBit n) hn hc
  rw [ht, ← hb, mod_two_pow_succ_split n d, shiftLeft_xor]
  have e4 : ((d.testBit n).toNat <<< n) <<< 7 = (d.testBit n).toNat <<< (n + 7) := by
    rw [Nat.shiftLeft_add]
  rw [e4]
  generalize (c <<< (n + 1)) = A
  generalize ((d.testBit n).toNat <<< (n + 7)) = B
  generalize ((d % 2 ^ n) <<< 7) = R
  generalize (CRC7_POLY <<< n) = P
  by_cases hf : (c.testBit 6 != d.testBit n) = true
  · simp only [hf, if_true]
    simp only [Nat.xor_assoc]
    congr 1
    congr 1
    exact Nat.xor_comm R P
  · simp only [hf]
    simp [Nat.xor_assoc]

theorem shift_bits_reduce (n : Nat) (hn : n ≤ 8) : ∀ c d, c < 128 →
    shift_bits c d n = gf2_reduce ((c <<< n) ^^^ ((d % 2 ^ n) <<< 7)) n := by
  induction n with
  | zero =>
    intro c d _
    simp [shift_bits, gf2_reduce, Nat.mod_one]
  | succ n ih =>
    intro c d hc
    have hn1 : n < 8 := by omega
    rw [shift_bits, gf2_reduce, gf2_reduce_step n c d hn1 hc]
    exact ih (by omega) _ d (crc7_shift_bit_lt _ _)

/-- The table lookup of `crc7_byte` is eight clocks of the shift register. -/
theorem crc7_byte_eq_shift (c d : Nat) (hc : c < 128) (hd : d < 256) :
    crc7_byte c d = crc7_shift_byte c d := by
  have hidx : (c <<< 1) ^^^ d < 2 ^ 8 := by
    apply Nat.xor_lt_two_pow
    · rw [Nat.shiftLeft_eq]; omega
    · simpa using hd
  rw [crc7_shift_byte_eq, shift_bits_reduce 8 (le_refl 8) c d hc, crc7_byte,
    crc7_table_getD _ hidx, crc7_remainder, shiftLeft_xor]
  have e1 : d % 2 ^ 8 = d := Nat.mod_eq_of_lt (by simpa using hd)
  have e2 : (c <<< 1) <<< 7 = c <<< 8 := by rw [← Nat.shiftLeft_add]
  rw [e1, e2]

theorem crc7_byte_lt (c d : Nat) (hc : c < 128) (hd : d < 256) : crc7_byte c d < 128 := by
  rw [crc7_byte_eq_shift c d hc hd, crc7_shift_byte_eq]
  exact crc7_shift_bit_lt _ _

/-- Claim C3: the table-driven `crc7` is the standard CRC-7 with generator
`x^7 + x^3 + 1`. The table holds, entry by entry, the remainder of `i(x) * x^7` modulo the
generator over GF(2), and for every 7-bit start value `c` and every sequence `s` of bytes
`crc7 c s` is the result of the MSB-first shift-register computation started from `c`. -/
theorem crc7_is_standard_crc7 (c : Nat) (s : List Nat) (hc : c < 128)
    (hs : ∀ x ∈ s, x < 256) :
    crc7_syndrome_table = (List.range 256).map crc7_remainder ∧
    crc7 c s = crc7_bitwise c s := by
  refine ⟨crc7_table_eq, ?_⟩
  induction s generalizing c with
  | nil => rfl
  | cons d rest ih =>
    have hd : d < 256 := hs d (List.mem_cons_self _ _)
    have hrest : ∀ x ∈ rest, x < 256 := fun x hx => hs x (List.mem_cons_of_mem _ hx)
    rw [crc7, crc7_bitwise, List.foldl_cons, ← crc7_byte_eq_shift c d hc hd]
    exact ih (crc7_byte c d) (crc7_byte_lt c d hc hd) hrest

theorem crc7_is_standard_crc7_witness :
    crc7_syndrome_table = (List.range 256).map crc7_remainder ∧
    crc7 0x7f [0xc9, 0x00, 0x12, 0x34] = crc7_bitwise 0x7f [0xc9, 0x00, 0x12, 0x34] :=
  crc7_is_standard_crc7 0x7f [0xc9, 0x00, 0x12, 0x34] (by decide) (by decide)

/-! ## Transport primitives and the log -/

@[simp] theorem spi_tx_log (bus : Bus) (data : List Nat) :
    (spi_tx bus data).2.log = bus.log ++ [Ev.tx data] := rfl

@[simp] theorem spi_tx_buf_log (bus : Bus) (b : List Nat) (ix nbytes : Nat) :
    (spi_tx_buf bus b ix nbytes).2.log
      = bus.log ++ [Ev.tx_buf ix nbytes ((b.drop ix).take nbytes)] := rfl

@[simp] theorem spi_rx_log (bus : Bus) (len : Nat) :
    (spi_rx bus len).2.log = bus.log ++ [Ev.rx len] := rfl

@[simp] theorem spi_rx_buf_log (bus : Bus) (ix nbytes : Nat) :
    (spi_rx_buf bus ix nbytes).2.log = bus.log ++ [Ev.rx_buf ix nbytes] := rfl

@[simp] theorem spi_trx_log (bus : Bus) (wb : List Nat) :
    (spi_trx bus wb).2.log = bus.log ++ [Ev.trx wb] := rfl

theorem prefix_spi_rx {l : List Ev} {bus : Bus} (h : l <+: bus.log) (len : Nat) :
    l <+: (spi_rx bus len).2.log := h.trans (List.prefix_append _ _)

theorem prefix_spi_rx_buf {l : List Ev} {bus : Bus} (h : l <+: bus.log) (ix nbytes : Nat) :
    l <+: (spi_rx_buf bus ix nbytes).2.log := h.trans (List.prefix_append _ _)

theorem prefix_spi_tx {l : List Ev} {bus : Bus} (h : l <+: bus.log) (data : List Nat) :
    l <+: (spi_tx bus data).2.log := h.trans (List.prefix_append _ _)

theorem prefix_spi_tx_buf {l : List Ev} {bus : Bus} (h : l <+: bus.log) (b : List Nat)
    (ix nbytes : Nat) : l <+: (spi_tx_buf bus b ix nbytes).2.log :=
  h.trans (List.prefix_append _ _)

theorem rx_hdr_scan_log (n : Nat) : ∀ bus : Bus, bus.log <+: (rx_hdr_scan n bus).2.2.log := by
  induction n with
  | zero =>
    intro bus
    unfold rx_hdr_scan
    dsimp only
    split
    · exact List.prefix_append _ _
    · split <;> exact List.prefix_append _ _
  | succ n ih =>
    intro bus
    unfold rx_hdr_scan
    dsimp only
    split
    · exact List.prefix_append _ _
    · split
      · exact List.prefix_append _ _
      · exact (List.prefix_append _ _).trans (ih (spi_rx bus 1).2)

theorem dma_read_rest_log (g : wilc_spi) (n : Nat) :
    ∀ (bus : Bus) (b : List Nat) (ix sz : Nat),
      bus.log <+: (dma_read_rest g n bus b ix sz).bus.log := by
  induction n with
  | zero => intro bus b ix sz; exact List.prefix_rfl
  | succ n ih =>
    intro bus b ix sz
    unfold dma_read_rest
    dsimp only
    have h1 := rx_hdr_scan_log 10 bus
    split
    · split
      · exact h1
      · split
        · exact h1.trans (List.prefix_append _ _)
        · split
          · split
            · exact prefix_spi_rx (prefix_spi_rx_buf h1 _ _) _
            · exact (prefix_spi_rx (prefix_spi_rx_buf h1 _ _) _).trans (ih _ _ _ _)
          · exact (prefix_spi_rx_buf h1 _ _).trans (ih _ _ _ _)
    · exact List.prefix_rfl

/-- The pass counter of the `while (sz > 0)` loop of `spi_cmd_complete` is never used up:
any two counters of at least `sz` give the same run. -/
theorem dma_read_rest_fuel (g : wilc_spi) : ∀ (f1 f2 : Nat) (bus : Bus) (b : List Nat)
    (ix sz : Nat), sz ≤ f1 → sz ≤ f2 →
    dma_read_rest g f1 bus b ix sz = dma_read_rest g f2 bus b ix sz := by
  intro f1
  induction f1 with
  | zero =>
    intro f2 bus b ix sz h1 h2
    have hz : sz = 0 := by omega
    subst hz
    cases f2 with
    | zero => rfl
    | succ f2 => simp [dma_read_rest]
  | succ f ih =>
    intro f2 bus b ix sz h1 h2
    cases f2 with
    | zero =>
      have hz : sz = 0 := by omega
      subst hz
      simp [dma_read_rest]
    | succ f2 =>
      rw [dma_read_rest]
      conv_rhs => rw [dma_read_rest]
      by_cases hz : sz > 0
      · have hpos : 1 ≤ (if sz ≤ DATA_PKT_SZ then sz else DATA_PKT_SZ) := by
          simp only [DATA_PKT_SZ, DATA_PKT_SZ_8K]
          split_ifs <;> omega
        have e : ∀ (bus : Bus) (b : List Nat) (ix : Nat),
            dma_read_rest g f bus b ix (sz - (if sz ≤ DATA_PKT_SZ then sz else DATA_PKT_SZ))
            = dma_read_rest g f2 bus b ix
                (sz - (if sz ≤ DATA_PKT_SZ then sz else DATA_PKT_SZ)) :=
          fun bus b ix => ih f2 bus b ix _ (by omega) (by omega)
        simp only [e]
      · simp [hz]

theorem dma_read_data_log (g : wilc_spi) (bus : Bus) (rb : List Nat) (len2 rix : Nat)
    (b : List Nat) (sz : Nat) : bus.log <+: (dma_read_data g bus rb len2 rix b sz).bus.log := by
  unfold dma_read_data
  dsimp only
  split
  · split
    · exact List.prefix_append _ _
    · split
      · split
        · exact prefix_spi_rx (prefix_spi_rx_buf List.prefix_rfl _ _) _
        · exact (prefix_spi_rx (prefix_spi_rx_buf List.prefix_rfl _ _) _).trans
            (dma_read_rest_log g _ _ _ _ _)
      · exact (prefix_spi_rx_buf List.prefix_rfl _ _).trans (dma_read_rest_log g _ _ _ _ _)
  · exact List.prefix_rfl

theorem reg_read_data_bus (g : wilc_spi) (bus : Bus) (rb : List Nat) (len2 rix : Nat)
    (b : List Nat) : (reg_read_data g bus rb len2 rix b).bus = bus := by
  unfold reg_read_data
  dsimp only
  repeat' split
  all_goals rfl

theorem spi_cmd_complete_data_log (g : wilc_spi) (bus : Bus) (cmd : Nat) (b : List Nat)
    (sz : Nat) (rb : List Nat) (len2 rix : Nat) :
    bus.log <+: (spi_cmd_complete_data g bus cmd b sz rb len2 rix).bus.log := by
  unfold spi_cmd_complete_data
  dsimp only
  split
  · exact List.prefix_rfl
  · split
    · rw [reg_read_data_bus]
    · split
      · exact dma_read_data_log g _ _ _ _ _ _
      · exact List.prefix_rfl

theorem spi_cmd_complete_data_bus (g : wilc_spi) (bus : Bus) (cmd : Nat) (b : List Nat)
    (sz : Nat) (rb : List Nat) (len2 rix : Nat) (h : is_dma_read cmd = false) :
    (spi_cmd_complete_data g bus cmd b sz rb len2 rix).bus = bus := by
  unfold spi_cmd_complete_data
  dsimp only
  rw [h]
  split
  · rfl
  · split
    · rw [reg_read_data_bus]
    · rfl

theorem spi_cmd_complete_rsp_log (g : wilc_spi) (bus : Bus) (cmd : Nat) (b : List Nat)
    (sz : Nat) (rb : List Nat) (len len2 : Nat) :
    bus.log <+: (spi_cmd_complete_rsp g bus cmd b sz rb len len2).bus.log := by
  unfold spi_cmd_complete_rsp
  dsimp only
  generalize (if is_ctl cmd = true then len + 1 else len) = rix
  split
  · exact List.prefix_rfl
  · split
    · exact List.prefix_rfl
    · split
      · exact spi_cmd_complete_data_log g _ _ _ _ _ _ _
      · exact List.prefix_rfl

/-- Outside the two DMA reads the response parser makes no transport call. -/
theorem spi_cmd_complete_rsp_bus (g : wilc_spi) (bus : Bus) (cmd : Nat) (b : List Nat)
    (sz : Nat) (rb : List Nat) (len len2 : Nat) (h : is_dma_read cmd = false) :
    (spi_cmd_complete_rsp g bus cmd b sz rb len len2).bus = bus := by
  unfold spi_cmd_complete_rsp
  dsimp only
  generalize (if is_ctl cmd = true then len + 1 else len) = rix
  split
  · rfl
  · split
    · rfl
    · split
      · exact spi_cmd_complete_data_bus g _ _ _ _ _ _ _ h
      · rfl

/-- The first transport call of `spi_cmd_complete` is the combined transaction carrying
the command bytes followed by zeros. -/
theorem spi_cmd_complete_log (g : wilc_spi) (bus : Bus) (cmd adr : Nat) (b : List Nat)
    (sz clockless : Nat) (wb0 : List Nat) (len0 : Nat)
    (hwb : spi_cmd_complete_wb cmd adr b sz clockless = some (wb0, len0))
    (hlen : spi_cmd_complete_len2 g cmd (cmd_len g len0) ≤ 32) :
    ∃ rest, (spi_cmd_complete g bus cmd adr b sz clockless).bus.log
      = bus.log ++ Ev.trx (cmd_frame g wb0 len0 ++ List.replicate
          (spi_cmd_complete_len2 g cmd (cmd_len g len0) - cmd_len g len0) 0) :: rest := by
  unfold spi_cmd_complete
  rw [hwb]
  dsimp only
  rw [if_neg (by omega)]
  split
  · exact ⟨[], by simp⟩
  · obtain ⟨rest, h⟩ := spi_cmd_complete_rsp_log g (spi_trx bus (cmd_frame g wb0 len0 ++
      List.replicate (spi_cmd_complete_len2 g cmd (cmd_len g len0) - cmd_len g len0) 0)).2 cmd b sz
      (by assumption) (cmd_len g len0) (spi_cmd_complete_len2 g cmd (cmd_len g len0))
    exact ⟨rest, by rw [← h]; simp⟩

/-- Outside the two DMA reads the combined transaction is the only transport call. -/
theorem spi_cmd_complete_log_single (g : wilc_spi) (bus : Bus) (cmd adr : Nat) (b : List Nat)
    (sz clockless : Nat) (wb0 : List Nat) (len0 : Nat)
    (hwb : spi_cmd_complete_wb cmd adr b sz clockless = some (wb0, len0))
    (hlen : spi_cmd_complete_len2 g cmd (cmd_len g len0) ≤ 32)
    (h : is_dma_read cmd = false) :
    (spi_cmd_complete g bus cmd adr b sz clockless).bus.log
      = bus.log ++ [Ev.trx (cmd_frame g wb0 len0 ++ List.replicate
          (spi_cmd_complete_len2 g cmd (cmd_len g len0) - cmd_len g len0) 0)] := by
  unfold spi_cmd_complete
  rw [hwb]
  dsimp only
  rw [if_neg (by omega)]
  split
  · simp
  · rw [spi_cmd_complete_rsp_bus _ _ _ _ _ _ _ _ h]
    simp

theorem shiftLeft_or_lt (hi lo k : Nat) (h : lo < 2 ^ k) : (hi <<< k) ||| lo = hi * 2 ^ k + lo := by
  rw [Nat.shiftLeft_eq, Nat.mul_comm, ← Nat.mul_add_lt_is_or h]

theorem BYTE_SWAP_eq (v : Nat) :
    BYTE_SWAP v = u8 v * 2 ^ 24 + (u8 (v >>> 8) * 2 ^ 16 + (u8 (v >>> 16) * 2 ^ 8 + u8 (v >>> 24))) := by
  unfold BYTE_SWAP
  have h1 : u8 (v >>> 8) < 2 ^ 8 := Nat.mod_lt _ (by norm_num)
  have h2 : u8 (v >>> 16) < 2 ^ 8 := Nat.mod_lt _ (by norm_num)
  have h3 : u8 (v >>> 24) < 2 ^ 8 := Nat.mod_lt _ (by norm_num)
  generalize u8 v = a at *
  generalize u8 (v >>> 8) = b at *
  generalize u8 (v >>> 16) = c at *
  generalize u8 (v >>> 24) = d at *
  rw [Nat.or_assoc, Nat.or_assoc, shiftLeft_or_lt c d 8 h3,
    shiftLeft_or_lt b _ 16 (by omega), shiftLeft_or_lt a _ 24 (by omega)]

theorem u32_mem_BYTE_SWAP (v : Nat) : u32_mem true (BYTE_SWAP v) = u32_mem false v := by
  rw [BYTE_SWAP_eq]
  simp only [u32_mem, if_true, Bool.false_eq_true, if_false, u8, Nat.shiftRight_eq_div_pow]
  have h0 : v % 256 < 256 := Nat.mod_lt _ (by norm_num)
  have h1 : (v / 2 ^ 8) % 256 < 256 := Nat.mod_lt _ (by norm_num)
  have h2 : (v / 2 ^ 16) % 256 < 256 := Nat.mod_lt _ (by norm_num)
  have h3 : (v / 2 ^ 24) % 256 < 256 := Nat.mod_lt _ (by norm_num)
  generalize v % 256 = a at *
  generalize (v / 2 ^ 8) % 256 = b at *
  generalize (v / 2 ^ 16) % 256 = c at *
  generalize (v / 2 ^ 24) % 256 = d at *
  have e0 : (a * 2 ^ 24 + (b * 2 ^ 16 + (c * 2 ^ 8 + d))) / 2 ^ 24 % 256 = a := by omega
  have e1 : (a * 2 ^ 24 + (b * 2 ^ 16 + (c * 2 ^ 8 + d))) / 2 ^ 16 % 256 = b := by omega
  have e2 : (a * 2 ^ 24 + (b * 2 ^ 16 + (c * 2 ^ 8 + d))) / 2 ^ 8 % 256 = c := by omega
  have e3 : (a * 2 ^ 24 + (b * 2 ^ 16 + (c * 2 ^ 8 + d))) % 256 = d := by omega
  rw [e0, e1, e2, e3]

/-- The buffer `(uint8_t *)&data` that `spi_write_reg` passes on holds the value's bytes
least significant first, on either kind of host. -/
theorem write_reg_mem (big_endian : Bool) (v : Nat) :
    u32_mem big_endian (if big_endian then BYTE_SWAP v else v) = u32_mem false v := by
  cases big_endian
  · rfl
  · exact u32_mem_BYTE_SWAP v

/-- Claim C1: with the checksum enabled the SingleWrite command is the 9 bytes
`0xC9, a[23:16], a[15:8], a[7:0], d[31:24], d[23:16], d[15:8], d[7:0]` followed by
`(crc7(0x7F, those 8 bytes) << 1) mod 256`. `spi_cmd` transmits exactly these 9 bytes, and
`spi_cmd_complete`, given the memory image of `d` that `spi_write_reg` passes on either
kind of host, sends them at the start of the combined transaction, followed by the 5 zero
bytes that clock in the response. -/
theorem single_write_command (g : wilc_spi) (bus : Bus) (big_endian : Bool)
    (a d sz clockless : Nat) (hcrc : g.crc_off = 0) :
    (spi_cmd g bus CMD_SINGLE_WRITE a d sz clockless).2.log = bus.log ++
      [Ev.tx [0xc9, (a >>> 16) % 256, (a >>> 8) % 256, a % 256,
        (d >>> 24) % 256, (d >>> 16) % 256, (d >>> 8) % 256, d % 256,
        (crc7 0x7f [0xc9, (a >>> 16) % 256, (a >>> 8) % 256, a % 256,
          (d >>> 24) % 256, (d >>> 16) % 256, (d >>> 8) % 256, d % 256] <<< 1) % 256]] ∧
    (spi_cmd_complete g bus CMD_SINGLE_WRITE a
        (u32_mem big_endian (if big_endian then BYTE_SWAP d else d)) sz clockless).bus.log
      = bus.log ++
      [Ev.trx ([0xc9, (a >>> 16) % 256, (a >>> 8) % 256, a % 256,
        (d >>> 24) % 256, (d >>> 16) % 256, (d >>> 8) % 256, d % 256,
        (crc7 0x7f [0xc9, (a >>> 16) % 256, (a >>> 8) % 256, a % 256,
          (d >>> 24) % 256, (d >>> 16) % 256, (d >>> 8) % 256, d % 256] <<< 1) % 256]
        ++ [0, 0, 0, 0, 0])] := by
  constructor
  · simp [spi_cmd, spi_cmd_bc, CMD_SINGLE_WRITE, CMD_SINGLE_READ, CMD_INTERNAL_READ,
      CMD_TERMINATE, CMD_REPEAT, CMD_RESET, CMD_DMA_WRITE, CMD_DMA_READ, CMD_DMA_EXT_WRITE,
      CMD_DMA_EXT_READ, CMD_INTERNAL_WRITE, cmd_frame, hcrc, spi_tx, u8]
    split <;> rfl
  · rw [write_reg_mem, spi_cmd_complete_log_single g bus CMD_SINGLE_WRITE a (u32_mem false d) sz
      clockless _ 9 rfl (by simp [spi_cmd_complete_len2, cmd_len, hcrc, is_ctl, is_reg_read,
        CMD_SINGLE_WRITE, CMD_RESET, CMD_TERMINATE, CMD_REPEAT, CMD_INTERNAL_READ,
        CMD_SINGLE_READ, NUM_RSP_BYTES, NUM_DUMMY_BYTES]) (by decide)]
    simp [cmd_frame, hcrc, spi_cmd_complete_len2, cmd_len, is_ctl, is_reg_read,
        CMD_SINGLE_WRITE, CMD_RESET, CMD_TERMINATE, CMD_REPEAT, CMD_INTERNAL_READ,
        CMD_SINGLE_READ, NUM_RSP_BYTES, NUM_DUMMY_BYTES, u32_mem, rd, u8]
theorem single_write_command_witness :
    g_crc_on.crc_off = 0 ∧
    (spi_cmd g_crc_on (bus_of []) CMD_SINGLE_WRITE 0x001234 0xDEADBEEF 4 0).2.log
      = [Ev.tx [0xc9, 0x00, 0x12, 0x34, 0xde, 0xad, 0xbe, 0xef, 0xd0]] ∧
    (spi_cmd_complete g_crc_on (bus_of []) CMD_SINGLE_WRITE 0x001234
        (u32_mem false 0xDEADBEEF) 4 0).bus.log
      = [Ev.trx [0xc9, 0x00, 0x12, 0x34, 0xde, 0xad, 0xbe, 0xef, 0xd0, 0, 0, 0, 0, 0]] :=
  ⟨rfl, single_write_command g_crc_on (bus_of []) false 0x001234 0xDEADBEEF 4 0 rfl⟩

theorem spi_cmd_complete_len2_le (g : wilc_spi) (cmd len : Nat) :
    spi_cmd_complete_len2 g cmd len ≤ len + 12 ∧ len ≤ spi_cmd_complete_len2 g cmd len := by
  unfold spi_cmd_complete_len2
  simp only [NUM_SKIP_BYTES, NUM_RSP_BYTES, NUM_DATA_HDR_BYTES, NUM_DATA_BYTES, NUM_CRC_BYTES,
    NUM_DUMMY_BYTES]
  split_ifs <;> omega

theorem cmd_len_le (g : wilc_spi) (len : Nat) : cmd_len g len ≤ len := by
  unfold cmd_len
  split_ifs <;> omega

theorem cmd_frame_on (g : wilc_spi) (hdr : List Nat) (h : g.crc_off = 0) :
    cmd_frame g hdr (hdr.length + 1) = hdr ++ [(crc7 0x7f hdr <<< 1) % 256] := by
  simp [cmd_frame, h, u8]

theorem cmd_frame_off (g : wilc_spi) (hdr : List Nat) (h : g.crc_off ≠ 0) :
    cmd_frame g hdr (hdr.length + 1) = hdr := by
  simp [cmd_frame, h]

/-- Claim C2: for every supported opcode the command has a header `hdr` (the bytes stored
by the `switch`, one fewer than `len`); with the checksum enabled the command sent is
`hdr` followed by the single byte `(crc7(0x7F, hdr) << 1) mod 256`, and with the checksum
disabled it is `hdr` alone, one byte shorter and otherwise identical. `spi_cmd` transmits
exactly the command; `spi_cmd_complete` sends it as the start of its combined transaction,
followed only by the `len2 - len` zero bytes that clock in the response. -/
theorem command_checksum_last_byte (g_on g_off : wilc_spi) (bus : Bus)
    (cmd adr data sz clockless : Nat) (b : List Nat)
    (hsup : cmd ∈ supported_cmds) (hon : g_on.crc_off = 0) (hoff : g_off.crc_off ≠ 0) :
    (∃ hdr, spi_cmd_bc cmd adr data sz clockless = some (hdr, hdr.length + 1) ∧
      (spi_cmd g_on bus cmd adr data sz clockless).2.log
        = bus.log ++ [Ev.tx (hdr ++ [(crc7 0x7f hdr <<< 1) % 256])] ∧
      (spi_cmd g_off bus cmd adr data sz clockless).2.log = bus.log ++ [Ev.tx hdr]) ∧
    (∃ hdr rest_on rest_off,
      spi_cmd_complete_wb cmd adr b sz clockless = some (hdr, hdr.length + 1) ∧
      (spi_cmd_complete g_on bus cmd adr b sz clockless).bus.log
        = bus.log ++ Ev.trx (hdr ++ [(crc7 0x7f hdr <<< 1) % 256] ++ List.replicate
            (spi_cmd_complete_len2 g_on cmd (hdr.length + 1) - (hdr.length + 1)) 0) :: rest_on ∧
      (spi_cmd_complete g_off bus cmd adr b sz clockless).bus.log
        = bus.log ++ Ev.trx (hdr ++ List.replicate
            (spi_cmd_complete_len2 g_off cmd hdr.length - hdr.length) 0) :: rest_off) := by
  simp only [supported_cmds, List.mem_cons, List.mem_singleton, List.not_mem_nil,
    or_false] at hsup
  constructor
  · have key : ∀ hdr, spi_cmd_bc cmd adr data sz clockless = some (hdr, hdr.length + 1) →
        (spi_cmd g_on bus cmd adr data sz clockless).2.log
          = bus.log ++ [Ev.tx (hdr ++ [(crc7 0x7f hdr <<< 1) % 256])] ∧
        (spi_cmd g_off bus cmd adr data sz clockless).2.log = bus.log ++ [Ev.tx hdr] := by
      intro hdr h
      unfold spi_cmd
      rw [h]
      dsimp only
      rw [cmd_frame_on g_on hdr hon, cmd_frame_off g_off hdr hoff]
      constructor <;> split <;> rfl
    rcases hsup with h | h | h | h | h | h | h | h | h | h | h <;> subst h <;>
      exact ⟨_, rfl, key _ rfl⟩
  · have key : ∀ hdr, spi_cmd_complete_wb cmd adr b sz clockless = some (hdr, hdr.length + 1) →
        hdr.length + 1 ≤ 9 →
        ∃ rest_on rest_off,
          (spi_cmd_complete g_on bus cmd adr b sz clockless).bus.log
            = bus.log ++ Ev.trx (hdr ++ [(crc7 0x7f hdr <<< 1) % 256] ++ List.replicate
                (spi_cmd_complete_len2 g_on cmd (hdr.length + 1) - (hdr.length + 1)) 0)
                  :: rest_on ∧
          (spi_cmd_complete g_off bus cmd adr b sz clockless).bus.log
            = bus.log ++ Ev.trx (hdr ++ List.replicate
                (spi_cmd_complete_len2 g_off cmd hdr.length - hdr.length) 0) :: rest_off := by
      intro hdr h hl9
      have b_on : spi_cmd_complete_len2 g_on cmd (cmd_len g_on (hdr.length + 1)) ≤ 32 := by
        have := (spi_cmd_complete_len2_le g_on cmd (cmd_len g_on (hdr.length + 1))).1
        have := cmd_len_le g_on (hdr.length + 1)
        omega
      have b_off : spi_cmd_complete_len2 g_off cmd (cmd_len g_off (hdr.length + 1)) ≤ 32 := by
        have := (spi_cmd_complete_len2_le g_off cmd (cmd_len g_off (hdr.length + 1))).1
        have := cmd_len_le g_off (hdr.length + 1)
        omega
      obtain ⟨r1, h1⟩ := spi_cmd_complete_log g_on bus cmd adr b sz clockless _ _ h b_on
      obtain ⟨r2, h2⟩ := spi_cmd_complete_log g_off bus cmd adr b sz clockless _ _ h b_off
      have c_on : cmd_len g_on (hdr.length + 1) = hdr.length + 1 := by simp [cmd_len, hon]
      have c_off : cmd_len g_off (hdr.length + 1) = hdr.length := by simp [cmd_len, hoff]
      rw [cmd_frame_on g_on hdr hon, c_on] at h1
      rw [cmd_frame_off g_off hdr hoff, c_off] at h2
      exact ⟨r1, r2, h1, h2⟩
    rcases hsup with h | h | h | h | h | h | h | h | h | h | h <;> subst h
    all_goals
      obtain ⟨r1, r2, h⟩ := key _ rfl (by simp)
      exact ⟨_, r1, r2, rfl, h⟩

theorem command_checksum_last_byte_witness :
    CMD_DMA_EXT_READ ∈ supported_cmds ∧ g_crc_on.crc_off = 0 ∧ g_crc_off.crc_off ≠ 0 ∧
    ((∃ hdr, spi_cmd_bc CMD_DMA_EXT_READ 0x123456 0 20000 0 = some (hdr, hdr.length + 1) ∧
      (spi_cmd g_crc_on (bus_of []) CMD_DMA_EXT_READ 0x123456 0 20000 0).2.log
        = (bus_of []).log ++ [Ev.tx (hdr ++ [(crc7 0x7f hdr <<< 1) % 256])] ∧
      (spi_cmd g_crc_off (bus_of []) CMD_DMA_EXT_READ 0x123456 0 20000 0).2.log
        = (bus_of []).log ++ [Ev.tx hdr]) ∧
    (∃ hdr rest_on rest_off,
      spi_cmd_complete_wb CMD_DMA_EXT_READ 0x123456 [] 20000 0 = some (hdr, hdr.length + 1) ∧
      (spi_cmd_complete g_crc_on (bus_of []) CMD_DMA_EXT_READ 0x123456 [] 20000 0).bus.log
        = (bus_of []).log ++ Ev.trx (hdr ++ [(crc7 0x7f hdr <<< 1) % 256] ++ List.replicate
            (spi_cmd_complete_len2 g_crc_on CMD_DMA_EXT_READ (hdr.length + 1)
              - (hdr.length + 1)) 0) :: rest_on ∧
      (spi_cmd_complete g_crc_off (bus_of []) CMD_DMA_EXT_READ 0x123456 [] 20000 0).bus.log
        = (bus_of []).log ++ Ev.trx (hdr ++ List.replicate
            (spi_cmd_complete_len2 g_crc_off CMD_DMA_EXT_READ hdr.length - hdr.length) 0)
              :: rest_off)) :=
  ⟨by decide, rfl, by decide,
    command_checksum_last_byte g_crc_on g_crc_off (bus_of []) CMD_DMA_EXT_READ 0x123456 0 20000 0
      [] (by decide) rfl (by decide)⟩

/-! ## Register access -/

theorem len2_le_32 (g : wilc_spi) (cmd len0 : Nat) (h : len0 ≤ 9) :
    spi_cmd_complete_len2 g cmd (cmd_len g len0) ≤ 32 := by
  have := (spi_cmd_complete_len2_le g cmd (cmd_len g len0)).1
  have := cmd_len_le g len0
  omega

/-- Outside the two DMA reads, `spi_cmd_complete` makes one transport call: the combined
transaction, which starts with the header bytes stored by the `switch`. -/
theorem spi_cmd_complete_log_hdr (g : wilc_spi) (bus : Bus) (cmd adr : Nat) (b : List Nat)
    (sz clockless : Nat) (hdr : List Nat) (len0 : Nat)
    (hwb : spi_cmd_complete_wb cmd adr b sz clockless = some (hdr, len0))
    (hl : len0 = hdr.length + 1) (h9 : len0 ≤ 9) (hd : is_dma_read cmd = false) :
    ∃ tail, (spi_cmd_complete g bus cmd adr b sz clockless).bus.log
      = bus.log ++ [Ev.trx (hdr ++ tail)] := by
  rw [spi_cmd_complete_log_single g bus cmd adr b sz clockless hdr len0 hwb
    (len2_le_32 g cmd len0 h9) hd]
  subst hl
  by_cases hc : g.crc_off = 0
  · rw [cmd_frame_on g hdr hc]
    exact ⟨[(crc7 0x7f hdr <<< 1) % 256] ++ List.replicate (spi_cmd_complete_len2 g cmd
      (cmd_len g (hdr.length + 1)) - cmd_len g (hdr.length + 1)) 0, by simp⟩
  · rw [cmd_frame_off g hdr hc]
    exact ⟨_, rfl⟩

/-- Claim C4: for an address below 0x30 `spi_read_reg` issues InternalRead (0xC4) and
`spi_write_reg` issues InternalWrite (0xC3), each with second header byte 0x80 (top bit
set) followed by the address byte; for an address of 0x30 or above they issue SingleRead
(0xCA) and SingleWrite (0xC9) followed by the three address bytes `a[23:16], a[15:8],
a[7:0]` unmodified. In every case that combined transaction is the only transport call. -/
theorem reg_access_opcode (big_endian : Bool) (g : wilc_spi) (bus : Bus) (addr data old : Nat) :
    (addr < 0x30 →
      (∃ tail, (spi_read_reg big_endian g bus addr old).2.2.log
          = bus.log ++ [Ev.trx ([0xc4, 0x80, addr, 0x00] ++ tail)]) ∧
      (∃ tail, (spi_write_reg big_endian g bus addr data).2.log
          = bus.log ++ [Ev.trx ([0xc3, 0x80, addr] ++ tail)])) ∧
    (0x30 ≤ addr →
      (∃ tail, (spi_read_reg big_endian g bus addr old).2.2.log
          = bus.log ++ [Ev.trx ([0xca, (addr >>> 16) % 256, (addr >>> 8) % 256, addr % 256]
              ++ tail)]) ∧
      (∃ tail, (spi_write_reg big_endian g bus addr data).2.log
          = bus.log ++ [Ev.trx ([0xc9, (addr >>> 16) % 256, (addr >>> 8) % 256, addr % 256]
              ++ tail)])) := by
  have hr : ∀ cmd clockless, (spi_cmd_complete g bus cmd addr (u32_mem big_endian old) 4
      clockless).bus.log = (if (spi_cmd_complete g bus cmd addr (u32_mem big_endian old) 4
        clockless).result ≠ N_OK then
          ((0 : Int), u32_of_mem big_endian (spi_cmd_complete g bus cmd addr
            (u32_mem big_endian old) 4 clockless).b, (spi_cmd_complete g bus cmd addr
            (u32_mem big_endian old) 4 clockless).bus)
        else (1, if big_endian then BYTE_SWAP (u32_of_mem big_endian (spi_cmd_complete g bus cmd
            addr (u32_mem big_endian old) 4 clockless).b) else u32_of_mem big_endian
              (spi_cmd_complete g bus cmd addr (u32_mem big_endian old) 4 clockless).b,
          (spi_cmd_complete g bus cmd addr (u32_mem big_endian old) 4 clockless).bus)).2.2.log := by
    intro cmd clockless
    split <;> rfl
  constructor
  · intro h
    have e1 : addr >>> 8 = 0 := by rw [Nat.shiftRight_eq_div_pow]; omega
    have e2 : addr % 256 = addr := by omega
    constructor
    · obtain ⟨tail, ht⟩ := spi_cmd_complete_log_hdr g bus CMD_INTERNAL_READ addr
        (u32_mem big_endian old) 4 1 _ 5 rfl rfl (by omega) (by decide)
      refine ⟨tail, ?_⟩
      unfold spi_read_reg
      simp only [h, if_true]
      rw [← hr, ht]
      simp [CMD_INTERNAL_READ, u8, e1, e2]
    · obtain ⟨tail, ht⟩ := spi_cmd_complete_log_hdr g bus CMD_INTERNAL_WRITE addr
        (u32_mem big_endian (if big_endian then BYTE_SWAP data else data)) 4 1 _ 8 rfl rfl
        (by omega) (by decide)
      refine ⟨[rd (u32_mem big_endian (if big_endian = true then BYTE_SWAP data else data)) 3,
        rd (u32_mem big_endian (if big_endian = true then BYTE_SWAP data else data)) 2,
        rd (u32_mem big_endian (if big_endian = true then BYTE_SWAP data else data)) 1,
        rd (u32_mem big_endian (if big_endian = true then BYTE_SWAP data else data)) 0] ++ tail, ?_⟩
      unfold spi_write_reg
      simp only [h, if_true]
      rw [ht]
      simp [CMD_INTERNAL_WRITE, u8, e1, e2]
  · intro h
    have h' : ¬ addr < 0x30 := by omega
    constructor
    · obtain ⟨tail, ht⟩ := spi_cmd_complete_log_hdr g bus CMD_SINGLE_READ addr
        (u32_mem big_endian old) 4 0 _ 5 rfl rfl (by omega) (by decide)
      refine ⟨tail, ?_⟩
      unfold spi_read_reg
      simp only [h', if_false]
      rw [← hr, ht]
      simp [CMD_SINGLE_READ, u8]
    · obtain ⟨tail, ht⟩ := spi_cmd_complete_log_hdr g bus CMD_SINGLE_WRITE addr
        (u32_mem big_endian (if big_endian then BYTE_SWAP data else data)) 4 0 _ 9 rfl rfl
        (by omega) (by decide)
      refine ⟨[rd (u32_mem big_endian (if big_endian = true then BYTE_SWAP data else data)) 3,
        rd (u32_mem big_endian (if big_endian = true then BYTE_SWAP data else data)) 2,
        rd (u32_mem big_endian (if big_endian = true then BYTE_SWAP data else data)) 1,
        rd (u32_mem big_endian (if big_endian = true then BYTE_SWAP data else data)) 0] ++ tail, ?_⟩
      unfold spi_write_reg
      simp only [h', if_false]
      rw [ht]
      simp [CMD_SINGLE_WRITE, u8]

theorem reg_access_opcode_witness :
    ((0x10 < 0x30) ∧
      (∃ tail, (spi_read_reg false g_crc_on (bus_of []) 0x10 0).2.2.log
          = (bus_of []).log ++ [Ev.trx ([0xc4, 0x80, 0x10, 0x00] ++ tail)]) ∧
      (∃ tail, (spi_write_reg false g_crc_on (bus_of []) 0x10 0x11223344).2.log
          = (bus_of []).log ++ [Ev.trx ([0xc3, 0x80, 0x10] ++ tail)])) ∧
    ((0x30 ≤ 0x3b0000) ∧
      (∃ tail, (spi_read_reg false g_crc_on (bus_of []) 0x3b0000 0).2.2.log
          = (bus_of []).log ++ [Ev.trx ([0xca, 0x3b, 0x00, 0x00] ++ tail)]) ∧
      (∃ tail, (spi_write_reg false g_crc_on (bus_of []) 0x3b0000 0x11223344).2.log
          = (bus_of []).log ++ [Ev.trx ([0xc9, 0x3b, 0x00, 0x00] ++ tail)])) :=
  ⟨⟨by decide, (reg_access_opcode false g_crc_on (bus_of []) 0x10 0x11223344 0).1 (by decide)⟩,
    ⟨by decide,
      (reg_access_opcode false g_crc_on (bus_of []) 0x3b0000 0x11223344 0).2 (by decide)⟩⟩

/-! ## The write data phase -/

@[simp] theorem spi_tx_resp (bus : Bus) (data : List Nat) :
    (spi_tx bus data).2.resp = bus.resp := rfl

@[simp] theorem spi_tx_buf_resp (bus : Bus) (b : List Nat) (ix nbytes : Nat) :
    (spi_tx_buf bus b ix nbytes).2.resp = bus.resp := rfl

@[simp] theorem spi_rx_resp (bus : Bus) (len : Nat) : (spi_rx bus len).2.resp = bus.resp := rfl

@[simp] theorem spi_rx_buf_resp (bus : Bus) (ix nbytes : Nat) :
    (spi_rx_buf bus ix nbytes).2.resp = bus.resp := rfl

@[simp] theorem spi_trx_resp (bus : Bus) (wb : List Nat) :
    (spi_trx bus wb).2.resp = bus.resp := rfl

/-- One pass of the loop of `spi_data_write` when every transmit succeeds. -/
theorem data_write_pass (g : wilc_spi) (b : List Nat) (fuel : Nat) (bus : Bus) (ix sz : Nat)
    (hok : ∀ k, (bus.resp k).isSome = true) :
    spi_data_write_loop g b fuel bus ix sz =
      (if sz - (if sz ≤ DATA_PKT_SZ then sz else DATA_PKT_SZ) ≠ 0 then
        match fuel with
        | 0 => (N_OK, { bus with log := bus.log ++ data_block g b ix sz })
        | f + 1 => spi_data_write_loop g b f { bus with log := bus.log ++ data_block g b ix sz }
            (ix + (if sz ≤ DATA_PKT_SZ then sz else DATA_PKT_SZ))
            (sz - (if sz ≤ DATA_PKT_SZ then sz else DATA_PKT_SZ))
      else (N_OK, { bus with log := bus.log ++ data_block g b ix sz })) := by
  rw [spi_data_write_loop]
  by_cases hc : g.crc_off = 0
  · simp [hc, spi_tx, spi_tx_buf, hok, data_block]
  · simp [hc, spi_tx, spi_tx_buf, hok, data_block]

/-- The log of the loop of `spi_data_write` when every transmit succeeds: one data block
per 8192 bytes started. -/
theorem data_write_loop_log (g : wilc_spi) (b : List Nat) : ∀ (fuel : Nat) (bus : Bus)
    (ix sz : Nat), 1 ≤ sz → sz ≤ fuel → (∀ k, (bus.resp k).isSome = true) →
    spi_data_write_loop g b fuel bus ix sz =
      (N_OK, { bus with log := bus.log ++ data_blocks g b ix sz }) := by
  intro fuel
  induction fuel with
  | zero => intro bus ix sz h1 h2; omega
  | succ f ih =>
    intro bus ix sz h1 h2 hok
    rw [data_write_pass g b (f + 1) bus ix sz hok]
    unfold data_blocks
    by_cases hs : sz ≤ DATA_PKT_SZ
    · have hn : (sz + 8191) / 8192 = 1 := by
        simp only [DATA_PKT_SZ, DATA_PKT_SZ_8K] at hs
        omega
      simp only [hs, if_true, Nat.sub_self, ne_eq, not_true_eq_false, if_false, hn]
      rw [show List.range 1 = [0] from rfl, List.flatMap_singleton]
      simp
    · have hs' : 8192 < sz := by
        simp only [DATA_PKT_SZ, DATA_PKT_SZ_8K] at hs
        omega
      have hn : (sz + 8191) / 8192 = (sz - 8192 + 8191) / 8192 + 1 := by omega
      have hne : sz - DATA_PKT_SZ ≠ 0 := by
        simp only [DATA_PKT_SZ, DATA_PKT_SZ_8K]
        omega
      simp only [hs, if_false, hne, ne_eq, not_false_eq_true, if_true]
      rw [ih { bus with log := bus.log ++ data_block g b ix sz } (ix + DATA_PKT_SZ)
        (sz - DATA_PKT_SZ) (by simp only [DATA_PKT_SZ, DATA_PKT_SZ_8K]; omega)
        (by simp only [DATA_PKT_SZ, DATA_PKT_SZ_8K]; omega) hok]
      unfold data_blocks
      rw [hn, List.range_succ_eq_map, List.flatMap_cons, List.flatMap_map]
      have e8 : DATA_PKT_SZ = 8192 := rfl
      rw [e8]
      have hf : (fun k => data_block g b (ix + 8192 + 8192 * k) (sz - 8192 - 8192 * k))
          = (fun a => data_block g b (ix + 8192 * a.succ) (sz - 8192 * a.succ)) := by
        funext k
        have a1 : ix + 8192 + 8192 * k = ix + 8192 * k.succ := by
          rw [Nat.succ_eq_add_one]; omega
        have a2 : sz - 8192 - 8192 * k = sz - 8192 * k.succ := by
          rw [Nat.succ_eq_add_one]; omega
        rw [a1, a2]
      rw [hf, Nat.mul_zero, Nat.sub_zero, List.append_assoc]
      rfl

/-- The pass counter of the loop of `spi_data_write` is never used up: any two counters of
at least `sz` give the same run. -/
theorem spi_data_write_loop_fuel (g : wilc_spi) (b : List Nat) : ∀ (f1 f2 : Nat) (bus : Bus)
    (ix sz : Nat), sz ≤ f1 → sz ≤ f2 →
    spi_data_write_loop g b f1 bus ix sz = spi_data_write_loop g b f2 bus ix sz := by
  intro f1
  induction f1 with
  | zero =>
    intro f2 bus ix sz h1 h2
    have hz : sz = 0 := by omega
    subst hz
    rw [spi_data_write_loop]
    conv_rhs => rw [spi_data_write_loop]
    simp
  | succ f ih =>
    intro f2 bus ix sz h1 h2
    rw [spi_data_write_loop]
    conv_rhs => rw [spi_data_write_loop]
    by_cases hz : sz - (if sz ≤ DATA_PKT_SZ then sz else DATA_PKT_SZ) = 0
    · simp [hz]
    · have hpos : 1 ≤ (if sz ≤ DATA_PKT_SZ then sz else DATA_PKT_SZ) := by
        simp only [DATA_PKT_SZ, DATA_PKT_SZ_8K] at hz ⊢
        split_ifs at hz ⊢ <;> omega
      cases f2 with
      | zero => omega
      | succ f2 =>
        simp only [hz, ne_eq, not_false_eq_true, if_true]
        rw [ih f2 _ _ _ (by omega) (by omega)]

theorem spi_data_write_ok (g : wilc_spi) (bus : Bus) (b : List Nat) (sz : Nat) (hsz : 1 ≤ sz)
    (hok : ∀ k, (bus.resp k).isSome = true) :
    spi_data_write g bus b sz = (N_OK, { bus with log := bus.log ++ data_blocks g b 0 sz }) :=
  data_write_loop_log g b sz bus 0 sz hsz (le_refl sz) hok

theorem payload_segments_data_block (g : wilc_spi) (b : List Nat) (ix sz : Nat) :
    payload_segments (data_block g b ix sz)
      = [(ix, if sz ≤ DATA_PKT_SZ then sz else DATA_PKT_SZ)] := by
  unfold payload_segments data_block
  by_cases hc : g.crc_off = 0 <;> simp [hc]

/-- Claim C5: for `1 <= sz < 2^31` (the sizes for which the `int` offset `ix` of the source
does not overflow) and every transmit succeeding, `spi_data_write` returns `N_OK` and its
payload transmits are, in order, the segments at offsets `0, 8192, 16384, ...`: there are
`ceil(sz / 8192)` of them, all but the last are 8192 bytes long, the last holds the
remaining 1 to 8192 bytes, and the lengths add up to `sz`. -/
theorem data_write_segments (g : wilc_spi) (bus : Bus) (b : List Nat) (sz : Nat)
    (hsz : 1 ≤ sz) (hmax : sz < 2 ^ 31) (hok : ∀ k, (bus.resp k).isSome = true) :
    (spi_data_write g bus b sz).1 = N_OK ∧
    payload_segments ((spi_data_write g bus b sz).2.log.drop bus.log.length)
      = (List.range ((sz + 8191) / 8192)).map (fun k =>
          (8192 * k, if k + 1 < (sz + 8191) / 8192 then 8192
            else sz - 8192 * ((sz + 8191) / 8192 - 1))) ∧
    1 ≤ sz - 8192 * ((sz + 8191) / 8192 - 1) ∧
    sz - 8192 * ((sz + 8191) / 8192 - 1) ≤ 8192 ∧
    8192 * ((sz + 8191) / 8192 - 1) + (sz - 8192 * ((sz + 8191) / 8192 - 1)) = sz := by
  have _ := hmax
  rw [spi_data_write_ok g bus b sz hsz hok]
  refine ⟨rfl, ?_, by omega, by omega, by omega⟩
  simp only [List.drop_left]
  unfold data_blocks payload_segments
  rw [List.filterMap_flatMap]
  have hseg : ∀ k ∈ List.range ((sz + 8191) / 8192),
      List.filterMap (fun e => match e with
        | Ev.tx_buf ix nbytes _ => some (ix, nbytes)
        | _ => none) (data_block g b (0 + 8192 * k) (sz - 8192 * k))
      = [(8192 * k, if k + 1 < (sz + 8191) / 8192 then 8192
            else sz - 8192 * ((sz + 8191) / 8192 - 1))] := by
    intro k hk
    have hk' := List.mem_range.mp hk
    have h := payload_segments_data_block g b (0 + 8192 * k) (sz - 8192 * k)
    unfold payload_segments at h
    rw [h, Nat.zero_add]
    simp only [DATA_PKT_SZ, DATA_PKT_SZ_8K]
    congr 2
    split_ifs <;> omega
  rw [List.flatMap_congr hseg]
  induction (List.range ((sz + 8191) / 8192)) with
  | nil => rfl
  | cons a l ih => simp [List.flatMap_cons, ih]

theorem data_write_segments_witness :
    1 ≤ 20000 ∧ 20000 < 2 ^ 31 ∧ (∀ k, ((bus_ok []).resp k).isSome = true) ∧
    (spi_data_write g_crc_on (bus_ok []) (List.replicate 20000 0xab) 20000).1 = N_OK ∧
    payload_segments ((spi_data_write g_crc_on (bus_ok []) (List.replicate 20000 0xab)
      20000).2.log.drop (bus_ok []).log.length) = [(0, 8192), (8192, 8192), (16384, 3616)] ∧
    payload_segments ((spi_data_write g_crc_on (bus_ok []) (List.replicate 500 0xab)
      500).2.log.drop (bus_ok []).log.length) = [(0, 500)] :=
  ⟨by decide, by decide, fun _ => rfl,
    (data_write_segments g_crc_on (bus_ok []) (List.replicate 20000 0xab) 20000 (by decide)
      (by decide) (fun _ => rfl)).1,
    (data_write_segments g_crc_on (bus_ok []) (List.replicate 20000 0xab) 20000 (by decide)
      (by decide) (fun _ => rfl)).2.1,
    (data_write_segments g_crc_on (bus_ok []) (List.replicate 500 0xab) 500 (by decide)
      (by decide) (fun _ => rfl)).2.1⟩

/-- Claim C6: for `1 <= sz < 2^31` (the sizes for which the `int` offset `ix` of the source
does not overflow) and every transmit succeeding, the transport calls of `spi_data_write`
are, segment after segment: one tag byte, the segment's payload, and then, exactly when
the checksum is enabled, the two bytes `0x00 0x00`. The tag is `0xF3` for the final
segment (so also for a single segment), and otherwise `0xF1` for the first segment and
`0xF2` for every interior one. -/
theorem data_write_blocks (g : wilc_spi) (bus : Bus) (b : List Nat) (sz : Nat)
    (hsz : 1 ≤ sz) (hmax : sz < 2 ^ 31) (hok : ∀ k, (bus.resp k).isSome = true) :
    (spi_data_write g bus b sz).2.log = bus.log ++
      (List.range ((sz + 8191) / 8192)).flatMap (fun k =>
        [Ev.tx [if k + 1 = (sz + 8191) / 8192 then 0xf3 else if k = 0 then 0xf1 else 0xf2],
          Ev.tx_buf (8192 * k)
            (if k + 1 < (sz + 8191) / 8192 then 8192 else sz - 8192 * ((sz + 8191) / 8192 - 1))
            ((b.drop (8192 * k)).take
              (if k + 1 < (sz + 8191) / 8192 then 8192
                else sz - 8192 * ((sz + 8191) / 8192 - 1)))]
        ++ (if g.crc_off = 0 then [Ev.tx [0x00, 0x00]] else [])) := by
  have _ := hmax
  rw [spi_data_write_ok g bus b sz hsz hok]
  unfold data_blocks
  simp only
  congr 1
  apply List.flatMap_congr
  intro k hk
  have hk' := List.mem_range.mp hk
  unfold data_block
  rw [Nat.zero_add]
  have hlen : (if sz - 8192 * k ≤ DATA_PKT_SZ then sz - 8192 * k else DATA_PKT_SZ)
      = (if k + 1 < (sz + 8191) / 8192 then 8192
          else sz - 8192 * ((sz + 8191) / 8192 - 1)) := by
    simp only [DATA_PKT_SZ, DATA_PKT_SZ_8K]
    split_ifs <;> omega
  have htag : data_write_cmd (8192 * k) (sz - 8192 * k)
      = (if k + 1 = (sz + 8191) / 8192 then 0xf3 else if k = 0 then 0xf1 else 0xf2) := by
    unfold data_write_cmd
    simp only [DATA_PKT_SZ, DATA_PKT_SZ_8K]
    by_cases hlast : k + 1 = (sz + 8191) / 8192
    · have h1 : sz - 8192 * k ≤ 8 * 1024 := by omega
      simp [hlast, h1]
    · have h1 : ¬ sz - 8192 * k ≤ 8 * 1024 := by omega
      by_cases h0 : k = 0
      · subst h0
        have h3 : ¬ sz ≤ 8 * 1024 := by omega
        have h4 : ¬ 0 + 1 = (sz + 8191) / 8192 := hlast
        simp [h3, h4]
      · have h2 : ¬ 8192 * k = 0 := by omega
        simp [hlast, h1, h0, h2]
  rw [hlen, htag]

theorem data_write_blocks_witness :
    1 ≤ 20000 ∧ 20000 < 2 ^ 31 ∧ (∀ k, ((bus_ok []).resp k).isSome = true) ∧
    (spi_data_write g_crc_on (bus_ok []) (List.replicate 20000 0xab) 20000).2.log =
      [Ev.tx [0xf1],
        Ev.tx_buf 0 8192 (((List.replicate 20000 0xab).drop 0).take 8192),
        Ev.tx [0x00, 0x00],
        Ev.tx [0xf2],
        Ev.tx_buf 8192 8192 (((List.replicate 20000 0xab).drop 8192).take 8192),
        Ev.tx [0x00, 0x00],
        Ev.tx [0xf3],
        Ev.tx_buf 16384 3616 (((List.replicate 20000 0xab).drop 16384).take 3616),
        Ev.tx [0x00, 0x00]] ∧
    (spi_data_write g_crc_off (bus_ok []) (List.replicate 500 0xab) 500).2.log =
      [Ev.tx [0xf3], Ev.tx_buf 0 500 (((List.replicate 500 0xab).drop 0).take 500)] :=
  ⟨by decide, by decide, fun _ => rfl,
    data_write_blocks g_crc_on (bus_ok []) (List.replicate 20000 0xab) 20000 (by decide)
      (by decide) (fun _ => rfl),
    data_write_blocks g_crc_off (bus_ok []) (List.replicate 500 0xab) 500 (by decide)
      (by decide) (fun _ => rfl)⟩

/-! ## Parsing the response of the combined transaction -/

/-- The `switch` of `spi_cmd_complete` stores one byte fewer than `len`, and `len` is
between 5 and 9. -/
theorem spi_cmd_complete_wb_len (cmd adr : Nat) (b : List Nat) (sz clockless : Nat)
    (hdr : List Nat) (len0 : Nat)
    (h : spi_cmd_complete_wb cmd adr b sz clockless = some (hdr, len0)) :
    len0 = hdr.length + 1 ∧ 5 ≤ len0 ∧ len0 ≤ 9 := by
  by_cases hsup : cmd ∈ supported_cmds
  · simp only [supported_cmds, List.mem_cons, List.mem_singleton, List.not_mem_nil,
      or_false] at hsup
    rcases hsup with c | c | c | c | c | c | c | c | c | c | c <;> subst c
    all_goals
      have h' : some (_, _) = some (hdr, len0) := h
      rw [Option.some.injEq, Prod.mk.injEq] at h'
      rw [← h'.1, ← h'.2]
      exact ⟨rfl, by decide, by decide⟩
  · simp only [supported_cmds, List.mem_cons, List.mem_singleton, List.not_mem_nil,
      or_false, not_or] at hsup
    obtain ⟨c1, c2, c3, c4, c5, c6, c7, c8, c9, c10, c11⟩ := hsup
    simp [spi_cmd_complete_wb, c1, c2, c3, c4, c5, c6, c7, c8, c9, c10, c11] at h

/-- After a successful `spi_trx` that received `rb`, `spi_cmd_complete` returns what the
response parser returns. -/
theorem spi_cmd_complete_parsed (g : wilc_spi) (bus : Bus) (cmd adr : Nat) (b : List Nat)
    (sz clockless : Nat) (hdr : List Nat) (len0 : Nat) (rb : List Nat)
    (hwb : spi_cmd_complete_wb cmd adr b sz clockless = some (hdr, len0))
    (htrx : bus.resp bus.log.length = some rb) :
    spi_cmd_complete g bus cmd adr b sz clockless =
      spi_cmd_complete_rsp g
        (spi_trx bus (cmd_frame g hdr len0 ++ List.replicate
          (spi_cmd_complete_len2 g cmd (cmd_len g len0) - cmd_len g len0) 0)).2
        cmd b sz rb (cmd_len g len0) (spi_cmd_complete_len2 g cmd (cmd_len g len0)) := by
  have h9 := (spi_cmd_complete_wb_len cmd adr b sz clockless hdr len0 hwb).2.2
  have h32 := len2_le_32 g cmd len0 h9
  unfold spi_cmd_complete
  rw [hwb]
  dsimp only
  rw [if_neg (by omega)]
  have h1 : (spi_trx bus (cmd_frame g hdr len0 ++ List.replicate
      (spi_cmd_complete_len2 g cmd (cmd_len g len0) - cmd_len g len0) 0)).1 = some rb := htrx
  rw [h1]

/-- Claim C7: for a supported opcode and any buffer `rb` received by a successful combined
transaction, if the echo byte (the byte right behind the command bytes, one byte further
for Reset/Terminate/Repeat) differs from the opcode sent, `spi_cmd_complete` returns
`N_FAIL` whatever the state byte and the later bytes are, leaves the caller's buffer as it
was and makes no further transport call. -/
theorem echo_mismatch_fails (g : wilc_spi) (bus : Bus) (cmd adr : Nat) (b : List Nat)
    (sz clockless : Nat) (hdr : List Nat) (len0 : Nat) (rb : List Nat)
    (hwb : spi_cmd_complete_wb cmd adr b sz clockless = some (hdr, len0))
    (htrx : bus.resp bus.log.length = some rb)
    (hecho : rd rb (if is_ctl cmd then cmd_len g len0 + 1 else cmd_len g len0) ≠ cmd) :
    (spi_cmd_complete g bus cmd adr b sz clockless).result = N_FAIL ∧
    (spi_cmd_complete g bus cmd adr b sz clockless).b = b ∧
    ∃ wb, (spi_cmd_complete g bus cmd adr b sz clockless).bus.log = bus.log ++ [Ev.trx wb] := by
  rw [spi_cmd_complete_parsed g bus cmd adr b sz clockless hdr len0 rb hwb htrx]
  unfold spi_cmd_complete_rsp
  dsimp only
  rw [if_pos hecho]
  exact ⟨rfl, rfl, _, rfl⟩

/-- The scan inside the combined buffer finds the first data header at index `m` and
stops behind it with a positive `retry`, given enough retries. -/
theorem data_hdr_scan_found (rb : List Nat) (len2 m : Nat) : ∀ (retry rix : Nat),
    rix ≤ m → m < len2 → m - rix ≤ retry →
    (∀ i, rix ≤ i → i < m → is_data_hdr (rd rb i) = false) →
    is_data_hdr (rd rb m) = true →
    data_hdr_scan rb len2 retry rix = (m + 1, ((retry - (m - rix) : Nat) : Int)) := by
  intro retry
  induction retry with
  | zero =>
    intro rix h1 h2 h3 _ hm
    have e : rix = m := by omega
    subst e
    simp [data_hdr_scan, h2, hm]
  | succ r ih =>
    intro rix h1 h2 h3 hno hm
    by_cases e : rix = m
    · subst e
      simp [data_hdr_scan, h2, hm]
    · have hlt : rix < m := by omega
      have hr := hno rix (le_refl _) hlt
      rw [data_hdr_scan, if_pos (by omega), hr]
      simp only [Bool.false_eq_true, if_false]
      rw [ih (rix + 1) (by omega) h2 (by omega) (fun i a c => hno i (by omega) c) hm]
      have e2 : r - (m - (rix + 1)) = r + 1 - (m - rix) := by omega
      rw [e2]

/-- The scan inside the combined buffer ends with `retry <= 0` when no byte from `rix`
up to the end of the buffer is a data header. -/
theorem data_hdr_scan_none (rb : List Nat) (len2 : Nat) : ∀ (retry rix : Nat),
    (∀ i, rix ≤ i → i < len2 → is_data_hdr (rd rb i) = false) →
    (data_hdr_scan rb len2 retry rix).2 ≤ 0 := by
  intro retry
  induction retry with
  | zero =>
    intro rix hno
    by_cases h : rix < len2
    · simp [data_hdr_scan, h, hno rix (le_refl _) h]
    · simp [data_hdr_scan, h]
  | succ r ih =>
    intro rix hno
    by_cases h : rix < len2
    · rw [data_hdr_scan, if_pos h, hno rix (le_refl _) h]
      simp only [Bool.false_eq_true, if_false]
      exact ih (rix + 1) (fun i a c => hno i (by omega) c)
    · simp [data_hdr_scan, h]

theorem echo_mismatch_fails_witness :
    spi_cmd_complete_wb CMD_RESET 0 [1, 2, 3, 4] 0 0 = some ([0xcf, 0xff, 0xff, 0xff], 5) ∧
    (bus_of [some [0, 0, 0, 0, 0, 0, 0xc5, 0, 0, 0, 0]]).resp
      (bus_of [some [0, 0, 0, 0, 0, 0, 0xc5, 0, 0, 0, 0]]).log.length
        = some [0, 0, 0, 0, 0, 0, 0xc5, 0, 0, 0, 0] ∧
    rd [0, 0, 0, 0, 0, 0, 0xc5, 0, 0, 0, 0]
      (if is_ctl CMD_RESET then cmd_len g_crc_on 5 + 1 else cmd_len g_crc_on 5) ≠ CMD_RESET ∧
    (spi_cmd_complete g_crc_on (bus_of [some [0, 0, 0, 0, 0, 0, 0xc5, 0, 0, 0, 0]]) CMD_RESET 0
      [1, 2, 3, 4] 0 0).result = N_FAIL ∧
    (spi_cmd_complete g_crc_on (bus_of [some [0, 0, 0, 0, 0, 0, 0xc5, 0, 0, 0, 0]]) CMD_RESET 0
      [1, 2, 3, 4] 0 0).b = [1, 2, 3, 4] ∧
    ∃ wb, (spi_cmd_complete g_crc_on (bus_of [some [0, 0, 0, 0, 0, 0, 0xc5, 0, 0, 0, 0]])
      CMD_RESET 0 [1, 2, 3, 4] 0 0).bus.log
        = (bus_of [some [0, 0, 0, 0, 0, 0, 0xc5, 0, 0, 0, 0]]).log ++ [Ev.trx wb] :=
  ⟨rfl, rfl, by decide,
    echo_mismatch_fails g_crc_on (bus_of [some [0, 0, 0, 0, 0, 0, 0xc5, 0, 0, 0, 0]]) CMD_RESET 0
      [1, 2, 3, 4] 0 0 [0xcf, 0xff, 0xff, 0xff] 5 [0, 0, 0, 0, 0, 0, 0xc5, 0, 0, 0, 0]
      rfl rfl (by decide)⟩

/-- The scan, `retry = 100`, of a register read: the command is 4 or 5 bytes long and
the combined buffer has `len2 <= 17` bytes. -/
theorem reg_read_len2 (g : wilc_spi) (cmd : Nat) (hcmd : is_reg_read cmd = true) :
    spi_cmd_complete_len2 g cmd (cmd_len g 5) ≤ 17 ∧ is_ctl cmd = false ∧
      is_dma_read cmd = false := by
  have hc : cmd = CMD_INTERNAL_READ ∨ cmd = CMD_SINGLE_READ := by
    simpa [is_reg_read] using hcmd
  rcases hc with c | c <;> subst c
  · refine ⟨?_, by decide, by decide⟩
    unfold spi_cmd_complete_len2 cmd_len
    rw [if_neg (by decide), if_pos (by decide)]
    simp only [NUM_RSP_BYTES, NUM_DATA_HDR_BYTES, NUM_DATA_BYTES, NUM_CRC_BYTES,
      NUM_DUMMY_BYTES]
    split_ifs <;> omega
  · refine ⟨?_, by decide, by decide⟩
    unfold spi_cmd_complete_len2 cmd_len
    rw [if_neg (by decide), if_pos (by decide)]
    simp only [NUM_RSP_BYTES, NUM_DATA_HDR_BYTES, NUM_DATA_BYTES, NUM_CRC_BYTES,
      NUM_DUMMY_BYTES]
    split_ifs <;> omega

/-- Claim C8: for a single register read (SingleRead or InternalRead, whose `switch` sets
`len = 5`) with matching echo and zero state byte, if the first data header byte is found
at an index `m` of the combined buffer with fewer than 4 bytes behind it,
`spi_cmd_complete` returns `N_FAIL` and leaves the caller's 4-byte buffer as it was. -/
theorem reg_read_overrun_fails (g : wilc_spi) (bus : Bus) (cmd adr : Nat) (b : List Nat)
    (sz clockless : Nat) (rb : List Nat) (m : Nat)
    (hcmd : cmd = CMD_SINGLE_READ ∨ cmd = CMD_INTERNAL_READ)
    (htrx : bus.resp bus.log.length = some rb)
    (hecho : rd rb (cmd_len g 5) = cmd)
    (hstate : rd rb (cmd_len g 5 + 1) = 0)
    (hm1 : cmd_len g 5 + 2 ≤ m)
    (hm2 : m < spi_cmd_complete_len2 g cmd (cmd_len g 5))
    (hfirst : ∀ i, cmd_len g 5 + 2 ≤ i → i < m → is_data_hdr (rd rb i) = false)
    (hmark : is_data_hdr (rd rb m) = true)
    (hshort : spi_cmd_complete_len2 g cmd (cmd_len g 5) - (m + 1) < 4) :
    (spi_cmd_complete g bus cmd adr b sz clockless).result = N_FAIL ∧
    (spi_cmd_complete g bus cmd adr b sz clockless).b = b := by
  have hreg : is_reg_read cmd = true := by
    rcases hcmd with c | c <;> subst c <;> decide
  obtain ⟨h17, hctl, hdma⟩ := reg_read_len2 g cmd hreg
  obtain ⟨hdr, hwb⟩ : ∃ hdr, spi_cmd_complete_wb cmd adr b sz clockless = some (hdr, 5) := by
    rcases hcmd with c | c <;> subst c <;> exact ⟨_, rfl⟩
  rw [spi_cmd_complete_parsed g bus cmd adr b sz clockless hdr 5 rb hwb htrx]
  unfold spi_cmd_complete_rsp
  dsimp only
  simp only [hctl, Bool.false_eq_true, if_false, hecho, hstate, ne_eq, not_true_eq_false,
    hreg, true_or, if_true]
  unfold spi_cmd_complete_data
  dsimp only
  rw [data_hdr_scan_found rb _ m 100 _ hm1 hm2 (by omega) hfirst hmark]
  simp only [hreg, if_true]
  rw [if_neg (by omega)]
  unfold reg_read_data
  rw [if_neg (by omega)]
  exact ⟨rfl, rfl⟩

theorem reg_read_overrun_fails_witness :
    (CMD_SINGLE_READ = CMD_SINGLE_READ ∨ CMD_SINGLE_READ = CMD_INTERNAL_READ) ∧
    (bus_of [some rb_short]).resp (bus_of [some rb_short]).log.length = some rb_short ∧
    rd rb_short (cmd_len g_crc_on 5) = CMD_SINGLE_READ ∧
    rd rb_short (cmd_len g_crc_on 5 + 1) = 0 ∧
    cmd_len g_crc_on 5 + 2 ≤ 13 ∧
    13 < spi_cmd_complete_len2 g_crc_on CMD_SINGLE_READ (cmd_len g_crc_on 5) ∧
    (∀ i, cmd_len g_crc_on 5 + 2 ≤ i → i < 13 → is_data_hdr (rd rb_short i) = false) ∧
    is_data_hdr (rd rb_short 13) = true ∧
    spi_cmd_complete_len2 g_crc_on CMD_SINGLE_READ (cmd_len g_crc_on 5) - (13 + 1) = 3 ∧
    (spi_cmd_complete g_crc_on (bus_of [some rb_short]) CMD_SINGLE_READ 0x3b0000 [1, 2, 3, 4]
      4 0).result = N_FAIL ∧
    (spi_cmd_complete g_crc_on (bus_of [some rb_short]) CMD_SINGLE_READ 0x3b0000 [1, 2, 3, 4]
      4 0).b = [1, 2, 3, 4] :=
  have hfirst : ∀ i, cmd_len g_crc_on 5 + 2 ≤ i → i < 13 →
      is_data_hdr (rd rb_short i) = false := by
    intro i h1 h2
    have h3 : 7 ≤ i := h1
    interval_cases i <;> rfl
  ⟨Or.inl rfl, rfl, rfl, rfl, by decide, by decide, hfirst, rfl, rfl,
    reg_read_overrun_fails g_crc_on (bus_of [some rb_short]) CMD_SINGLE_READ 0x3b0000
      [1, 2, 3, 4] 4 0 rb_short 13 (Or.inl rfl) rfl rfl rfl (by decide) (by decide) hfirst rfl
      (by decide)⟩

/-- The four read opcodes of the combined transaction. -/
theorem read_class_cases (cmd : Nat)
    (hcmd : cmd ∈ [CMD_SINGLE_READ, CMD_INTERNAL_READ, CMD_DMA_READ, CMD_DMA_EXT_READ]) :
    is_ctl cmd = false ∧ (is_reg_read cmd = true ∨ is_dma_read cmd = true) := by
  simp only [List.mem_cons, List.mem_singleton, List.not_mem_nil, or_false] at hcmd
  rcases hcmd with c | c | c | c <;> subst c <;> decide

/-- Claim C9: for each read opcode (SingleRead, InternalRead, DmaRead, DmaExtRead) in the
combined transaction, if the echo matches and the state byte is zero but no byte behind the
state byte in the received buffer has high nibble `0xF`, `spi_cmd_complete` returns
`N_RESET`, which differs from both `N_OK` and `N_FAIL`; the caller's buffer is left as it
was. -/
theorem no_data_header_resets (g : wilc_spi) (bus : Bus) (cmd adr : Nat) (b : List Nat)
    (sz clockless : Nat) (hdr : List Nat) (len0 : Nat) (rb : List Nat)
    (hcmd : cmd ∈ [CMD_SINGLE_READ, CMD_INTERNAL_READ, CMD_DMA_READ, CMD_DMA_EXT_READ])
    (hwb : spi_cmd_complete_wb cmd adr b sz clockless = some (hdr, len0))
    (htrx : bus.resp bus.log.length = some rb)
    (hecho : rd rb (cmd_len g len0) = cmd)
    (hstate : rd rb (cmd_len g len0 + 1) = 0)
    (hnone : ∀ i, cmd_len g len0 + 1 < i → i < spi_cmd_complete_len2 g cmd (cmd_len g len0) →
      (rd rb i >>> 4) &&& 0xf ≠ 0xf) :
    (spi_cmd_complete g bus cmd adr b sz clockless).result = N_RESET ∧
    (spi_cmd_complete g bus cmd adr b sz clockless).b = b ∧
    N_RESET ≠ N_OK ∧ N_RESET ≠ N_FAIL := by
  obtain ⟨hctl, hrd⟩ := read_class_cases cmd hcmd
  have hrd' : (is_reg_read cmd = true ∨ is_dma_read cmd = true) = True := eq_true hrd
  rw [spi_cmd_complete_parsed g bus cmd adr b sz clockless hdr len0 rb hwb htrx]
  unfold spi_cmd_complete_rsp
  dsimp only
  simp only [hctl, Bool.false_eq_true, if_false, hecho, hstate, ne_eq, not_true_eq_false,
    hrd', if_true]
  unfold spi_cmd_complete_data
  dsimp only
  rw [if_pos (data_hdr_scan_none rb _ 100 _ (fun i h1 h2 => by
    have := hnone i (by omega) h2
    simpa [is_data_hdr] using this))]
  exact ⟨rfl, rfl, by decide, by decide⟩

theorem no_data_header_resets_witness :
    CMD_DMA_EXT_READ ∈ [CMD_SINGLE_READ, CMD_INTERNAL_READ, CMD_DMA_READ, CMD_DMA_EXT_READ] ∧
    spi_cmd_complete_wb CMD_DMA_EXT_READ 0 [0, 0, 0, 0, 0, 0, 0, 0] 8 0 = some ([0xc8, 0, 0, 0, 0, 0, 8], 8) ∧
    (bus_of [some rb_no_hdr]).resp (bus_of [some rb_no_hdr]).log.length = some rb_no_hdr ∧
    rd rb_no_hdr (cmd_len g_crc_on 8) = CMD_DMA_EXT_READ ∧
    rd rb_no_hdr (cmd_len g_crc_on 8 + 1) = 0 ∧
    (∀ i, cmd_len g_crc_on 8 + 1 < i →
      i < spi_cmd_complete_len2 g_crc_on CMD_DMA_EXT_READ (cmd_len g_crc_on 8) →
      (rd rb_no_hdr i >>> 4) &&& 0xf ≠ 0xf) ∧
    (spi_cmd_complete g_crc_on (bus_of [some rb_no_hdr]) CMD_DMA_EXT_READ 0 [0, 0, 0, 0, 0, 0, 0, 0] 8 0).result
      = N_RESET ∧
    (spi_cmd_complete g_crc_on (bus_of [some rb_no_hdr]) CMD_DMA_EXT_READ 0 [0, 0, 0, 0, 0, 0, 0, 0] 8 0).b
      = [0, 0, 0, 0, 0, 0, 0, 0] ∧
    N_RESET ≠ N_OK ∧ N_RESET ≠ N_FAIL :=
  have hnone : ∀ i, cmd_len g_crc_on 8 + 1 < i →
      i < spi_cmd_complete_len2 g_crc_on CMD_DMA_EXT_READ (cmd_len g_crc_on 8) →
      (rd rb_no_hdr i >>> 4) &&& 0xf ≠ 0xf := by
    intro i h1 h2
    have h3 : 9 < i := h1
    have h4 : i < 13 := h2
    interval_cases i <;> decide
  ⟨by decide, rfl, rfl, rfl, rfl, hnone,
    no_data_header_resets g_crc_on (bus_of [some rb_no_hdr]) CMD_DMA_EXT_READ 0 [0, 0, 0, 0, 0, 0, 0, 0] 8 0
      [0xc8, 0, 0, 0, 0, 0, 8] 8 rb_no_hdr (by decide) rfl rfl rfl rfl hnone⟩

/-! ## The read data phase -/

/-- The pass counter of the loop of `spi_data_read` is never used up: any two counters of
at least `sz` give the same run. -/
theorem spi_data_read_loop_fuel (g : wilc_spi) : ∀ (f1 f2 : Nat) (bus : Bus) (b : List Nat)
    (ix sz : Nat), sz ≤ f1 → sz ≤ f2 →
    spi_data_read_loop g f1 bus b ix sz = spi_data_read_loop g f2 bus b ix sz := by
  intro f1
  induction f1 with
  | zero =>
    intro f2 bus b ix sz h1 h2
    have hz : sz = 0 := by omega
    subst hz
    rw [spi_data_read_loop]
    conv_rhs => rw [spi_data_read_loop]
    simp
  | succ f ih =>
    intro f2 bus b ix sz h1 h2
    rw [spi_data_read_loop]
    conv_rhs => rw [spi_data_read_loop]
    by_cases hz : sz - (if sz ≤ DATA_PKT_SZ then sz else DATA_PKT_SZ) = 0
    · simp [hz]
    · have hpos : 1 ≤ (if sz ≤ DATA_PKT_SZ then sz else DATA_PKT_SZ) := by
        simp only [DATA_PKT_SZ, DATA_PKT_SZ_8K] at hz ⊢
        split_ifs at hz ⊢ <;> omega
      cases f2 with
      | zero => omega
      | succ f2 =>
        have e : ∀ (bus : Bus) (b : List Nat) (ix : Nat),
            spi_data_read_loop g f bus b ix
              (sz - (if sz ≤ DATA_PKT_SZ then sz else DATA_PKT_SZ))
            = spi_data_read_loop g f2 bus b ix
                (sz - (if sz ≤ DATA_PKT_SZ then sz else DATA_PKT_SZ)) :=
          fun bus b ix => ih f2 bus b ix _ (by omega) (by omega)
        simp only [hz, ne_eq, not_false_eq_true, if_true, e]

/-! ## The header scan of the later packets of a DMA read -/

/-- Claim C10 fails on the code. In a DmaExtRead of 8200 bytes whose second packet's header
scan receives eleven bytes without high nibble `0xF` (the `retry = 10` budget used up),
`spi_cmd_complete` goes on to receive that packet's 8 payload bytes and its checksum and
returns `N_OK`, and `spi_read` returns 1; `spi_data_read`, on the same eleven bytes,
returns `N_FAIL` through its `retry <= 0` test and receives no payload. -/
theorem dma_read_header_timeout_ignored :
    (spi_cmd_complete g_crc_on bus_hdr_timeout CMD_DMA_EXT_READ 0 (List.replicate 8200 0)
      8200 0).result = N_OK ∧
    (spi_cmd_complete g_crc_on bus_hdr_timeout CMD_DMA_EXT_READ 0 (List.replicate 8200 0)
      8200 0).bus.log =
      [Ev.trx [0xc8, 0, 0, 0, 0, 0x20, 0x08, 0x48, 0, 0, 0, 0, 0], Ev.rx_buf 2 8190, Ev.rx 2,
        Ev.rx 1, Ev.rx 1, Ev.rx 1, Ev.rx 1, Ev.rx 1, Ev.rx 1, Ev.rx 1, Ev.rx 1, Ev.rx 1, Ev.rx 1,
        Ev.rx 1, Ev.rx_buf 8192 8, Ev.rx 2] ∧
    (spi_read g_crc_on bus_hdr_timeout 0 (List.replicate 8200 0) 8200).1 = 1 ∧
    (spi_data_read g_crc_on (bus_of (List.replicate 11 (some [0x00]) ++ [some [], some [0, 0]]))
      (List.replicate 8 0) 8).result = N_FAIL ∧
    (spi_data_read g_crc_on (bus_of (List.replicate 11 (some [0x00]) ++ [some [], some [0, 0]]))
      (List.replicate 8 0) 8).bus.log =
      [Ev.rx 1, Ev.rx 1, Ev.rx 1, Ev.rx 1, Ev.rx 1, Ev.rx 1, Ev.rx 1, Ev.rx 1, Ev.rx 1, Ev.rx 1,
        Ev.rx 1] := by
  refine ⟨?_, ?_, ?_, ?_, ?_⟩ <;> decide

/-! ## Commands without a data phase -/

theorem no_data_phase_cases (cmd : Nat)
    (hcmd : cmd ∈ [CMD_SINGLE_WRITE, CMD_INTERNAL_WRITE, CMD_DMA_WRITE, CMD_DMA_EXT_WRITE,
      CMD_RESET, CMD_TERMINATE, CMD_REPEAT]) :
    is_reg_read cmd = false ∧ is_dma_read cmd = false := by
  simp only [List.mem_cons, List.mem_singleton, List.not_mem_nil, or_false] at hcmd
  rcases hcmd with c | c | c | c | c | c | c <;> subst c <;> decide

/-- Claim C12: for an opcode without a data phase (SingleWrite, InternalWrite, DmaWrite,
DmaExtWrite, Reset, Terminate, Repeat), when the combined transaction succeeds and the
received buffer holds the opcode as echo right behind the command bytes (one byte further
for Reset/Terminate/Repeat) and a zero state byte behind the echo, `spi_cmd_complete`
returns `N_OK`, leaves the caller's buffer as it was and makes no further transport call. -/
theorem no_data_phase_ok (g : wilc_spi) (bus : Bus) (cmd adr : Nat) (b : List Nat)
    (sz clockless : Nat) (hdr : List Nat) (len0 : Nat) (rb : List Nat)
    (hcmd : cmd ∈ [CMD_SINGLE_WRITE, CMD_INTERNAL_WRITE, CMD_DMA_WRITE, CMD_DMA_EXT_WRITE,
      CMD_RESET, CMD_TERMINATE, CMD_REPEAT])
    (hwb : spi_cmd_complete_wb cmd adr b sz clockless = some (hdr, len0))
    (htrx : bus.resp bus.log.length = some rb)
    (hecho : rd rb (if is_ctl cmd then cmd_len g len0 + 1 else cmd_len g len0) = cmd)
    (hstate : rd rb ((if is_ctl cmd then cmd_len g len0 + 1 else cmd_len g len0) + 1) = 0) :
    (spi_cmd_complete g bus cmd adr b sz clockless).result = N_OK ∧
    (spi_cmd_complete g bus cmd adr b sz clockless).b = b ∧
    ∃ wb, (spi_cmd_complete g bus cmd adr b sz clockless).bus.log = bus.log ++ [Ev.trx wb] := by
  obtain ⟨hreg, hdma⟩ := no_data_phase_cases cmd hcmd
  rw [spi_cmd_complete_parsed g bus cmd adr b sz clockless hdr len0 rb hwb htrx]
  unfold spi_cmd_complete_rsp
  dsimp only
  rw [if_neg (by simpa using hecho), if_neg (by simpa using hstate),
    if_neg (by simp [hreg, hdma])]
  exact ⟨rfl, rfl, _, rfl⟩

theorem no_data_phase_ok_witness :
    CMD_SINGLE_WRITE ∈ [CMD_SINGLE_WRITE, CMD_INTERNAL_WRITE, CMD_DMA_WRITE, CMD_DMA_EXT_WRITE,
      CMD_RESET, CMD_TERMINATE, CMD_REPEAT] ∧
    spi_cmd_complete_wb CMD_SINGLE_WRITE 0x001234 (u32_mem false 0xDEADBEEF) 4 0
      = some ([0xc9, 0x00, 0x12, 0x34, 0xde, 0xad, 0xbe, 0xef], 9) ∧
    (bus_of [some rb_write_ok]).resp (bus_of [some rb_write_ok]).log.length
      = some rb_write_ok ∧
    rd rb_write_ok (if is_ctl CMD_SINGLE_WRITE then cmd_len g_crc_on 9 + 1
      else cmd_len g_crc_on 9) = CMD_SINGLE_WRITE ∧
    rd rb_write_ok ((if is_ctl CMD_SINGLE_WRITE then cmd_len g_crc_on 9 + 1
      else cmd_len g_crc_on 9) + 1) = 0 ∧
    (spi_cmd_complete g_crc_on (bus_of [some rb_write_ok]) CMD_SINGLE_WRITE 0x001234
      (u32_mem false 0xDEADBEEF) 4 0).result = N_OK ∧
    (spi_cmd_complete g_crc_on (bus_of [some rb_write_ok]) CMD_SINGLE_WRITE 0x001234
      (u32_mem false 0xDEADBEEF) 4 0).b = u32_mem false 0xDEADBEEF ∧
    ∃ wb, (spi_cmd_complete g_crc_on (bus_of [some rb_write_ok]) CMD_SINGLE_WRITE 0x001234
      (u32_mem false 0xDEADBEEF) 4 0).bus.log
        = (bus_of [some rb_write_ok]).log ++ [Ev.trx wb] :=
  ⟨by decide, rfl, rfl, rfl, rfl,
    no_data_phase_ok g_crc_on (bus_of [some rb_write_ok]) CMD_SINGLE_WRITE 0x001234
      (u32_mem false 0xDEADBEEF) 4 0 [0xc9, 0x00, 0x12, 0x34, 0xde, 0xad, 0xbe, 0xef] 9
      rb_write_ok (by decide) rfl rfl rfl rfl⟩

/-! ## The InternalRead command -/

/-- Claim C20 fails on the code: with the checksum disabled, the InternalRead command that
`spi_cmd` transmits for address 0x1234 is the 4 bytes `C4 12 34 00`, not 3 bytes, and with
the checksum enabled it is 5 bytes; `spi_cmd_complete` sends the same bytes at the start of
its combined transaction. -/
theorem internal_read_frame_not_3_bytes :
    (spi_cmd g_crc_off (bus_of []) CMD_INTERNAL_READ 0x1234 0 4 0).2.log
      = [Ev.tx [0xc4, 0x12, 0x34, 0x00]] ∧
    (spi_cmd g_crc_off (bus_of []) CMD_INTERNAL_READ 0x1234 0 4 0).2.log
      ≠ [Ev.tx [0xc4, 0x12, 0x34]] ∧
    (spi_cmd g_crc_on (bus_of []) CMD_INTERNAL_READ 0x1234 0 4 0).2.log
      = [Ev.tx [0xc4, 0x12, 0x34, 0x00, 0x54]] ∧
    (spi_cmd_complete g_crc_off (bus_of []) CMD_INTERNAL_READ 0x1234 [0, 0, 0, 0] 4 0).bus.log
      = [Ev.trx [0xc4, 0x12, 0x34, 0x00, 0, 0, 0, 0, 0, 0, 0, 0, 0, 0]] := by
  refine ⟨?_, ?_, ?_, ?_⟩ <;> decide

/-- The one transport call of `spi_cmd` for an opcode of the `switch`: the command. -/
theorem spi_cmd_log (g : wilc_spi) (bus : Bus) (cmd adr data sz clockless : Nat)
    (hdr : List Nat) (len : Nat) (h : spi_cmd_bc cmd adr data sz clockless = some (hdr, len)) :
    (spi_cmd g bus cmd adr data sz clockless).2.log
      = bus.log ++ [Ev.tx (cmd_frame g hdr len)] := by
  unfold spi_cmd
  rw [h]
  dsimp only
  by_cases hx : (spi_tx bus (cmd_frame g hdr len)).1 = true
  · rw [if_pos hx]; rfl
  · rw [if_neg hx]; rfl

/-- The InternalRead command of `spi_cmd_complete` and of `spi_cmd` for a clockless flag
of 0 or 1: the same four header bytes. -/
theorem internal_read_hdr (adr data sz clockless : Nat) (b : List Nat) (hcl : clockless ≤ 1) :
    spi_cmd_bc CMD_INTERNAL_READ adr data sz clockless
      = some ([0xc4, if clockless = 1 then (adr >>> 8) % 256 ||| 0x80 else (adr >>> 8) % 256,
          adr % 256, 0x00], 5) ∧
    spi_cmd_complete_wb CMD_INTERNAL_READ adr b sz clockless
      = some ([0xc4, if clockless = 1 then (adr >>> 8) % 256 ||| 0x80 else (adr >>> 8) % 256,
          adr % 256, 0x00], 5) := by
  have h : clockless = 0 ∨ clockless = 1 := by omega
  rcases h with h | h <;> subst h <;> exact ⟨rfl, rfl⟩

/-- Claim C20 as amended: the InternalRead command is the opcode `0xC4`, then `addr[15:8]`
with its top bit set when the clockless flag is 1, then `addr[7:0]`, then a byte `0x00`:
exactly 4 bytes with the checksum disabled, and those 4 bytes followed by the checksum
byte with the checksum enabled. `spi_cmd` transmits exactly these bytes and
`spi_cmd_complete` sends them at the start of its combined transaction, followed by 10
(checksum disabled) or 12 (enabled) zero bytes. -/
theorem internal_read_frame (g : wilc_spi) (bus : Bus) (adr data sz clockless : Nat)
    (b : List Nat) (hcl : clockless ≤ 1) :
    (g.crc_off ≠ 0 →
      (spi_cmd g bus CMD_INTERNAL_READ adr data sz clockless).2.log = bus.log ++
        [Ev.tx [0xc4, if clockless = 1 then (adr >>> 8) % 256 ||| 0x80 else (adr >>> 8) % 256,
          adr % 256, 0x00]] ∧
      (spi_cmd_complete g bus CMD_INTERNAL_READ adr b sz clockless).bus.log = bus.log ++
        [Ev.trx ([0xc4, if clockless = 1 then (adr >>> 8) % 256 ||| 0x80
            else (adr >>> 8) % 256, adr % 256, 0x00] ++ List.replicate 10 0)]) ∧
    (g.crc_off = 0 →
      (spi_cmd g bus CMD_INTERNAL_READ adr data sz clockless).2.log = bus.log ++
        [Ev.tx ([0xc4, if clockless = 1 then (adr >>> 8) % 256 ||| 0x80
            else (adr >>> 8) % 256, adr % 256, 0x00] ++
          [(crc7 0x7f [0xc4, if clockless = 1 then (adr >>> 8) % 256 ||| 0x80
            else (adr >>> 8) % 256, adr % 256, 0x00] <<< 1) % 256])] ∧
      (spi_cmd_complete g bus CMD_INTERNAL_READ adr b sz clockless).bus.log = bus.log ++
        [Ev.trx ([0xc4, if clockless = 1 then (adr >>> 8) % 256 ||| 0x80
            else (adr >>> 8) % 256, adr % 256, 0x00] ++
          [(crc7 0x7f [0xc4, if clockless = 1 then (adr >>> 8) % 256 ||| 0x80
            else (adr >>> 8) % 256, adr % 256, 0x00] <<< 1) % 256] ++
          List.replicate 12 0)]) := by
  obtain ⟨h1, h2⟩ := internal_read_hdr adr data sz clockless b hcl
  have hlog := spi_cmd_log g bus CMD_INTERNAL_READ adr data sz clockless _ 5 h1
  have hlog2 := spi_cmd_complete_log_single g bus CMD_INTERNAL_READ adr b sz clockless _ 5 h2
    (len2_le_32 g _ 5 (by omega)) (by decide)
  constructor
  · intro hoff
    rw [hlog, hlog2]
    have hf := cmd_frame_off g [0xc4, if clockless = 1 then (adr >>> 8) % 256 ||| 0x80
      else (adr >>> 8) % 256, adr % 256, 0x00] hoff
    have hl : cmd_len g 5 = 4 := by simp [cmd_len, hoff]
    have hl2 : spi_cmd_complete_len2 g CMD_INTERNAL_READ 4 = 14 := by
      unfold spi_cmd_complete_len2
      rw [if_neg (by decide), if_pos (by decide), if_neg hoff]
      rfl
    simp only [List.length_cons, List.length_nil, Nat.zero_add, Nat.reduceAdd] at hf
    rw [hf, hl, hl2]
    exact ⟨rfl, rfl⟩
  · intro hon
    rw [hlog, hlog2]
    have hf := cmd_frame_on g [0xc4, if clockless = 1 then (adr >>> 8) % 256 ||| 0x80
      else (adr >>> 8) % 256, adr % 256, 0x00] hon
    have hl : cmd_len g 5 = 5 := by simp [cmd_len, hon]
    have hl2 : spi_cmd_complete_len2 g CMD_INTERNAL_READ 5 = 17 := by
      unfold spi_cmd_complete_len2
      rw [if_neg (by decide), if_pos (by decide), if_pos hon]
      rfl
    simp only [List.length_cons, List.length_nil, Nat.zero_add, Nat.reduceAdd] at hf
    rw [hf, hl, hl2]
    exact ⟨rfl, rfl⟩

theorem internal_read_frame_witness :
    (0 : Nat) ≤ 1 ∧ g_crc_off.crc_off ≠ 0 ∧ g_crc_on.crc_off = 0 ∧
    (spi_cmd g_crc_off (bus_of []) CMD_INTERNAL_READ 0x24 0 4 0).2.log
      = [Ev.tx [0xc4, 0x00, 0x24, 0x00]] ∧
    (spi_cmd_complete g_crc_off (bus_of []) CMD_INTERNAL_READ 0x24 [0, 0, 0, 0] 4 0).bus.log
      = [Ev.trx [0xc4, 0x00, 0x24, 0x00, 0, 0, 0, 0, 0, 0, 0, 0, 0, 0]] ∧
    (spi_cmd g_crc_on (bus_of []) CMD_INTERNAL_READ 0x24 0 4 0).2.log
      = [Ev.tx [0xc4, 0x00, 0x24, 0x00,
          (crc7 0x7f [0xc4, 0x00, 0x24, 0x00] <<< 1) % 256]] :=
  ⟨by decide, by decide, rfl,
    ((internal_read_frame g_crc_off (bus_of []) 0x24 0 4 0 [0, 0, 0, 0] (by decide)).1
      (by decide)).1,
    ((internal_read_frame g_crc_off (bus_of []) 0x24 0 4 0 [0, 0, 0, 0] (by decide)).1
      (by decide)).2,
    ((internal_read_frame g_crc_on (bus_of []) 0x24 0 4 0 [0, 0, 0, 0] (by decide)).2 rfl).1⟩

/-! ## Register access as one transport call -/

/-- Outside the two DMA reads, the bus after `spi_cmd_complete` is the bus after its one
combined transaction, which starts with the header bytes stored by the `switch`. -/
theorem spi_cmd_complete_bus_hdr (g : wilc_spi) (bus : Bus) (cmd adr : Nat) (b : List Nat)
    (sz clockless : Nat) (hdr : List Nat) (len0 : Nat)
    (hwb : spi_cmd_complete_wb cmd adr b sz clockless = some (hdr, len0))
    (hl : len0 = hdr.length + 1) (h9 : len0 ≤ 9) (hd : is_dma_read cmd = false) :
    ∃ tail, (spi_cmd_complete g bus cmd adr b sz clockless).bus
      = ⟨bus.resp, bus.log ++ [Ev.trx (hdr ++ tail)]⟩ := by
  have h32 := len2_le_32 g cmd len0 h9
  have hb : (spi_cmd_complete g bus cmd adr b sz clockless).bus
      = (spi_trx bus (cmd_frame g hdr len0 ++ List.replicate
          (spi_cmd_complete_len2 g cmd (cmd_len g len0) - cmd_len g len0) 0)).2 := by
    unfold spi_cmd_complete
    rw [hwb]
    dsimp only
    rw [if_neg (by omega)]
    split
    · rfl
    · rw [spi_cmd_complete_rsp_bus _ _ _ _ _ _ _ _ hd]
  rw [hb]
  subst hl
  by_cases hc : g.crc_off = 0
  · rw [cmd_frame_on g hdr hc]
    exact ⟨[(crc7 0x7f hdr <<< 1) % 256] ++ List.replicate (spi_cmd_complete_len2 g cmd
      (cmd_len g (hdr.length + 1)) - cmd_len g (hdr.length + 1)) 0, by simp [spi_trx]⟩
  · rw [cmd_frame_off g hdr hc]
    exact ⟨_, rfl⟩

/-- A write of a register at `0x30` or above is one combined transaction: SingleWrite,
the three address bytes, the four bytes of the value, most significant first. -/
theorem spi_write_reg_bus (big_endian : Bool) (g : wilc_spi) (bus : Bus) (addr data : Nat)
    (h : 0x30 ≤ addr) :
    ∃ tail, (spi_write_reg big_endian g bus addr data).2
      = ⟨bus.resp, bus.log ++ [Ev.trx ([0xc9, (addr >>> 16) % 256, (addr >>> 8) % 256,
          addr % 256, (data >>> 24) % 256, (data >>> 16) % 256, (data >>> 8) % 256,
          data % 256] ++ tail)]⟩ := by
  have h' : ¬ addr < 0x30 := by omega
  unfold spi_write_reg
  simp only [h', if_false]
  rw [write_reg_mem]
  obtain ⟨tail, ht⟩ := spi_cmd_complete_bus_hdr g bus CMD_SINGLE_WRITE addr
    (u32_mem false data) 4 0 _ 9 rfl rfl (by omega) (by decide)
  refine ⟨tail, ?_⟩
  rw [ht]
  simp [CMD_SINGLE_WRITE, u8, u32_mem, rd]

/-- The bus after `spi_read_reg` of a register at `0x30` or above: one combined
transaction, SingleRead and the three address bytes. -/
theorem spi_read_reg_bus (big_endian : Bool) (g : wilc_spi) (bus : Bus) (addr old : Nat)
    (h : 0x30 ≤ addr) :
    ∃ tail, (spi_read_reg big_endian g bus addr old).2.2
      = ⟨bus.resp, bus.log ++ [Ev.trx ([0xca, (addr >>> 16) % 256, (addr >>> 8) % 256,
          addr % 256] ++ tail)]⟩ := by
  have h' : ¬ addr < 0x30 := by omega
  obtain ⟨tail, ht⟩ := spi_cmd_complete_bus_hdr g bus CMD_SINGLE_READ addr
    (u32_mem big_endian old) 4 0 _ 5 rfl rfl (by omega) (by decide)
  refine ⟨tail, ?_⟩
  have hb : (spi_read_reg big_endian g bus addr old).2.2
      = (spi_cmd_complete g bus CMD_SINGLE_READ addr (u32_mem big_endian old) 4 0).bus := by
    unfold spi_read_reg
    simp only [h', if_false]
    split <;> rfl
  rw [hb, ht]
  simp [CMD_SINGLE_READ, u8]

/-- The bus after `spi_internal_read`: one combined transaction, InternalRead, the two
address bytes and a zero byte. -/
theorem spi_internal_read_bus (big_endian : Bool) (g : wilc_spi) (bus : Bus) (adr old : Nat) :
    ∃ tail, (spi_internal_read big_endian g bus adr old).2.2
      = ⟨bus.resp, bus.log ++ [Ev.trx ([0xc4, (adr >>> 8) % 256, adr % 256, 0x00]
          ++ tail)]⟩ := by
  obtain ⟨tail, ht⟩ := spi_cmd_complete_bus_hdr g bus CMD_INTERNAL_READ adr
    (u32_mem big_endian old) 4 0 _ 5 rfl rfl (by omega) (by decide)
  refine ⟨tail, ?_⟩
  have hb : (spi_internal_read big_endian g bus adr old).2.2
      = (spi_cmd_complete g bus CMD_INTERNAL_READ adr (u32_mem big_endian old) 4 0).bus := by
    unfold spi_internal_read
    dsimp only
    split <;> rfl
  rw [hb, ht]
  simp [CMD_INTERNAL_READ, u8]

/-- The bus after `spi_internal_write`: one combined transaction, InternalWrite, the two
address bytes and the four bytes of the value, most significant first. -/
theorem spi_internal_write_bus (big_endian : Bool) (g : wilc_spi) (bus : Bus)
    (adr dat : Nat) :
    ∃ tail, (spi_internal_write big_endian g bus adr dat).2
      = ⟨bus.resp, bus.log ++ [Ev.trx ([0xc3, (adr >>> 8) % 256, adr % 256,
          (dat >>> 24) % 256, (dat >>> 16) % 256, (dat >>> 8) % 256, dat % 256]
          ++ tail)]⟩ := by
  unfold spi_internal_write
  dsimp only
  rw [write_reg_mem]
  obtain ⟨tail, ht⟩ := spi_cmd_complete_bus_hdr g bus CMD_INTERNAL_WRITE adr
    (u32_mem false dat) 4 0 _ 8 rfl rfl (by omega) (by decide)
  refine ⟨tail, ?_⟩
  rw [ht]
  simp [CMD_INTERNAL_WRITE, u8, u32_mem, rd]

/-- The result of `spi_read_reg` is 0 or 1. -/
theorem spi_read_reg_result (big_endian : Bool) (g : wilc_spi) (bus : Bus) (addr old : Nat) :
    (spi_read_reg big_endian g bus addr old).1 = 0 ∨
    (spi_read_reg big_endian g bus addr old).1 = 1 := by
  unfold spi_read_reg
  dsimp only
  generalize spi_cmd_complete g bus _ addr _ 4 _ = r
  by_cases hr : r.result ≠ N_OK
  · rw [if_pos hr]; exact Or.inl rfl
  · rw [if_neg hr]; exact Or.inr rfl

/-- The result of `spi_internal_read` is 0 or 1. -/
theorem spi_internal_read_result (big_endian : Bool) (g : wilc_spi) (bus : Bus)
    (adr old : Nat) :
    (spi_internal_read big_endian g bus adr old).1 = 0 ∨
    (spi_internal_read big_endian g bus adr old).1 = 1 := by
  unfold spi_internal_read
  dsimp only
  generalize spi_cmd_complete g bus _ adr _ 4 _ = r
  by_cases hr : r.result ≠ N_OK
  · rw [if_pos hr]; exact Or.inl rfl
  · rw [if_neg hr]; exact Or.inr rfl

/-! ## `spi_sync_ext`: the argument check -/

/-- Claim C18: with `MAX_NUM_INT` equal to 8, for every `n > 8` the call
`spi_sync_ext(n)` returns 0, makes no transport call and leaves `g_spi`, `nint`
included, as it was. -/
theorem sync_ext_rejects_above_max (k : wilc_consts) (big_endian : Bool) (g : wilc_spi)
    (bus : Bus) (n : Int) (hmax : k.MAX_NUM_INT = 8) (hn : n > 8) :
    (spi_sync_ext k big_endian g bus n).1 = 0 ∧
    (spi_sync_ext k big_endian g bus n).2.1 = g ∧
    (spi_sync_ext k big_endian g bus n).2.2.log = bus.log := by
  unfold spi_sync_ext
  rw [if_pos (by rw [hmax]; exact hn)]
  exact ⟨rfl, rfl, rfl⟩

theorem sync_ext_rejects_above_max_witness :
    consts_sample.MAX_NUM_INT = 8 ∧ (9 : Int) > 8 ∧
    (spi_sync_ext consts_sample false ⟨1, 3, 0⟩ (bus_ok []) 9).1 = 0 ∧
    (spi_sync_ext consts_sample false ⟨1, 3, 0⟩ (bus_ok []) 9).2.1 = ⟨1, 3, 0⟩ ∧
    (spi_sync_ext consts_sample false ⟨1, 3, 0⟩ (bus_ok []) 9).2.2.log = (bus_ok []).log :=
  ⟨rfl, by decide,
    sync_ext_rejects_above_max consts_sample false ⟨1, 3, 0⟩ (bus_ok []) 9 rfl (by decide)⟩

/-! ## `spi_init` -/

/-- Claim C17: once `isinit` is set, a call of `spi_init` makes exactly one transport call,
the combined transaction of a SingleRead of the chip-identity register `0x3b0000`; it
returns what that `spi_read_reg` returns (1 when the read succeeds, 0 when it fails), and
leaves `g_spi` (`crc_off`, `nint`, `has_thrpt_enh`), the behaviour of the transport
callbacks and `isinit` as they were, whatever `inp` holds. -/
theorem init_when_ready (k : wilc_consts) (big_endian : Bool) (s : Session)
    (inp : wilc_wlan_inp) (h : s.isinit ≠ 0) :
    (∃ tail, (spi_init k big_endian s inp).2.bus.log
      = s.bus.log ++ [Ev.trx ([0xca, 0x3b, 0x00, 0x00] ++ tail)]) ∧
    (spi_init k big_endian s inp).1 = (spi_read_reg big_endian s.g s.bus 0x3b0000 0).1 ∧
    ((spi_init k big_endian s inp).1 = 0 ∨ (spi_init k big_endian s inp).1 = 1) ∧
    (spi_init k big_endian s inp).2.g = s.g ∧
    (spi_init k big_endian s inp).2.isinit = s.isinit ∧
    (spi_init k big_endian s inp).2.bus.resp = s.bus.resp := by
  obtain ⟨tail, ht⟩ := spi_read_reg_bus big_endian s.g s.bus 0x3b0000 0 (by decide)
  have h01 := spi_read_reg_result big_endian s.g s.bus 0x3b0000 0
  unfold spi_init
  rw [if_pos h]
  dsimp only
  rcases h01 with h0 | h1
  · rw [if_pos h0, ht, h0]
    exact ⟨⟨tail, rfl⟩, rfl, Or.inl rfl, rfl, rfl, rfl⟩
  · rw [if_neg (by rw [h1]; decide), ht, h1]
    exact ⟨⟨tail, rfl⟩, rfl, Or.inr rfl, rfl, rfl, rfl⟩

/-- The value written back to the protocol register has the two checksum bits (mask
`0xc`) cleared. -/
theorem protocol_reg_crc_off_bits (reg : Nat) : protocol_reg_crc_off reg &&& 0xc = 0 := by
  unfold protocol_reg_crc_off
  have e1 : not32 0xc &&& (not32 0x70 &&& 0xc) = 0 := by decide
  have e2 : (0x5 <<< 4) &&& 0xc = 0 := by decide
  rw [Nat.and_comm, Nat.and_or_distrib_left, Nat.and_comm, Nat.and_assoc, Nat.and_assoc, e1,
    Nat.and_zero, Nat.zero_or, Nat.and_comm, e2]

/-- A successful end of the first-time `spi_init`: one SingleRead of the chip id, then
`has_thrpt_enh = 1` and `isinit = 1`. -/
theorem spi_init_chipid_ok (big_endian : Bool) (g : wilc_spi) (bus : Bus)
    (h : (spi_init_chipid big_endian g bus).1 ≠ 0) :
    (spi_init_chipid big_endian g bus).2.1 = { g with has_thrpt_enh := 1 } ∧
    (spi_init_chipid big_endian g bus).2.2.1 = 1 ∧
    ∃ t, (spi_init_chipid big_endian g bus).2.2.2
      = ⟨bus.resp, bus.log ++ [Ev.trx ([0xca, 0x3b, 0x00, 0x00] ++ t)]⟩ := by
  obtain ⟨t, ht⟩ := spi_read_reg_bus big_endian g bus 0x3b0000 0 (by decide)
  unfold spi_init_chipid at h ⊢
  dsimp only at h ⊢
  by_cases hr : (spi_read_reg big_endian g bus 0x3b0000 0).1 = 0
  · rw [if_pos hr] at h
    exact absurd rfl h
  · rw [if_neg hr, ht]
    exact ⟨rfl, rfl, t, rfl⟩

/-- A successful `spi_init` from the block `if (g_spi.crc_off == 0)` on, entered with the
checksum on: the InternalWrite of the protocol register, then the chip id read. -/
theorem spi_init_crc_on_ok (k : wilc_consts) (big_endian : Bool) (g : wilc_spi) (bus : Bus)
    (reg : Nat) (hg : g.crc_off = 0) (h : (spi_init_crc k big_endian g bus reg).1 ≠ 0) :
    (spi_init_crc k big_endian g bus reg).2.1 = { g with crc_off := 1, has_thrpt_enh := 1 } ∧
    (spi_init_crc k big_endian g bus reg).2.2.1 = 1 ∧
    ∃ t2 t3, (spi_init_crc k big_endian g bus reg).2.2.2
      = ⟨bus.resp, bus.log ++
          [Ev.trx ([0xc3, (k.WILC_SPI_PROTOCOL_OFFSET >>> 8) % 256,
            k.WILC_SPI_PROTOCOL_OFFSET % 256,
            (protocol_reg_crc_off reg >>> 24) % 256, (protocol_reg_crc_off reg >>> 16) % 256,
            (protocol_reg_crc_off reg >>> 8) % 256, protocol_reg_crc_off reg % 256] ++ t2),
           Ev.trx ([0xca, 0x3b, 0x00, 0x00] ++ t3)]⟩ := by
  obtain ⟨t2, ht2⟩ := spi_internal_write_bus big_endian g bus k.WILC_SPI_PROTOCOL_OFFSET
    (protocol_reg_crc_off reg)
  unfold spi_init_crc at h ⊢
  rw [if_pos hg] at h ⊢
  dsimp only at h ⊢
  by_cases hw : (spi_internal_write big_endian g bus k.WILC_SPI_PROTOCOL_OFFSET
      (protocol_reg_crc_off reg)).1 = 0
  · rw [if_pos hw] at h
    exact absurd rfl h
  · rw [if_neg hw] at h ⊢
    obtain ⟨c1, c2, t3, c3⟩ := spi_init_chipid_ok big_endian _ _ h
    rw [c1, c2, c3, ht2]
    exact ⟨rfl, rfl, t2, t3, by simp⟩

/-- A successful `spi_init` from the block `if (g_spi.crc_off == 0)` on, entered with the
checksum off: that block is skipped and the chip id read follows directly. -/
theorem spi_init_crc_off_ok (k : wilc_consts) (big_endian : Bool) (g : wilc_spi) (bus : Bus)
    (reg : Nat) (hg : g.crc_off ≠ 0) (h : (spi_init_crc k big_endian g bus reg).1 ≠ 0) :
    (spi_init_crc k big_endian g bus reg).2.1 = { g with has_thrpt_enh := 1 } ∧
    (spi_init_crc k big_endian g bus reg).2.2.1 = 1 ∧
    ∃ t3, (spi_init_crc k big_endian g bus reg).2.2.2
      = ⟨bus.resp, bus.log ++ [Ev.trx ([0xca, 0x3b, 0x00, 0x00] ++ t3)]⟩ := by
  unfold spi_init_crc at h ⊢
  rw [if_neg hg] at h ⊢
  exact spi_init_chipid_ok big_endian g bus h

/-- A successful protocol configuration of `spi_init`: the final `g_spi` and `isinit`,
and the transport calls made, by whether the read of the protocol register with the
checksum on succeeded. -/
theorem spi_init_protocol_ok (k : wilc_consts) (big_endian : Bool) (bus : Bus)
    (h : (spi_init_protocol k big_endian ⟨0, 0, 0⟩ bus).1 ≠ 0) :
    (spi_init_protocol k big_endian ⟨0, 0, 0⟩ bus).2.1 = ⟨1, 0, 1⟩ ∧
    (spi_init_protocol k big_endian ⟨0, 0, 0⟩ bus).2.2.1 = 1 ∧
    ((spi_internal_read big_endian ⟨0, 0, 0⟩ bus k.WILC_SPI_PROTOCOL_OFFSET 0).1 ≠ 0 →
      ∃ t1 t2 t3, (spi_init_protocol k big_endian ⟨0, 0, 0⟩ bus).2.2.2.log = bus.log ++
        [Ev.trx ([0xc4, (k.WILC_SPI_PROTOCOL_OFFSET >>> 8) % 256,
            k.WILC_SPI_PROTOCOL_OFFSET % 256, 0x00] ++ t1),
          Ev.trx ([0xc3, (k.WILC_SPI_PROTOCOL_OFFSET >>> 8) % 256,
            k.WILC_SPI_PROTOCOL_OFFSET % 256,
            (protocol_reg_crc_off (spi_internal_read big_endian ⟨0, 0, 0⟩ bus
              k.WILC_SPI_PROTOCOL_OFFSET 0).2.1 >>> 24) % 256,
            (protocol_reg_crc_off (spi_internal_read big_endian ⟨0, 0, 0⟩ bus
              k.WILC_SPI_PROTOCOL_OFFSET 0).2.1 >>> 16) % 256,
            (protocol_reg_crc_off (spi_internal_read big_endian ⟨0, 0, 0⟩ bus
              k.WILC_SPI_PROTOCOL_OFFSET 0).2.1 >>> 8) % 256,
            protocol_reg_crc_off (spi_internal_read big_endian ⟨0, 0, 0⟩ bus
              k.WILC_SPI_PROTOCOL_OFFSET 0).2.1 % 256] ++ t2),
          Ev.trx ([0xca, 0x3b, 0x00, 0x00] ++ t3)]) ∧
    ((spi_internal_read big_endian ⟨0, 0, 0⟩ bus k.WILC_SPI_PROTOCOL_OFFSET 0).1 = 0 →
      ∃ t1 t2 t3, (spi_init_protocol k big_endian ⟨0, 0, 0⟩ bus).2.2.2.log = bus.log ++
        [Ev.trx ([0xc4, (k.WILC_SPI_PROTOCOL_OFFSET >>> 8) % 256,
            k.WILC_SPI_PROTOCOL_OFFSET % 256, 0x00] ++ t1),
          Ev.trx ([0xc4, (k.WILC_SPI_PROTOCOL_OFFSET >>> 8) % 256,
            k.WILC_SPI_PROTOCOL_OFFSET % 256, 0x00] ++ t2),
          Ev.trx ([0xca, 0x3b, 0x00, 0x00] ++ t3)]) := by
  obtain ⟨t1, ht1⟩ := spi_internal_read_bus big_endian ⟨0, 0, 0⟩ bus
    k.WILC_SPI_PROTOCOL_OFFSET 0
  unfold spi_init_protocol at h ⊢
  dsimp only at h ⊢
  by_cases h1 : (spi_internal_read big_endian ⟨0, 0, 0⟩ bus k.WILC_SPI_PROTOCOL_OFFSET 0).1 = 0
  · rw [if_pos h1] at h ⊢
    obtain ⟨t2, ht2⟩ := spi_internal_read_bus big_endian ⟨1, 0, 0⟩
      (spi_internal_read big_endian ⟨0, 0, 0⟩ bus k.WILC_SPI_PROTOCOL_OFFSET 0).2.2
      k.WILC_SPI_PROTOCOL_OFFSET
      (spi_internal_read big_endian ⟨0, 0, 0⟩ bus k.WILC_SPI_PROTOCOL_OFFSET 0).2.1
    by_cases h2 : (spi_internal_read big_endian ⟨1, 0, 0⟩
        (spi_internal_read big_endian ⟨0, 0, 0⟩ bus k.WILC_SPI_PROTOCOL_OFFSET 0).2.2
        k.WILC_SPI_PROTOCOL_OFFSET
        (spi_internal_read big_endian ⟨0, 0, 0⟩ bus k.WILC_SPI_PROTOCOL_OFFSET 0).2.1).1 = 0
    · rw [if_pos h2] at h
      exact absurd rfl h
    · rw [if_neg h2] at h ⊢
      obtain ⟨c1, c2, t3, c3⟩ := spi_init_crc_off_ok k big_endian ⟨1, 0, 0⟩ _ _ (by decide) h
      rw [c1, c2, c3, ht2, ht1]
      refine ⟨rfl, rfl, fun hc => absurd h1 hc, fun _ => ⟨t1, t2, t3, by simp⟩⟩
  · rw [if_neg h1] at h ⊢
    obtain ⟨c1, c2, t2, t3, c3⟩ := spi_init_crc_on_ok k big_endian ⟨0, 0, 0⟩ _ _ rfl h
    rw [c1, c2, c3, ht1]
    refine ⟨rfl, rfl, fun _ => ⟨t1, t2, t3, by simp⟩, fun hc => absurd hc h1⟩

/-- A first-time `spi_init` that returns non-zero has run the protocol configuration on
the callbacks of `inp`. -/
theorem spi_init_first_ok (k : wilc_consts) (big_endian : Bool) (s : Session)
    (inp : wilc_wlan_inp) (h0 : s.isinit = 0) (hs : (spi_init k big_endian s inp).1 ≠ 0) :
    spi_init k big_endian s inp =
      ((spi_init_protocol k big_endian ⟨0, 0, 0⟩ inp.spi).1,
        ⟨(spi_init_protocol k big_endian ⟨0, 0, 0⟩ inp.spi).2.1,
          (spi_init_protocol k big_endian ⟨0, 0, 0⟩ inp.spi).2.2.1,
          (spi_init_protocol k big_endian ⟨0, 0, 0⟩ inp.spi).2.2.2⟩) := by
  unfold spi_init at hs ⊢
  rw [if_neg (by rw [h0]; decide)] at hs ⊢
  cases hio : inp.io_init with
  | none => rw [hio] at hs; exact absurd rfl hs
  | some v =>
    rw [hio] at hs
    dsimp only at hs ⊢
    by_cases hv : v = 0
    · rw [if_pos hv] at hs; exact absurd rfl hs
    · rw [if_neg hv]

/-- Claim C15: whenever a first-time `spi_init` (`isinit == 0`) returns success, `g_spi`
ends with `crc_off = 1` and `has_thrpt_enh = 1` (and `isinit` is set), whichever of the two
reads of the protocol register succeeded. -/
theorem init_success_config (k : wilc_consts) (big_endian : Bool) (s : Session)
    (inp : wilc_wlan_inp) (h0 : s.isinit = 0) (hs : (spi_init k big_endian s inp).1 ≠ 0) :
    (spi_init k big_endian s inp).2.g.crc_off = 1 ∧
    (spi_init k big_endian s inp).2.g.has_thrpt_enh = 1 ∧
    (spi_init k big_endian s inp).2.isinit = 1 := by
  have e := spi_init_first_ok k big_endian s inp h0 hs
  rw [e] at hs ⊢
  obtain ⟨c1, c2, _, _⟩ := spi_init_protocol_ok k big_endian inp.spi hs
  dsimp only
  rw [c1, c2]
  exact ⟨rfl, rfl, rfl⟩

theorem init_success_config_witness :
    session_new.isinit = 0 ∧
    (spi_init consts_sample false session_new inp_crc_retry).1 ≠ 0 ∧
    (spi_internal_read false ⟨0, 0, 0⟩ inp_crc_retry.spi 0x24 0).1 = 0 ∧
    (spi_init consts_sample false session_new inp_crc_retry).2.g.crc_off = 1 ∧
    (spi_init consts_sample false session_new inp_crc_retry).2.g.has_thrpt_enh = 1 ∧
    (spi_init consts_sample false session_new inp_crc_retry).2.isinit = 1 :=
  ⟨rfl, by decide, by decide,
    init_success_config consts_sample false session_new inp_crc_retry rfl (by decide)⟩

/-- Claim C16 fails on the code: in the successful first-time `spi_init` where the read of
the protocol register succeeds only with the checksum off, the transport calls are the two
InternalReads and the SingleRead of the chip id; no InternalWrite (`0xC3`) is made. -/
theorem init_retry_path_writes_nothing :
    (spi_init consts_sample false session_new inp_crc_retry).1 = 1 ∧
    opcodes (spi_init consts_sample false session_new inp_crc_retry).2.bus.log
      = [0xc4, 0xc4, 0xca] := by
  constructor <;> decide

/-- Claim C16 as amended: in a successful first-time `spi_init` in which the read of the
protocol register with the checksum on succeeded, init makes three transport calls: that
InternalRead, then an InternalWrite of the protocol register with the value read changed by
`reg &= ~0xc; reg &= ~0x70; reg |= 0x50` (checksum bits cleared), then the SingleRead of
the chip id `0x3b0000`. When only the retry with the checksum off succeeded, the calls are
the two InternalReads and the chip id read, without a write. -/
theorem init_protocol_write (k : wilc_consts) (big_endian : Bool) (s : Session)
    (inp : wilc_wlan_inp) (h0 : s.isinit = 0) (hs : (spi_init k big_endian s inp).1 ≠ 0) :
    ((spi_internal_read big_endian ⟨0, 0, 0⟩ inp.spi k.WILC_SPI_PROTOCOL_OFFSET 0).1 ≠ 0 →
      ∃ v t1 t2 t3,
        v = protocol_reg_crc_off
          (spi_internal_read big_endian ⟨0, 0, 0⟩ inp.spi k.WILC_SPI_PROTOCOL_OFFSET 0).2.1 ∧
        v &&& 0xc = 0 ∧
        (spi_init k big_endian s inp).2.bus.log = inp.spi.log ++
          [Ev.trx ([0xc4, (k.WILC_SPI_PROTOCOL_OFFSET >>> 8) % 256,
              k.WILC_SPI_PROTOCOL_OFFSET % 256, 0x00] ++ t1),
            Ev.trx ([0xc3, (k.WILC_SPI_PROTOCOL_OFFSET >>> 8) % 256,
              k.WILC_SPI_PROTOCOL_OFFSET % 256,
              (v >>> 24) % 256, (v >>> 16) % 256, (v >>> 8) % 256, v % 256] ++ t2),
            Ev.trx ([0xca, 0x3b, 0x00, 0x00] ++ t3)]) ∧
    ((spi_internal_read big_endian ⟨0, 0, 0⟩ inp.spi k.WILC_SPI_PROTOCOL_OFFSET 0).1 = 0 →
      ∃ t1 t2 t3, (spi_init k big_endian s inp).2.bus.log = inp.spi.log ++
        [Ev.trx ([0xc4, (k.WILC_SPI_PROTOCOL_OFFSET >>> 8) % 256,
            k.WILC_SPI_PROTOCOL_OFFSET % 256, 0x00] ++ t1),
          Ev.trx ([0xc4, (k.WILC_SPI_PROTOCOL_OFFSET >>> 8) % 256,
            k.WILC_SPI_PROTOCOL_OFFSET % 256, 0x00] ++ t2),
          Ev.trx ([0xca, 0x3b, 0x00, 0x00] ++ t3)]) := by
  have e := spi_init_first_ok k big_endian s inp h0 hs
  rw [e] at hs ⊢
  obtain ⟨_, _, c3, c4⟩ := spi_init_protocol_ok k big_endian inp.spi hs
  constructor
  · intro h1
    obtain ⟨t1, t2, t3, ht⟩ := c3 h1
    exact ⟨_, t1, t2, t3, rfl, protocol_reg_crc_off_bits _, ht⟩
  · intro h1
    exact c4 h1

theorem init_protocol_write_witness :
    session_new.isinit = 0 ∧
    (spi_init consts_sample false session_new inp_crc_on).1 ≠ 0 ∧
    (spi_internal_read false ⟨0, 0, 0⟩ inp_crc_on.spi
      consts_sample.WILC_SPI_PROTOCOL_OFFSET 0).1 ≠ 0 ∧
    (∃ v t1 t2 t3,
        v = protocol_reg_crc_off (spi_internal_read false ⟨0, 0, 0⟩ inp_crc_on.spi
          consts_sample.WILC_SPI_PROTOCOL_OFFSET 0).2.1 ∧
        v &&& 0xc = 0 ∧
        (spi_init consts_sample false session_new inp_crc_on).2.bus.log = inp_crc_on.spi.log ++
          [Ev.trx ([0xc4, (consts_sample.WILC_SPI_PROTOCOL_OFFSET >>> 8) % 256,
              consts_sample.WILC_SPI_PROTOCOL_OFFSET % 256, 0x00] ++ t1),
            Ev.trx ([0xc3, (consts_sample.WILC_SPI_PROTOCOL_OFFSET >>> 8) % 256,
              consts_sample.WILC_SPI_PROTOCOL_OFFSET % 256,
              (v >>> 24) % 256, (v >>> 16) % 256, (v >>> 8) % 256, v % 256] ++ t2),
            Ev.trx ([0xca, 0x3b, 0x00, 0x00] ++ t3)]) ∧
    opcodes (spi_init consts_sample false session_new inp_crc_on).2.bus.log
      = [0xc4, 0xc3, 0xca] :=
  ⟨rfl, by decide, by decide,
    (init_protocol_write consts_sample false session_new inp_crc_on rfl (by decide)).1
      (by decide),
    by decide⟩

theorem init_when_ready_witness :
    session_ready.isinit ≠ 0 ∧
    (∃ tail, (spi_init consts_sample false session_ready inp_crc_on).2.bus.log
      = session_ready.bus.log ++ [Ev.trx ([0xca, 0x3b, 0x00, 0x00] ++ tail)]) ∧
    (spi_init consts_sample false session_ready inp_crc_on).1
      = (spi_read_reg false session_ready.g session_ready.bus 0x3b0000 0).1 ∧
    ((spi_init consts_sample false session_ready inp_crc_on).1 = 0 ∨
      (spi_init consts_sample false session_ready inp_crc_on).1 = 1) ∧
    (spi_init consts_sample false session_ready inp_crc_on).2.g = session_ready.g ∧
    (spi_init consts_sample false session_ready inp_crc_on).2.isinit = session_ready.isinit ∧
    (spi_init consts_sample false session_ready inp_crc_on).2.bus.resp
      = session_ready.bus.resp :=
  ⟨by decide, init_when_ready consts_sample false session_ready inp_crc_on (by decide)⟩

/-! ## `spi_read_int` in Legacy mode -/

/-- Or-ing more bits into a status keeps a bit that is set under the mask. -/
theorem or_keeps_masked_bit (a b o m : Nat) (h : (a >>> o) &&& m ≠ 0) :
    ((a ||| b) >>> o) &&& m ≠ 0 := by
  obtain ⟨i, hi⟩ := Nat.ne_zero_implies_bit_true h
  rw [Nat.testBit_and, Nat.testBit_shiftRight, Bool.and_eq_true] at hi
  intro hz
  have hb : (((a ||| b) >>> o) &&& m).testBit i = true := by
    rw [Nat.testBit_and, Nat.testBit_shiftRight, Nat.testBit_or, hi.1, hi.2]
    rfl
  rw [hz, Nat.zero_testBit] at hb
  exact Bool.noConfusion hb

/-- A pass of the loop of `spi_read_int` only adds bits to the status: entered with a bit
outside the mask, it ends with `happended` set and the bit still there. -/
theorem read_int_pass_sticky (k : wilc_consts) (big_endian : Bool) (g : wilc_spi) (bus : Bus)
    (tmp : Nat)
    (h : (tmp >>> k.IRG_FLAGS_OFFSET) &&& not32 ((1 <<< g.nint.toNat) - 1) ≠ 0) :
    (spi_read_int_pass k big_endian g bus tmp).2.1 = true ∧
    ((spi_read_int_pass k big_endian g bus tmp).1 >>> k.IRG_FLAGS_OFFSET) &&&
      not32 ((1 <<< g.nint.toNat) - 1) ≠ 0 := by
  have key : ((spi_read_int_pass k big_endian g bus tmp).1 >>> k.IRG_FLAGS_OFFSET) &&&
      not32 ((1 <<< g.nint.toNat) - 1) ≠ 0 := by
    unfold spi_read_int_pass
    dsimp only
    by_cases hn : g.nint > 5
    · rw [if_pos hn]
      exact or_keeps_masked_bit _ _ _ _ (or_keeps_masked_bit _ _ _ _ h)
    · rw [if_neg hn]
      exact or_keeps_masked_bit _ _ _ _ h
  refine ⟨?_, key⟩
  have hd : (spi_read_int_pass k big_endian g bus tmp).2.1
      = decide (((spi_read_int_pass k big_endian g bus tmp).1 >>> k.IRG_FLAGS_OFFSET) &&&
          not32 ((1 <<< g.nint.toNat) - 1) ≠ 0) := rfl
  rw [hd]
  exact decide_eq_true key

/-- A pass ends with `happended` set exactly when the status it has assembled shows a bit
outside the mask. -/
theorem read_int_pass_happended (k : wilc_consts) (big_endian : Bool) (g : wilc_spi)
    (bus : Bus) (tmp : Nat) (h : (spi_read_int_pass k big_endian g bus tmp).2.1 = true) :
    ((spi_read_int_pass k big_endian g bus tmp).1 >>> k.IRG_FLAGS_OFFSET) &&&
      not32 ((1 <<< g.nint.toNat) - 1) ≠ 0 := by
  have hd : (spi_read_int_pass k big_endian g bus tmp).2.1
      = decide (((spi_read_int_pass k big_endian g bus tmp).1 >>> k.IRG_FLAGS_OFFSET) &&&
          not32 ((1 <<< g.nint.toNat) - 1) ≠ 0) := rfl
  rw [hd] at h
  exact of_decide_eq_true h

/-- Entered with a bit outside the mask in the status, the loop of `spi_read_int` does not
end within any number of passes. -/
theorem read_int_loop_sticky (k : wilc_consts) (big_endian : Bool) (g : wilc_spi) :
    ∀ (n : Nat) (bus : Bus) (tmp : Nat),
      (tmp >>> k.IRG_FLAGS_OFFSET) &&& not32 ((1 <<< g.nint.toNat) - 1) ≠ 0 →
      spi_read_int_loop k big_endian g n bus tmp = none := by
  intro n
  induction n with
  | zero => intro bus tmp _; rfl
  | succ n ih =>
    intro bus tmp h
    obtain ⟨h1, h2⟩ := read_int_pass_sticky k big_endian g bus tmp h
    rw [spi_read_int_loop, if_pos h1]
    exact ih _ _ h2

/-- Once a pass has ended with `happended` set, `spi_read_int` in Legacy mode does not
return within any number of passes, whatever the later register reads yield. -/
theorem read_int_never_returns (k : wilc_consts) (big_endian : Bool) (g : wilc_spi)
    (bus : Bus) (int_status : Nat) (hleg : g.has_thrpt_enh = 0)
    (hcnt : (spi_read_reg big_endian g bus k.WILC_VMM_TO_HOST_SIZE 0).1 ≠ 0)
    (hfirst : (spi_read_int_pass k big_endian g
      (spi_read_reg big_endian g bus k.WILC_VMM_TO_HOST_SIZE 0).2.2
      (((spi_read_reg big_endian g bus k.WILC_VMM_TO_HOST_SIZE 0).2.1 >>> 2) &&&
        k.IRQ_DMA_WD_CNT_MASK)).2.1 = true) (passes : Nat) :
    spi_read_int k big_endian g bus int_status passes = none := by
  unfold spi_read_int
  rw [if_neg (by rw [hleg]; decide)]
  dsimp only
  rw [if_neg hcnt]
  cases passes with
  | zero => rfl
  | succ n =>
    rw [spi_read_int_loop, if_pos hfirst, read_int_loop_sticky k big_endian g n _ _
      (read_int_pass_happended k big_endian g _ _ hfirst)]

/-- Claim C13 fails on the code. Legacy mode, 3 interrupt lines: the first read of the flag
register yields `0x40000000` (flag bit 3, outside the 3 lines) and the second read yields
0; the second pass still ends with `happended` set, because the status keeps the bit of
the first read, and `spi_read_int` does not return within any number of passes. -/
theorem read_int_glitch_never_returns :
    (spi_read_reg false g_legacy3
      (spi_read_reg false g_legacy3 bus_flag_glitch 0x150084 0).2.2 0x1a90 0).2.1
        = 0x40000000 ∧
    (spi_read_reg false g_legacy3
      (read_int_after consts_sample false g_legacy3 0
        (spi_read_reg false g_legacy3 bus_flag_glitch 0x150084 0).2.2 0x10).2.2 0x1a90 0).2.1
        = 0 ∧
    (read_int_after consts_sample false g_legacy3 1
      (spi_read_reg false g_legacy3 bus_flag_glitch 0x150084 0).2.2 0x10).2.1 = true ∧
    ¬ ∃ passes,
      (spi_read_int consts_sample false g_legacy3 bus_flag_glitch 0 passes).isSome = true := by
  refine ⟨by decide, by decide, by decide, ?_⟩
  rintro ⟨passes, h⟩
  rw [read_int_never_returns consts_sample false g_legacy3 bus_flag_glitch 0 rfl (by decide)
    (by decide) passes] at h
  exact Bool.noConfusion h

/-- Claim C11, failing input: with the checksum off, a `spi_write` of 8 bytes whose command
is accepted and whose first data-phase transport call (the tag byte) fails. The data
write reports `N_FAIL` and nothing is sent after the failed call, yet `spi_write` returns
1; `spi_read`, when its data phase fails, returns 0. -/
theorem write_data_failure_returns_one :
    (spi_cmd_complete g_crc_off bus_write_tag_fails CMD_DMA_EXT_WRITE 0x20000 [] 8 0).result
      = N_OK ∧
    (spi_data_write g_crc_off
      (spi_cmd_complete g_crc_off bus_write_tag_fails CMD_DMA_EXT_WRITE 0x20000 [] 8 0).bus
      [1, 2, 3, 4, 5, 6, 7, 8] 8).1 = N_FAIL ∧
    (spi_write g_crc_off bus_write_tag_fails 0x20000 [1, 2, 3, 4, 5, 6, 7, 8] 8).1 = 1 ∧
    (spi_write g_crc_off bus_write_tag_fails 0x20000 [1, 2, 3, 4, 5, 6, 7, 8] 8).2.log =
      [Ev.trx [0xc7, 0x02, 0x00, 0x00, 0x00, 0x00, 0x08, 0, 0, 0, 0, 0], Ev.tx [0xf3]] ∧
    (spi_read g_crc_off bus_read_rest_fails 0x20000 [0, 0, 0, 0, 0, 0, 0, 0] 8).1 = 0 := by
  decide

/-- Claim C19, failing input: `spi_sync_ext` with 6 (and with 8) interrupt lines on a bus
where every transaction succeeds returns 1 and stores the count, but its last transaction
is a second SingleRead of `WILC_INTR2_ENABLE` (`0x1a04`): the only SingleWrite frames go to
`WILC_PIN_MUX_0` and `WILC_INTR_ENABLE`, so the second enable register is never written. -/
theorem sync_ext_never_writes_intr2 :
    (spi_sync_ext consts_sample false g_crc_off bus_sync6 6).1 = 1 ∧
    (spi_sync_ext consts_sample false g_crc_off bus_sync6 6).2.1.nint = 6 ∧
    cmd_headers (spi_sync_ext consts_sample false g_crc_off bus_sync6 6).2.2.log =
      [[0xca, 0x00, 0x14, 0x08], [0xc9, 0x00, 0x14, 0x08],
       [0xca, 0x00, 0x1a, 0x00], [0xc9, 0x00, 0x1a, 0x00],
       [0xca, 0x00, 0x1a, 0x04], [0xca, 0x00, 0x1a, 0x04]] ∧
    (spi_sync_ext consts_sample false g_crc_off bus_sync6 8).1 = 1 ∧
    cmd_headers (spi_sync_ext consts_sample false g_crc_off bus_sync6 8).2.2.log =
      [[0xca, 0x00, 0x14, 0x08], [0xc9, 0x00, 0x14, 0x08],
       [0xca, 0x00, 0x1a, 0x00], [0xc9, 0x00, 0x1a, 0x00],
       [0xca, 0x00, 0x1a, 0x04], [0xca, 0x00, 0x1a, 0x04]] := by
  decide

/-! ## Ranges of the checksum -/

theorem crc7_table_le : ∀ x ∈ crc7_syndrome_table, x ≤ 0x7f := by
  decide!

theorem crc7_index_lt (c d : Nat) (hc : c ≤ 0x7f) (hd : d < 256) : (c <<< 1) ^^^ d < 256 := by
  have h : (c <<< 1) ^^^ d < 2 ^ 8 := by
    apply Nat.xor_lt_two_pow
    · rw [Nat.shiftLeft_eq]; omega
    · simpa using hd
  simpa using h

theorem crc7_table_length : crc7_syndrome_table.length = 256 := by
  decide!

theorem crc7_byte_le (c d : Nat) (hc : c ≤ 0x7f) (hd : d < 256) : crc7_byte c d ≤ 0x7f := by
  unfold crc7_byte
  have hi := crc7_index_lt c d hc hd
  have hm : crc7_syndrome_table.getD ((c <<< 1) ^^^ d) 0 ∈ crc7_syndrome_table := by
    rw [List.getD_eq_getElem?_getD, List.getElem?_eq_getElem (by rw [crc7_table_length]; exact hi)]
    exact List.getElem_mem _
  exact crc7_table_le _ hm

/-- Claim C27: every entry of `crc7_syndrome_table` is at most `0x7F`; hence for every
start value `c <= 0x7F` and every sequence of bytes, each table index `(crc << 1) ^ data`
that `crc7` computes is below 256, the length of the table, the result of `crc7` is at most
`0x7F`, and the checksum byte `crc << 1` is below 256, so the cast to `uint8_t` leaves it
as it is, with lowest bit 0. -/
theorem crc7_in_range (c : Nat) (s : List Nat) (hc : c ≤ 0x7f) (hs : ∀ x ∈ s, x < 256) :
    (∀ x ∈ crc7_syndrome_table, x ≤ 0x7f) ∧
    crc7_syndrome_table.length = 256 ∧
    (∀ i ∈ crc7_indices c s, i < 256) ∧
    crc7 c s ≤ 0x7f ∧
    crc7 c s <<< 1 < 256 ∧
    u8 (crc7 c s <<< 1) = crc7 c s <<< 1 ∧
    (crc7 c s <<< 1) % 2 = 0 := by
  have key : (∀ i ∈ crc7_indices c s, i < 256) ∧ crc7 c s ≤ 0x7f := by
    induction s generalizing c with
    | nil => exact ⟨fun i hi => absurd hi (List.not_mem_nil i), hc⟩
    | cons d rest ih =>
      have hd : d < 256 := hs d (List.mem_cons_self _ _)
      have hrest : ∀ x ∈ rest, x < 256 := fun x hx => hs x (List.mem_cons_of_mem _ hx)
      obtain ⟨h1, h2⟩ := ih (crc7_byte c d) (crc7_byte_le c d hc hd) hrest
      refine ⟨?_, h2⟩
      intro i hi
      rw [crc7_indices, List.mem_cons] at hi
      rcases hi with e | e
      · rw [e]; exact crc7_index_lt c d hc hd
      · exact h1 i e
  obtain ⟨k1, k2⟩ := key
  have e : crc7 c s <<< 1 = 2 * crc7 c s := by rw [Nat.shiftLeft_eq]; omega
  refine ⟨crc7_table_le, crc7_table_length, k1, k2, by omega, ?_, by omega⟩
  unfold u8
  omega

theorem crc7_in_range_witness :
    (0x7f : Nat) ≤ 0x7f ∧ (∀ x ∈ [0xc9, 0x00, 0x12, 0x34, 0xde, 0xad, 0xbe, 0xef], x < 256) ∧
    crc7_indices 0x7f [0xc9, 0x00, 0x12, 0x34, 0xde, 0xad, 0xbe, 0xef]
      = [0x37, 0x28, 0xe6, 0x76, 0x2c, 0x11, 0x9e, 0xa3] ∧
    (∀ i ∈ crc7_indices 0x7f [0xc9, 0x00, 0x12, 0x34, 0xde, 0xad, 0xbe, 0xef], i < 256) ∧
    crc7 0x7f [0xc9, 0x00, 0x12, 0x34, 0xde, 0xad, 0xbe, 0xef] = 0x68 ∧
    crc7 0x7f [0xc9, 0x00, 0x12, 0x34, 0xde, 0xad, 0xbe, 0xef] ≤ 0x7f ∧
    u8 (crc7 0x7f [0xc9, 0x00, 0x12, 0x34, 0xde, 0xad, 0xbe, 0xef] <<< 1) = 0xd0 :=
  ⟨by decide, by decide, by decide,
    (crc7_in_range 0x7f [0xc9, 0x00, 0x12, 0x34, 0xde, 0xad, 0xbe, 0xef] (by decide)
      (by decide)).2.2.1,
    by decide,
    (crc7_in_range 0x7f [0xc9, 0x00, 0x12, 0x34, 0xde, 0xad, 0xbe, 0xef] (by decide)
      (by decide)).2.2.2.1,
    by decide⟩

/-! ## The DMA command frames -/

theorem msb_first_three (a : Nat) (ha : a < 2 ^ 24) :
    msb_first [(a >>> 16) % 256, (a >>> 8) % 256, a % 256] = a := by
  simp only [msb_first, List.foldl_cons, List.foldl_nil, Nat.shiftRight_eq_div_pow]
  omega

theorem msb_first_two (s : Nat) (hs : s < 2 ^ 16) :
    msb_first [(s >>> 8) % 256, s % 256] = s := by
  simp only [msb_first, List.foldl_cons, List.foldl_nil, Nat.shiftRight_eq_div_pow]
  omega

/-- The command of an opcode with the checksum off, as sent by `spi_cmd`. -/
theorem frame_off_cmd (g : wilc_spi) (bus : Bus) (cmd a data s clockless : Nat)
    (hdr : List Nat) (hoff : g.crc_off ≠ 0)
    (h1 : spi_cmd_bc cmd a data s clockless = some (hdr, hdr.length + 1)) :
    (spi_cmd g bus cmd a data s clockless).2.log = bus.log ++ [Ev.tx hdr] := by
  rw [spi_cmd_log g bus cmd a data s clockless hdr _ h1, cmd_frame_off g hdr hoff]

/-- The command of a DMA or register write opcode with the checksum off, at the start of
the combined transaction of `spi_cmd_complete`, which appends 5 zero bytes. -/
theorem frame_off_complete (g : wilc_spi) (bus : Bus) (cmd a s clockless : Nat) (b : List Nat)
    (hdr : List Nat) (hoff : g.crc_off ≠ 0) (hl : hdr.length + 1 ≤ 9)
    (hctl : is_ctl cmd = false) (hreg : is_reg_read cmd = false)
    (h2 : spi_cmd_complete_wb cmd a b s clockless = some (hdr, hdr.length + 1)) :
    ∃ rest, (spi_cmd_complete g bus cmd a b s clockless).bus.log
      = bus.log ++ Ev.trx (hdr ++ List.replicate 5 0) :: rest := by
  obtain ⟨rest, h⟩ := spi_cmd_complete_log g bus cmd a b s clockless hdr _ h2
    (len2_le_32 g cmd _ hl)
  refine ⟨rest, ?_⟩
  have c : cmd_len g (hdr.length + 1) = hdr.length := by simp [cmd_len, hoff]
  have l2 : spi_cmd_complete_len2 g cmd hdr.length = hdr.length + 5 := by
    unfold spi_cmd_complete_len2
    rw [hctl, hreg]
    rfl
  rw [h, cmd_frame_off g hdr hoff, c, l2, Nat.add_sub_cancel_left]

/-- Claim C21: with the checksum off and an address `a < 2^24`, the DmaRead/DmaWrite
command is the 6 bytes opcode, `a[23:16]`, `a[15:8]`, `a[7:0]`, `s[15:8]`, `s[7:0]`, and
the DmaExtRead/DmaExtWrite command is the 7 bytes opcode, `a[23:16]`, `a[15:8]`, `a[7:0]`,
`s[23:16]`, `s[15:8]`, `s[7:0]`; `spi_cmd` transmits exactly these bytes and
`spi_cmd_complete` sends them followed by 5 zero bytes. Read back most significant byte
first, the address field gives `a`, and the size field gives `s` when `s < 2^16`
(`s < 2^24` for the extended form). -/
theorem dma_frame_fields (g : wilc_spi) (bus : Bus) (cmd a s data clockless : Nat)
    (b : List Nat) (hoff : g.crc_off ≠ 0) (ha : a < 2 ^ 24) :
    (cmd = CMD_DMA_READ ∨ cmd = CMD_DMA_WRITE →
      (spi_cmd g bus cmd a data s clockless).2.log = bus.log ++
        [Ev.tx [cmd, (a >>> 16) % 256, (a >>> 8) % 256, a % 256, (s >>> 8) % 256, s % 256]] ∧
      (∃ rest, (spi_cmd_complete g bus cmd a b s clockless).bus.log = bus.log ++
        Ev.trx ([cmd, (a >>> 16) % 256, (a >>> 8) % 256, a % 256, (s >>> 8) % 256, s % 256]
          ++ List.replicate 5 0) :: rest) ∧
      msb_first [(a >>> 16) % 256, (a >>> 8) % 256, a % 256] = a ∧
      (s < 2 ^ 16 → msb_first [(s >>> 8) % 256, s % 256] = s)) ∧
    (cmd = CMD_DMA_EXT_READ ∨ cmd = CMD_DMA_EXT_WRITE →
      (spi_cmd g bus cmd a data s clockless).2.log = bus.log ++
        [Ev.tx [cmd, (a >>> 16) % 256, (a >>> 8) % 256, a % 256,
          (s >>> 16) % 256, (s >>> 8) % 256, s % 256]] ∧
      (∃ rest, (spi_cmd_complete g bus cmd a b s clockless).bus.log = bus.log ++
        Ev.trx ([cmd, (a >>> 16) % 256, (a >>> 8) % 256, a % 256,
          (s >>> 16) % 256, (s >>> 8) % 256, s % 256] ++ List.replicate 5 0) :: rest) ∧
      msb_first [(a >>> 16) % 256, (a >>> 8) % 256, a % 256] = a ∧
      (s < 2 ^ 24 → msb_first [(s >>> 16) % 256, (s >>> 8) % 256, s % 256] = s)) := by
  constructor
  · intro hc
    refine ⟨?_, ?_, msb_first_three a ha, msb_first_two s⟩
    · rcases hc with c | c <;> subst c <;>
        exact frame_off_cmd g bus _ a data s clockless _ hoff rfl
    · rcases hc with c | c <;> subst c <;>
        exact frame_off_complete g bus _ a s clockless b _ hoff (by simp) (by decide)
          (by decide) rfl
  · intro hc
    refine ⟨?_, ?_, msb_first_three a ha, msb_first_three s⟩
    · rcases hc with c | c <;> subst c <;>
        exact frame_off_cmd g bus _ a data s clockless _ hoff rfl
    · rcases hc with c | c <;> subst c <;>
        exact frame_off_complete g bus _ a s clockless b _ hoff (by simp) (by decide)
          (by decide) rfl

theorem dma_frame_fields_witness :
    g_crc_off.crc_off ≠ 0 ∧ 0x123456 < 2 ^ 24 ∧
    (spi_cmd g_crc_off (bus_of []) CMD_DMA_READ 0x123456 0 0x1f40 0).2.log =
      [Ev.tx [0xc2, 0x12, 0x34, 0x56, 0x1f, 0x40]] ∧
    msb_first [0x12, 0x34, 0x56] = 0x123456 ∧ msb_first [0x1f, 0x40] = 0x1f40 ∧
    (spi_cmd g_crc_off (bus_of []) CMD_DMA_EXT_WRITE 0x123456 0 0x012345 0).2.log =
      [Ev.tx [0xc7, 0x12, 0x34, 0x56, 0x01, 0x23, 0x45]] ∧
    (∃ rest, (spi_cmd_complete g_crc_off (bus_of []) CMD_DMA_EXT_WRITE 0x123456 [] 0x012345
      0).bus.log = Ev.trx [0xc7, 0x12, 0x34, 0x56, 0x01, 0x23, 0x45, 0, 0, 0, 0, 0] :: rest) ∧
    msb_first [0x01, 0x23, 0x45] = 0x012345 :=
  ⟨by decide, by decide,
    ((dma_frame_fields g_crc_off (bus_of []) CMD_DMA_READ 0x123456 0x1f40 0 0 [] (by decide)
      (by decide)).1 (Or.inl rfl)).1,
    ((dma_frame_fields g_crc_off (bus_of []) CMD_DMA_READ 0x123456 0x1f40 0 0 [] (by decide)
      (by decide)).1 (Or.inl rfl)).2.2.1,
    ((dma_frame_fields g_crc_off (bus_of []) CMD_DMA_READ 0x123456 0x1f40 0 0 [] (by decide)
      (by decide)).1 (Or.inl rfl)).2.2.2 (by decide),
    ((dma_frame_fields g_crc_off (bus_of []) CMD_DMA_EXT_WRITE 0x123456 0x012345 0 0 []
      (by decide) (by decide)).2 (Or.inr rfl)).1,
    ((dma_frame_fields g_crc_off (bus_of []) CMD_DMA_EXT_WRITE 0x123456 0x012345 0 0 []
      (by decide) (by decide)).2 (Or.inr rfl)).2.1,
    ((dma_frame_fields g_crc_off (bus_of []) CMD_DMA_EXT_WRITE 0x123456 0x012345 0 0 []
      (by decide) (by decide)).2 (Or.inr rfl)).2.2.2 (by decide)⟩

/-! ## Bounds of the combined transaction -/

/-- The `len` set by the `switch` for the control opcodes and the register reads is 5. -/
theorem wb_len_class (cmd adr : Nat) (b : List Nat) (sz clockless : Nat)
    (hdr : List Nat) (len0 : Nat)
    (h : spi_cmd_complete_wb cmd adr b sz clockless = some (hdr, len0)) :
    (is_ctl cmd = true → len0 = 5) ∧ (is_reg_read cmd = true → len0 = 5) := by
  by_cases hsup : cmd ∈ supported_cmds
  · simp only [supported_cmds, List.mem_cons, List.mem_singleton, List.not_mem_nil,
      or_false] at hsup
    rcases hsup with c | c | c | c | c | c | c | c | c | c | c <;> subst c
    all_goals
      have h' : some (_, _) = some (hdr, len0) := h
      rw [Option.some.injEq, Prod.mk.injEq] at h'
      rw [← h'.2]
      exact ⟨by decide, by decide⟩
  · simp only [supported_cmds, List.mem_cons, List.mem_singleton, List.not_mem_nil,
      or_false, not_or] at hsup
    obtain ⟨c1, c2, c3, c4, c5, c6, c7, c8, c9, c10, c11⟩ := hsup
    simp [spi_cmd_complete_wb, c1, c2, c3, c4, c5, c6, c7, c8, c9, c10, c11] at h

/-- The length `len2` of the combined transaction is at most 17 and leaves at least 5
bytes behind the command, 6 for the control opcodes. -/
theorem len2_bounds (g : wilc_spi) (cmd adr : Nat) (b : List Nat) (sz clockless : Nat)
    (hdr : List Nat) (len0 : Nat)
    (h : spi_cmd_complete_wb cmd adr b sz clockless = some (hdr, len0)) :
    spi_cmd_complete_len2 g cmd (cmd_len g len0) ≤ 17 ∧
    cmd_len g len0 + 5 ≤ spi_cmd_complete_len2 g cmd (cmd_len g len0) ∧
    (is_ctl cmd = true →
      cmd_len g len0 + 6 ≤ spi_cmd_complete_len2 g cmd (cmd_len g len0)) := by
  obtain ⟨_, h5, h9⟩ := spi_cmd_complete_wb_len cmd adr b sz clockless hdr len0 h
  obtain ⟨k1, k2⟩ := wb_len_class cmd adr b sz clockless hdr len0 h
  unfold spi_cmd_complete_len2 cmd_len
  simp only [NUM_SKIP_BYTES, NUM_RSP_BYTES, NUM_DATA_HDR_BYTES, NUM_DATA_BYTES, NUM_CRC_BYTES,
    NUM_DUMMY_BYTES]
  by_cases hctl : is_ctl cmd = true
  · have := k1 hctl
    rw [if_pos hctl]
    refine ⟨?_, ?_, fun _ => ?_⟩ <;> split_ifs <;> omega
  · rw [if_neg hctl]
    by_cases hreg : is_reg_read cmd = true
    · have := k2 hreg
      rw [if_pos hreg]
      refine ⟨?_, ?_, fun hc => absurd hc hctl⟩ <;> split_ifs <;> omega
    · rw [if_neg hreg]
      refine ⟨?_, ?_, fun hc => absurd hc hctl⟩ <;> split_ifs <;> omega

theorem data_hdr_scan_reads_lt (rb : List Nat) (len2 : Nat) : ∀ (retry rix : Nat),
    ∀ i ∈ data_hdr_scan_reads rb len2 retry rix, i < len2 := by
  intro retry
  induction retry with
  | zero =>
    intro rix i hi
    unfold data_hdr_scan_reads at hi
    split at hi
    · simp only [List.mem_singleton] at hi
      omega
    · exact absurd hi (List.not_mem_nil i)
  | succ r ih =>
    intro rix i hi
    unfold data_hdr_scan_reads at hi
    split at hi
    · split at hi
      · simp only [List.mem_singleton] at hi
        omega
      · rw [List.mem_cons] at hi
        rcases hi with e | e
        · omega
        · exact ih _ i e
    · exact absurd hi (List.not_mem_nil i)

theorem copy_dummy_reads_lt (len2 sz : Nat) : ∀ (n rix ix : Nat),
    ∀ i ∈ copy_dummy_reads len2 sz n rix ix, i < len2 := by
  intro n
  induction n with
  | zero =>
    intro rix ix i hi
    exact absurd hi (List.not_mem_nil i)
  | succ n ih =>
    intro rix ix i hi
    unfold copy_dummy_reads at hi
    split at hi
    · rw [List.mem_cons] at hi
      rcases hi with e | e
      · omega
      · exact ih _ _ i e
    · exact absurd hi (List.not_mem_nil i)

theorem reg_read_data_reads_lt (g : wilc_spi) (len2 rix : Nat) :
    ∀ i ∈ reg_read_data_reads g len2 rix, i < len2 := by
  intro i hi
  unfold reg_read_data_reads at hi
  split at hi
  · rw [List.mem_append] at hi
    rcases hi with e | e
    · simp only [List.mem_cons, List.mem_singleton, List.not_mem_nil, or_false] at e
      omega
    · split at e
      · split at e
        · simp only [List.mem_cons, List.mem_singleton, List.not_mem_nil, or_false] at e
          omega
        · exact absurd e (List.not_mem_nil i)
      · exact absurd e (List.not_mem_nil i)
  · exact absurd hi (List.not_mem_nil i)

/-- Claim C26: for every opcode of the `switch`, both checksum modes and every address,
size and data, the length `len2` of the combined transaction is at most 17, so the test
`len2 > ARRAY_SIZE(wb)` against the 32-byte buffers never holds; every index of `wb` stored
to (header, checksum byte, zero fill) and every index of `rb` read (echo byte, state byte,
data header scan, data bytes, checksum bytes, bytes copied for a DMA read) is below `len2`,
whatever `rb` holds. -/
theorem combined_buffer_bounds (g : wilc_spi) (cmd adr : Nat) (b : List Nat)
    (sz clockless : Nat) (hdr : List Nat) (len0 : Nat)
    (h : spi_cmd_complete_wb cmd adr b sz clockless = some (hdr, len0)) :
    spi_cmd_complete_len2 g cmd (cmd_len g len0) ≤ 17 ∧
    ¬ spi_cmd_complete_len2 g cmd (cmd_len g len0) > 32 ∧
    (∀ i ∈ wb_stores g cmd hdr len0, i < spi_cmd_complete_len2 g cmd (cmd_len g len0)) ∧
    (∀ rb, ∀ i ∈ rb_reads g cmd sz rb (cmd_len g len0)
        (spi_cmd_complete_len2 g cmd (cmd_len g len0)),
      i < spi_cmd_complete_len2 g cmd (cmd_len g len0)) := by
  obtain ⟨hl, h5, h9⟩ := spi_cmd_complete_wb_len cmd adr b sz clockless hdr len0 h
  obtain ⟨b17, b5, b6⟩ := len2_bounds g cmd adr b sz clockless hdr len0 h
  have hcl : cmd_len g len0 = len0 ∨ (g.crc_off ≠ 0 ∧ cmd_len g len0 = len0 - 1) := by
    unfold cmd_len
    by_cases hc : g.crc_off = 0
    · exact Or.inl (by rw [if_pos hc])
    · exact Or.inr ⟨hc, by rw [if_neg hc]⟩
  refine ⟨b17, by omega, ?_, ?_⟩
  · intro i hi
    unfold wb_stores at hi
    rw [List.mem_append, List.mem_append] at hi
    rcases hi with (e | e) | e
    · have := List.mem_range.mp e
      rcases hcl with c | ⟨_, c⟩ <;> omega
    · by_cases hc : g.crc_off = 0
      · rw [if_pos hc, List.mem_singleton] at e
        have c : cmd_len g len0 = len0 := by unfold cmd_len; rw [if_pos hc]
        omega
      · rw [if_neg hc] at e
        exact absurd e (List.not_mem_nil i)
    · rw [List.mem_map] at e
      obtain ⟨j, hj, e⟩ := e
      have := List.mem_range.mp hj
      omega
  · intro rb i hi
    unfold rb_reads at hi
    dsimp only at hi
    have hrix : (if is_ctl cmd = true then cmd_len g len0 + 1 else cmd_len g len0) + 1
        < spi_cmd_complete_len2 g cmd (cmd_len g len0) := by
      by_cases hctl : is_ctl cmd = true
      · have := b6 hctl
        rw [if_pos hctl]
        omega
      · rw [if_neg hctl]
        omega
    generalize (if is_ctl cmd = true then cmd_len g len0 + 1 else cmd_len g len0) = rix at *
    split at hi
    · simp only [List.mem_singleton] at hi
      omega
    · split at hi
      · simp only [List.mem_cons, List.mem_singleton, List.not_mem_nil, or_false] at hi
        omega
      · split at hi
        · rw [List.mem_append, List.mem_append] at hi
          rcases hi with (e | e) | e
          · simp only [List.mem_cons, List.mem_singleton, List.not_mem_nil, or_false] at e
            omega
          · exact data_hdr_scan_reads_lt rb _ _ _ i e
          · split at e
            · exact absurd e (List.not_mem_nil i)
            · split at e
              · exact reg_read_data_reads_lt g _ _ i e
              · split at e
                · exact copy_dummy_reads_lt _ sz _ _ _ i e
                · exact absurd e (List.not_mem_nil i)
        · simp only [List.mem_cons, List.mem_singleton, List.not_mem_nil, or_false] at hi
          omega

theorem combined_buffer_bounds_witness :
    spi_cmd_complete_wb CMD_SINGLE_READ 0x3b0000 [0, 0, 0, 0] 4 0
      = some ([0xca, 0x3b, 0x00, 0x00], 5) ∧
    spi_cmd_complete_len2 g_crc_on CMD_SINGLE_READ (cmd_len g_crc_on 5) = 17 ∧
    wb_stores g_crc_on CMD_SINGLE_READ [0xca, 0x3b, 0x00, 0x00] 5
      = [0, 1, 2, 3, 4, 5, 6, 7, 8, 9, 10, 11, 12, 13, 14, 15, 16] ∧
    rb_reads g_crc_on CMD_SINGLE_READ 4 (rb_read_on 0xca [0xa0, 0x00, 0x30, 0x00]) 5 17
      = [5, 6, 7, 8, 9, 10, 11, 12, 13] ∧
    (∀ i ∈ wb_stores g_crc_on CMD_SINGLE_READ [0xca, 0x3b, 0x00, 0x00] 5,
      i < spi_cmd_complete_len2 g_crc_on CMD_SINGLE_READ (cmd_len g_crc_on 5)) ∧
    (∀ rb, ∀ i ∈ rb_reads g_crc_on CMD_SINGLE_READ 4 rb (cmd_len g_crc_on 5)
        (spi_cmd_complete_len2 g_crc_on CMD_SINGLE_READ (cmd_len g_crc_on 5)),
      i < spi_cmd_complete_len2 g_crc_on CMD_SINGLE_READ (cmd_len g_crc_on 5)) :=
  ⟨rfl, by decide, by decide, by decide,
    (combined_buffer_bounds g_crc_on CMD_SINGLE_READ 0x3b0000 [0, 0, 0, 0] 4 0
      [0xca, 0x3b, 0x00, 0x00] 5 rfl).2.2⟩

/-! ## The data of a register read -/

/-- Either some byte of `rb` from `rix` up to `len2` is a data header, and then there is a
first one, or none is. -/
theorem first_hdr_cases (rb : List Nat) (rix len2 : Nat) :
    (∃ m, rix ≤ m ∧ m < len2 ∧ is_data_hdr (rd rb m) = true ∧
      ∀ i, rix ≤ i → i < m → is_data_hdr (rd rb i) = false) ∨
    (∀ i, rix ≤ i → i < len2 → is_data_hdr (rd rb i) = false) := by
  by_cases h : ∃ m, rix ≤ m ∧ m < len2 ∧ is_data_hdr (rd rb m) = true
  · left
    refine ⟨Nat.find h, (Nat.find_spec h).1, (Nat.find_spec h).2.1, (Nat.find_spec h).2.2, ?_⟩
    intro i h1 h2
    have hmin := Nat.find_min h h2
    by_cases hi : is_data_hdr (rd rb i) = true
    · exact absurd ⟨h1, by have := (Nat.find_spec h).2.1; omega, hi⟩ hmin
    · simpa using hi
  · right
    intro i h1 h2
    by_cases hi : is_data_hdr (rd rb i) = true
    · exact absurd ⟨i, h1, h2, hi⟩ h
    · simpa using hi

/-- The lengths of a register read: the command is 5 bytes and `len2 = 17` with the
checksum on, 4 bytes and `len2 = 14` with the checksum off. -/
theorem reg_read_lengths (g : wilc_spi) (cmd : Nat) (hreg : is_reg_read cmd = true) :
    (g.crc_off = 0 → cmd_len g 5 = 5 ∧ spi_cmd_complete_len2 g cmd (cmd_len g 5) = 17) ∧
    (g.crc_off ≠ 0 → cmd_len g 5 = 4 ∧ spi_cmd_complete_len2 g cmd (cmd_len g 5) = 14) := by
  obtain ⟨_, hctl, _⟩ := reg_read_len2 g cmd hreg
  unfold spi_cmd_complete_len2 cmd_len
  rw [hctl, hreg]
  constructor <;> intro hc <;>
    simp [hc, NUM_RSP_BYTES, NUM_DATA_HDR_BYTES, NUM_DATA_BYTES, NUM_CRC_BYTES,
      NUM_DUMMY_BYTES]

/-- A register read whose combined transaction holds the echo, a zero state byte and a
first data header at index `m` hands over to the data branch behind that header. -/
theorem reg_read_found (g : wilc_spi) (bus : Bus) (cmd adr : Nat) (b : List Nat)
    (sz clockless : Nat) (rb : List Nat) (m : Nat)
    (hcmd : cmd = CMD_SINGLE_READ ∨ cmd = CMD_INTERNAL_READ)
    (htrx : bus.resp bus.log.length = some rb)
    (hecho : rd rb (cmd_len g 5) = cmd)
    (hstate : rd rb (cmd_len g 5 + 1) = 0)
    (hm1 : cmd_len g 5 + 2 ≤ m)
    (hm2 : m < spi_cmd_complete_len2 g cmd (cmd_len g 5))
    (hfirst : ∀ i, cmd_len g 5 + 2 ≤ i → i < m → is_data_hdr (rd rb i) = false)
    (hmark : is_data_hdr (rd rb m) = true) :
    ∃ bus1, bus1.resp = bus.resp ∧ (∃ wb, bus1.log = bus.log ++ [Ev.trx wb]) ∧
      spi_cmd_complete g bus cmd adr b sz clockless
        = reg_read_data g bus1 rb (spi_cmd_complete_len2 g cmd (cmd_len g 5)) (m + 1) b := by
  have hreg : is_reg_read cmd = true := by
    rcases hcmd with c | c <;> subst c <;> decide
  obtain ⟨h17, hctl, hdma⟩ := reg_read_len2 g cmd hreg
  obtain ⟨hdr, hwb⟩ : ∃ hdr, spi_cmd_complete_wb cmd adr b sz clockless = some (hdr, 5) := by
    rcases hcmd with c | c <;> subst c <;> exact ⟨_, rfl⟩
  refine ⟨(spi_trx bus (cmd_frame g hdr 5 ++ List.replicate
    (spi_cmd_complete_len2 g cmd (cmd_len g 5) - cmd_len g 5) 0)).2, rfl, ⟨_, rfl⟩, ?_⟩
  rw [spi_cmd_complete_parsed g bus cmd adr b sz clockless hdr 5 rb hwb htrx]
  unfold spi_cmd_complete_rsp
  dsimp only
  simp only [hctl, Bool.false_eq_true, if_false, hecho, hstate, ne_eq, not_true_eq_false,
    hreg, true_or, if_true]
  unfold spi_cmd_complete_data
  dsimp only
  rw [data_hdr_scan_found rb _ m 100 _ hm1 hm2 (by omega) hfirst hmark]
  simp only [hreg, if_true]
  rw [if_neg (by omega)]

/-- A register read without a data header in the combined buffer returns `N_RESET`. -/
theorem reg_read_no_hdr (g : wilc_spi) (bus : Bus) (cmd adr : Nat) (b : List Nat)
    (sz clockless : Nat) (rb : List Nat)
    (hcmd : cmd = CMD_SINGLE_READ ∨ cmd = CMD_INTERNAL_READ)
    (htrx : bus.resp bus.log.length = some rb)
    (hecho : rd rb (cmd_len g 5) = cmd)
    (hstate : rd rb (cmd_len g 5 + 1) = 0)
    (hnone : ∀ i, cmd_len g 5 + 2 ≤ i → i < spi_cmd_complete_len2 g cmd (cmd_len g 5) →
      is_data_hdr (rd rb i) = false) :
    (spi_cmd_complete g bus cmd adr b sz clockless).result = N_RESET := by
  have hreg : is_reg_read cmd = true := by
    rcases hcmd with c | c <;> subst c <;> decide
  obtain ⟨h17, hctl, hdma⟩ := reg_read_len2 g cmd hreg
  obtain ⟨hdr, hwb⟩ : ∃ hdr, spi_cmd_complete_wb cmd adr b sz clockless = some (hdr, 5) := by
    rcases hcmd with c | c <;> subst c <;> exact ⟨_, rfl⟩
  rw [spi_cmd_complete_parsed g bus cmd adr b sz clockless hdr 5 rb hwb htrx]
  unfold spi_cmd_complete_rsp
  dsimp only
  simp only [hctl, Bool.false_eq_true, if_false, hecho, hstate, ne_eq, not_true_eq_false,
    hreg, true_or, if_true]
  unfold spi_cmd_complete_data
  dsimp only
  rw [if_pos (data_hdr_scan_none rb _ 100 _ hnone)]

/-- Four stores into a buffer of at least four bytes. -/
theorem set_four (b : List Nat) (x0 x1 x2 x3 : Nat) (hb : 4 ≤ b.length) :
    (((b.set 0 x0).set 1 x1).set 2 x2).set 3 x3 = [x0, x1, x2, x3] ++ b.drop 4 := by
  rcases b with _ | ⟨a0, _ | ⟨a1, _ | ⟨a2, _ | ⟨a3, rest⟩⟩⟩⟩
  · simp at hb
  · simp at hb
  · simp at hb
  · simp at hb
  · rfl

/-- A register read with matching echo, zero state byte and the first data header among
the 4 bytes behind the state byte returns `N_OK` and stores the 4 bytes behind the header. -/
theorem reg_read_stored (g : wilc_spi) (bus : Bus) (cmd adr : Nat) (b : List Nat)
    (sz clockless : Nat) (rb : List Nat) (j : Nat)
    (hcmd : cmd = CMD_SINGLE_READ ∨ cmd = CMD_INTERNAL_READ)
    (hb : 4 ≤ b.length)
    (htrx : bus.resp bus.log.length = some rb)
    (hecho : rd rb (cmd_len g 5) = cmd)
    (hstate : rd rb (cmd_len g 5 + 1) = 0)
    (hj : j < 4)
    (hmark : is_data_hdr (rd rb (cmd_len g 5 + 2 + j)) = true)
    (hfirst : ∀ i, i < j → is_data_hdr (rd rb (cmd_len g 5 + 2 + i)) = false) :
    (spi_cmd_complete g bus cmd adr b sz clockless).result = N_OK ∧
    (spi_cmd_complete g bus cmd adr b sz clockless).b =
      [rd rb (cmd_len g 5 + 2 + j + 1), rd rb (cmd_len g 5 + 2 + j + 2),
        rd rb (cmd_len g 5 + 2 + j + 3), rd rb (cmd_len g 5 + 2 + j + 4)] ++ b.drop 4 := by
  have hreg : is_reg_read cmd = true := by
    rcases hcmd with c | c <;> subst c <;> decide
  obtain ⟨lon, loff⟩ := reg_read_lengths g cmd hreg
  have hlen : cmd_len g 5 + 10 ≤ spi_cmd_complete_len2 g cmd (cmd_len g 5) := by
    by_cases hc : g.crc_off = 0
    · have := lon hc; omega
    · have := loff hc; omega
  obtain ⟨bus1, _, _, e⟩ := reg_read_found g bus cmd adr b sz clockless rb
    (cmd_len g 5 + 2 + j) hcmd htrx hecho hstate (by omega) (by omega)
    (fun i h1 h2 => by
      have := hfirst (i - (cmd_len g 5 + 2)) (by omega)
      rwa [show cmd_len g 5 + 2 + (i - (cmd_len g 5 + 2)) = i by omega] at this)
    hmark
  rw [e]
  unfold reg_read_data
  by_cases hc : g.crc_off = 0
  · have := lon hc
    rw [if_pos (by omega), if_pos hc, if_pos (by omega)]
    exact ⟨rfl, set_four b _ _ _ _ hb⟩
  · have := loff hc
    rw [if_pos (by omega), if_neg hc]
    exact ⟨rfl, set_four b _ _ _ _ hb⟩

/-- Claim C23: for a single register read (SingleRead or InternalRead) whose combined
transaction succeeds with matching echo and zero state byte, `spi_cmd_complete` returns
`N_OK` if and only if the first byte with high nibble `0xF` behind the state byte is one of
the 4 bytes that follow the state byte; in that case the 4 bytes stored into the caller's
buffer are the 4 bytes of `rb` right behind that header byte, in order, and the rest of
the buffer is left as it was. -/
theorem reg_read_ok_iff (g : wilc_spi) (bus : Bus) (cmd adr : Nat) (b : List Nat)
    (sz clockless : Nat) (rb : List Nat)
    (hcmd : cmd = CMD_SINGLE_READ ∨ cmd = CMD_INTERNAL_READ)
    (hb : 4 ≤ b.length)
    (htrx : bus.resp bus.log.length = some rb)
    (hecho : rd rb (cmd_len g 5) = cmd)
    (hstate : rd rb (cmd_len g 5 + 1) = 0) :
    ((spi_cmd_complete g bus cmd adr b sz clockless).result = N_OK ↔
      ∃ j, j < 4 ∧ is_data_hdr (rd rb (cmd_len g 5 + 2 + j)) = true ∧
        ∀ i, i < j → is_data_hdr (rd rb (cmd_len g 5 + 2 + i)) = false) ∧
    (∀ j, j < 4 → is_data_hdr (rd rb (cmd_len g 5 + 2 + j)) = true →
      (∀ i, i < j → is_data_hdr (rd rb (cmd_len g 5 + 2 + i)) = false) →
      (spi_cmd_complete g bus cmd adr b sz clockless).result = N_OK ∧
      (spi_cmd_complete g bus cmd adr b sz clockless).b =
        [rd rb (cmd_len g 5 + 2 + j + 1), rd rb (cmd_len g 5 + 2 + j + 2),
          rd rb (cmd_len g 5 + 2 + j + 3), rd rb (cmd_len g 5 + 2 + j + 4)] ++ b.drop 4) := by
  have hreg : is_reg_read cmd = true := by
    rcases hcmd with c | c <;> subst c <;> decide
  obtain ⟨lon, loff⟩ := reg_read_lengths g cmd hreg
  have good := fun j (hj : j < 4) hmark hfirst =>
    reg_read_stored g bus cmd adr b sz clockless rb j hcmd hb htrx hecho hstate hj hmark hfirst
  refine ⟨⟨?_, fun ⟨j, h1, h2, h3⟩ => (good j h1 h2 h3).1⟩, good⟩
  intro hok
  rcases first_hdr_cases rb (cmd_len g 5 + 2) (spi_cmd_complete_len2 g cmd (cmd_len g 5))
    with ⟨m, hm1, hm2, hmark, hfirst⟩ | hnone
  · by_cases hj : m - (cmd_len g 5 + 2) < 4
    · refine ⟨m - (cmd_len g 5 + 2), hj, ?_, ?_⟩
      · rwa [show cmd_len g 5 + 2 + (m - (cmd_len g 5 + 2)) = m by omega]
      · intro i hi
        exact hfirst _ (by omega) (by omega)
    · obtain ⟨bus1, _, _, e⟩ := reg_read_found g bus cmd adr b sz clockless rb m hcmd htrx
        hecho hstate hm1 hm2 hfirst hmark
      rw [e] at hok
      unfold reg_read_data at hok
      by_cases hc : g.crc_off = 0
      · have := lon hc
        by_cases h3 : m + 1 + 3 < spi_cmd_complete_len2 g cmd (cmd_len g 5)
        · rw [if_pos h3, if_pos hc, if_neg (by omega)] at hok
          exact absurd (show N_FAIL = N_OK from hok) (by decide)
        · rw [if_neg h3] at hok
          exact absurd (show N_FAIL = N_OK from hok) (by decide)
      · have := loff hc
        rw [if_neg (by omega)] at hok
        exact absurd (show N_FAIL = N_OK from hok) (by decide)
  · rw [reg_read_no_hdr g bus cmd adr b sz clockless rb hcmd htrx hecho hstate hnone] at hok
    exact absurd hok (by decide)

theorem reg_read_ok_iff_witness :
    (CMD_SINGLE_READ = CMD_SINGLE_READ ∨ CMD_SINGLE_READ = CMD_INTERNAL_READ) ∧
    4 ≤ [1, 2, 3, 4, 5].length ∧
    (bus_of [some [0, 0, 0, 0, 0xca, 0, 0x11, 0x22, 0xf3, 0xa0, 0xb1, 0xc2, 0xd3, 0xe4]]).resp
      (bus_of [some [0, 0, 0, 0, 0xca, 0, 0x11, 0x22, 0xf3, 0xa0, 0xb1, 0xc2, 0xd3, 0xe4]]).log.length
      = some [0, 0, 0, 0, 0xca, 0, 0x11, 0x22, 0xf3, 0xa0, 0xb1, 0xc2, 0xd3, 0xe4] ∧
    rd [0, 0, 0, 0, 0xca, 0, 0x11, 0x22, 0xf3, 0xa0, 0xb1, 0xc2, 0xd3, 0xe4]
      (cmd_len g_crc_off 5) = CMD_SINGLE_READ ∧
    rd [0, 0, 0, 0, 0xca, 0, 0x11, 0x22, 0xf3, 0xa0, 0xb1, 0xc2, 0xd3, 0xe4]
      (cmd_len g_crc_off 5 + 1) = 0 ∧
    (spi_cmd_complete g_crc_off
      (bus_of [some [0, 0, 0, 0, 0xca, 0, 0x11, 0x22, 0xf3, 0xa0, 0xb1, 0xc2, 0xd3, 0xe4]])
      CMD_SINGLE_READ 0x3b0000 [1, 2, 3, 4, 5] 4 0).result = N_OK ∧
    (spi_cmd_complete g_crc_off
      (bus_of [some [0, 0, 0, 0, 0xca, 0, 0x11, 0x22, 0xf3, 0xa0, 0xb1, 0xc2, 0xd3, 0xe4]])
      CMD_SINGLE_READ 0x3b0000 [1, 2, 3, 4, 5] 4 0).b = [0xa0, 0xb1, 0xc2, 0xd3, 5] :=
  ⟨Or.inl rfl, by decide, rfl, by decide, by decide,
    (reg_read_ok_iff g_crc_off
      (bus_of [some [0, 0, 0, 0, 0xca, 0, 0x11, 0x22, 0xf3, 0xa0, 0xb1, 0xc2, 0xd3, 0xe4]])
      CMD_SINGLE_READ 0x3b0000 [1, 2, 3, 4, 5] 4 0
      [0, 0, 0, 0, 0xca, 0, 0x11, 0x22, 0xf3, 0xa0, 0xb1, 0xc2, 0xd3, 0xe4]
      (Or.inl rfl) (by decide) rfl (by decide) (by decide)).2 2 (by decide) (by decide)
      (fun i hi => by interval_cases i <;> decide)⟩

/-! ## The byte order of register values -/

theorem or_bytes_eq (a b c d : Nat) (hb : b < 256) (hc : c < 256) (hd : d < 256) :
    (a <<< 24) ||| (b <<< 16) ||| (c <<< 8) ||| d = a * 2 ^ 24 + (b * 2 ^ 16 + (c * 2 ^ 8 + d)) := by
  rw [Nat.or_assoc, Nat.or_assoc, shiftLeft_or_lt c d 8 (by omega),
    shiftLeft_or_lt b _ 16 (by omega), shiftLeft_or_lt a _ 24 (by omega)]

/-- The value that `spi_read_reg` hands back for the memory image `p0, p1, p2, p3` of
`*data`, on either kind of host: the four bytes taken least significant first. -/
theorem read_value_of_mem (big_endian : Bool) (p0 p1 p2 p3 : Nat) (t : List Nat)
    (h0 : p0 < 256) (h1 : p1 < 256) (h2 : p2 < 256) (h3 : p3 < 256) :
    (if big_endian then BYTE_SWAP (u32_of_mem big_endian ([p0, p1, p2, p3] ++ t))
      else u32_of_mem big_endian ([p0, p1, p2, p3] ++ t)) = lsb_first [p0, p1, p2, p3] := by
  have e0 : rd ([p0, p1, p2, p3] ++ t) 0 = p0 := Nat.mod_eq_of_lt h0
  have e1 : rd ([p0, p1, p2, p3] ++ t) 1 = p1 := Nat.mod_eq_of_lt h1
  have e2 : rd ([p0, p1, p2, p3] ++ t) 2 = p2 := Nat.mod_eq_of_lt h2
  have e3 : rd ([p0, p1, p2, p3] ++ t) 3 = p3 := Nat.mod_eq_of_lt h3
  have el : lsb_first [p0, p1, p2, p3] = p3 * 2 ^ 24 + (p2 * 2 ^ 16 + (p1 * 2 ^ 8 + p0)) := by
    simp only [lsb_first, List.foldr_cons, List.foldr_nil]
    omega
  rw [el]
  cases big_endian
  · simp only [Bool.false_eq_true, if_false, u32_of_mem, e0, e1, e2, e3]
    exact or_bytes_eq p3 p2 p1 p0 h2 h1 h0
  · simp only [if_true, u32_of_mem, e0, e1, e2, e3]
    rw [or_bytes_eq p0 p1 p2 p3 h1 h2 h3, BYTE_SWAP_eq]
    clear e0 e1 e2 e3 el
    simp only [u8, Nat.shiftRight_eq_div_pow, Nat.reducePow]
    omega

theorem u32_mem_length (big_endian : Bool) (v : Nat) : (u32_mem big_endian v).length = 4 := by
  cases big_endian <;> rfl

theorem rd_lt (buf : List Nat) (i : Nat) : rd buf i < 256 := Nat.mod_lt _ (by norm_num)

/-- The data bytes that `spi_write_reg` sends: the value's bytes, most significant first. -/
theorem write_reg_wire_eq (big_endian : Bool) (g : wilc_spi) (addr v : Nat) :
    write_reg_wire big_endian g addr v
      = [(v >>> 24) % 256, (v >>> 16) % 256, (v >>> 8) % 256, v % 256] := by
  unfold write_reg_wire spi_write_reg
  dsimp only
  rw [write_reg_mem]
  by_cases ha : addr < 0x30
  · simp only [ha, if_true]
    rw [spi_cmd_complete_log_single g (bus_of []) CMD_INTERNAL_WRITE addr (u32_mem false v) 4 1
      _ 8 rfl (len2_le_32 g _ 8 (by decide)) (by decide)]
    by_cases hc : g.crc_off = 0 <;>
      simp [bus_of, cmd_frame, hc, u32_mem, rd, u8]
  · simp only [ha, if_false]
    rw [spi_cmd_complete_log_single g (bus_of []) CMD_SINGLE_WRITE addr (u32_mem false v) 4 0
      _ 9 rfl (len2_le_32 g _ 9 (by decide)) (by decide)]
    by_cases hc : g.crc_off = 0 <;>
      simp [bus_of, cmd_frame, hc, u32_mem, rd, u8]

/-- The value of a successful `spi_read_reg`: the 4 bytes behind the first data header,
least significant first. -/
theorem read_reg_value (big_endian : Bool) (g : wilc_spi) (bus : Bus) (addr old : Nat)
    (rb : List Nat) (j : Nat)
    (htrx : bus.resp bus.log.length = some rb)
    (hecho : rd rb (cmd_len g 5) = (if addr < 0x30 then CMD_INTERNAL_READ else CMD_SINGLE_READ))
    (hstate : rd rb (cmd_len g 5 + 1) = 0)
    (hj : j < 4)
    (hmark : is_data_hdr (rd rb (cmd_len g 5 + 2 + j)) = true)
    (hfirst : ∀ i, i < j → is_data_hdr (rd rb (cmd_len g 5 + 2 + i)) = false) :
    (spi_read_reg big_endian g bus addr old).1 = 1 ∧
    (spi_read_reg big_endian g bus addr old).2.1 =
      lsb_first [rd rb (cmd_len g 5 + 2 + j + 1), rd rb (cmd_len g 5 + 2 + j + 2),
        rd rb (cmd_len g 5 + 2 + j + 3), rd rb (cmd_len g 5 + 2 + j + 4)] := by
  have hcmd : (if addr < 0x30 then CMD_INTERNAL_READ else CMD_SINGLE_READ) = CMD_SINGLE_READ ∨
      (if addr < 0x30 then CMD_INTERNAL_READ else CMD_SINGLE_READ) = CMD_INTERNAL_READ := by
    by_cases ha : addr < 0x30
    · right; rw [if_pos ha]
    · left; rw [if_neg ha]
  obtain ⟨r1, r2⟩ := reg_read_stored g bus _ addr (u32_mem big_endian old) 4
    (if addr < 0x30 then 1 else 0) rb j hcmd (by rw [u32_mem_length]) htrx hecho hstate hj
    hmark hfirst
  unfold spi_read_reg
  dsimp only
  rw [if_neg (by rw [r1]; decide), r2]
  exact ⟨rfl, read_value_of_mem big_endian _ _ _ _ _ (rd_lt _ _) (rd_lt _ _) (rd_lt _ _)
    (rd_lt _ _)⟩

/-- Claim C22 fails on the code. For `v = 0xDEADBEEF` (little-endian host, checksum off),
`spi_write_reg` sends the data bytes `DE AD BE EF`; a successful SingleRead response
carrying these four bytes in this order makes `spi_read_reg` return `0xEFBEADDE`, not `v`. -/
theorem reg_round_trip_reverses_bytes :
    write_reg_wire false g_crc_off 0x3b0000 0xDEADBEEF = [0xde, 0xad, 0xbe, 0xef] ∧
    ((rb_read_off 0xca [0xde, 0xad, 0xbe, 0xef]).drop 7).take 4
      = write_reg_wire false g_crc_off 0x3b0000 0xDEADBEEF ∧
    (spi_read_reg false g_crc_off (bus_of [some (rb_read_off 0xca [0xde, 0xad, 0xbe, 0xef])])
      0x3b0000 0).1 = 1 ∧
    (spi_read_reg false g_crc_off (bus_of [some (rb_read_off 0xca [0xde, 0xad, 0xbe, 0xef])])
      0x3b0000 0).2.1 = 0xEFBEADDE ∧
    (spi_read_reg false g_crc_off (bus_of [some (rb_read_off 0xca [0xde, 0xad, 0xbe, 0xef])])
      0x3b0000 0).2.1 ≠ 0xDEADBEEF := by
  refine ⟨?_, ?_, ?_, ?_, ?_⟩ <;> decide

/-- Claim C22 as amended: `spi_write_reg` sends the four data bytes of a 32-bit value `v`
most significant byte first, and a successful `spi_read_reg` takes the four payload bytes
behind the data header least significant byte first. So when the bytes written for `v` are
presented in the same order as the payload, `spi_read_reg` returns `v` with its four bytes
reversed; it returns `v` when they are presented in the reverse order. Both calls use the
same setting of `BIG_ENDIAN`. -/
theorem reg_value_wire_order (big_endian : Bool) (g : wilc_spi) (bus : Bus)
    (addr v old : Nat) (rb : List Nat) (j : Nat)
    (hv : v < 2 ^ 32)
    (htrx : bus.resp bus.log.length = some rb)
    (hecho : rd rb (cmd_len g 5) = (if addr < 0x30 then CMD_INTERNAL_READ else CMD_SINGLE_READ))
    (hstate : rd rb (cmd_len g 5 + 1) = 0)
    (hj : j < 4)
    (hmark : is_data_hdr (rd rb (cmd_len g 5 + 2 + j)) = true)
    (hfirst : ∀ i, i < j → is_data_hdr (rd rb (cmd_len g 5 + 2 + i)) = false) :
    write_reg_wire big_endian g addr v
      = [(v >>> 24) % 256, (v >>> 16) % 256, (v >>> 8) % 256, v % 256] ∧
    msb_first (write_reg_wire big_endian g addr v) = v ∧
    (spi_read_reg big_endian g bus addr old).1 = 1 ∧
    (spi_read_reg big_endian g bus addr old).2.1 =
      lsb_first [rd rb (cmd_len g 5 + 2 + j + 1), rd rb (cmd_len g 5 + 2 + j + 2),
        rd rb (cmd_len g 5 + 2 + j + 3), rd rb (cmd_len g 5 + 2 + j + 4)] ∧
    ([rd rb (cmd_len g 5 + 2 + j + 1), rd rb (cmd_len g 5 + 2 + j + 2),
        rd rb (cmd_len g 5 + 2 + j + 3), rd rb (cmd_len g 5 + 2 + j + 4)]
        = write_reg_wire big_endian g addr v →
      (spi_read_reg big_endian g bus addr old).2.1 =
        (v % 256) * 2 ^ 24 + ((v >>> 8) % 256) * 2 ^ 16 + ((v >>> 16) % 256) * 2 ^ 8
          + (v >>> 24) % 256) ∧
    ([rd rb (cmd_len g 5 + 2 + j + 1), rd rb (cmd_len g 5 + 2 + j + 2),
        rd rb (cmd_len g 5 + 2 + j + 3), rd rb (cmd_len g 5 + 2 + j + 4)]
        = (write_reg_wire big_endian g addr v).reverse →
      (spi_read_reg big_endian g bus addr old).2.1 = v) := by
  obtain ⟨r1, r2⟩ := read_reg_value big_endian g bus addr old rb j htrx hecho hstate hj hmark
    hfirst
  have hw := write_reg_wire_eq big_endian g addr v
  refine ⟨hw, ?_, r1, r2, ?_, ?_⟩
  · rw [hw]
    simp only [msb_first, List.foldl_cons, List.foldl_nil, Nat.shiftRight_eq_div_pow,
      Nat.reducePow]
    omega
  · intro hp
    rw [r2, hp, hw]
    simp only [lsb_first, List.foldr_cons, List.foldr_nil, Nat.shiftRight_eq_div_pow,
      Nat.reducePow]
    omega
  · intro hp
    rw [r2, hp, hw]
    simp only [lsb_first, List.reverse_cons, List.reverse_nil, List.nil_append,
      List.cons_append, List.foldr_cons, List.foldr_nil, Nat.shiftRight_eq_div_pow,
      Nat.reducePow]
    omega

theorem reg_value_wire_order_witness :
    0x11223344 < 2 ^ 32 ∧
    (bus_of [some (rb_read_off 0xca [0x44, 0x33, 0x22, 0x11])]).resp
      (bus_of [some (rb_read_off 0xca [0x44, 0x33, 0x22, 0x11])]).log.length
      = some (rb_read_off 0xca [0x44, 0x33, 0x22, 0x11]) ∧
    write_reg_wire false g_crc_off 0x3b0000 0x11223344 = [0x11, 0x22, 0x33, 0x44] ∧
    (spi_read_reg false g_crc_off (bus_of [some (rb_read_off 0xca [0x44, 0x33, 0x22, 0x11])])
      0x3b0000 0).1 = 1 ∧
    (spi_read_reg false g_crc_off (bus_of [some (rb_read_off 0xca [0x44, 0x33, 0x22, 0x11])])
      0x3b0000 0).2.1 = 0x11223344 :=
  ⟨by decide, rfl, by decide,
    (reg_value_wire_order false g_crc_off
      (bus_of [some (rb_read_off 0xca [0x44, 0x33, 0x22, 0x11])]) 0x3b0000 0x11223344 0
      (rb_read_off 0xca [0x44, 0x33, 0x22, 0x11]) 0 (by decide) rfl (by decide) (by decide)
      (by decide) (by decide) (fun i hi => absurd hi (by omega))).2.2.1,
    (reg_value_wire_order false g_crc_off
      (bus_of [some (rb_read_off 0xca [0x44, 0x33, 0x22, 0x11])]) 0x3b0000 0x11223344 0
      (rb_read_off 0xca [0x44, 0x33, 0x22, 0x11]) 0 (by decide) rfl (by decide) (by decide)
      (by decide) (by decide) (fun i hi => absurd hi (by omega))).2.2.2.2.2 (by decide)⟩

/-! ## The data header scan of the data packets -/

/-- The scan on the bus makes between 1 and `retry + 1` one-byte receives and nothing
else. -/
theorem rx_hdr_scan_shape : ∀ (retry : Nat) (bus : Bus),
    ∃ k, 1 ≤ k ∧ k ≤ retry + 1 ∧
      (rx_hdr_scan retry bus).2.2.log = bus.log ++ List.replicate k (Ev.rx 1) ∧
      (rx_hdr_scan retry bus).2.2.resp = bus.resp := by
  intro retry
  induction retry with
  | zero =>
    intro bus
    unfold rx_hdr_scan
    dsimp only
    split
    · exact ⟨1, le_refl 1, by omega, rfl, rfl⟩
    · split <;> exact ⟨1, le_refl 1, by omega, rfl, rfl⟩
  | succ n ih =>
    intro bus
    unfold rx_hdr_scan
    dsimp only
    split
    · exact ⟨1, le_refl 1, by omega, rfl, rfl⟩
    · split
      · exact ⟨1, le_refl 1, by omega, rfl, rfl⟩
      · obtain ⟨k, h1, h2, h3, h4⟩ := ih (spi_rx bus 1).2
        refine ⟨k + 1, by omega, by omega, ?_, ?_⟩
        · rw [h3, spi_rx_log, List.append_assoc]
          rfl
        · rw [h4]
          rfl

theorem rx1_leading_le_run (l : List Ev) : rx1_leading l ≤ rx1_longest_run l := by
  cases l with
  | nil => exact le_refl _
  | cons e rest => exact le_max_left _ _

theorem rx1_leading_replicate (n : Nat) (l : List Ev) :
    rx1_leading (List.replicate n (Ev.rx 1) ++ l) = n + rx1_leading l := by
  induction n with
  | zero => simp
  | succ n ih =>
    rw [List.replicate_succ, List.cons_append, rx1_leading, if_pos rfl, ih]
    omega

theorem rx1_run_replicate (n : Nat) (l : List Ev) :
    rx1_longest_run (List.replicate n (Ev.rx 1) ++ l)
      = max (n + rx1_leading l) (rx1_longest_run l) := by
  induction n with
  | zero =>
    have := rx1_leading_le_run l
    simp only [List.replicate_zero, List.nil_append, Nat.zero_add]
    omega
  | succ n ih =>
    have h := rx1_leading_replicate (n + 1) l
    rw [List.replicate_succ, List.cons_append] at h ⊢
    rw [rx1_longest_run, h, ih]
    omega

/-- A scan followed by events that do not start with a one-byte receive. -/
theorem rx1_run_chunk (k : Nat) (tail : List Ev) (hk : k ≤ 11) (hp : rx1_leading tail = 0)
    (hr : rx1_longest_run tail ≤ 11) :
    rx1_longest_run (List.replicate k (Ev.rx 1) ++ tail) ≤ 11 := by
  rw [rx1_run_replicate, hp]
  omega

theorem rx1_run_rx_buf (ix nbytes : Nat) (l : List Ev) :
    rx1_longest_run (Ev.rx_buf ix nbytes :: l) = rx1_longest_run l := by
  have h : rx1_leading (Ev.rx_buf ix nbytes :: l) = 0 := rfl
  rw [rx1_longest_run, h]
  omega

theorem rx1_run_rx2 (l : List Ev) : rx1_longest_run (Ev.rx 2 :: l) = rx1_longest_run l := by
  have h : rx1_leading (Ev.rx 2 :: l) = 0 := rfl
  rw [rx1_longest_run, h]
  omega

/-- A scan that ends the log. -/
theorem rx1_run_scan (k : Nat) (hk : k ≤ 11) :
    rx1_longest_run (List.replicate k (Ev.rx 1)) ≤ 11 := by
  have h := rx1_run_chunk k [] hk rfl (by decide)
  rwa [List.append_nil] at h

theorem rx1_run_trx (wb : List Nat) (l : List Ev) :
    rx1_longest_run (Ev.trx wb :: l) = rx1_longest_run l := by
  have h : rx1_leading (Ev.trx wb :: l) = 0 := rfl
  rw [rx1_longest_run, h]
  omega

/-- In the `while (sz > 0)` loop of `spi_cmd_complete` no data header scan makes more
than 11 receives. -/
theorem dma_read_rest_runs (g : wilc_spi) (n : Nat) :
    ∀ (bus : Bus) (b : List Nat) (ix sz : Nat),
      ∃ ext, (dma_read_rest g n bus b ix sz).bus.log = bus.log ++ ext ∧
        rx1_longest_run ext ≤ 11 := by
  induction n with
  | zero =>
    intro bus b ix sz
    exact ⟨[], (List.append_nil _).symm, by decide⟩
  | succ n ih =>
    intro bus b ix sz
    obtain ⟨k, hk1, hk2, hlog, _⟩ := rx_hdr_scan_shape 10 bus
    unfold dma_read_rest
    dsimp only
    split
    · split
      · exact ⟨_, hlog, rx1_run_scan k (by omega)⟩
      · split
        · refine ⟨List.replicate k (Ev.rx 1) ++
            [Ev.rx_buf ix (if sz ≤ DATA_PKT_SZ then sz else DATA_PKT_SZ)], ?_,
            rx1_run_chunk k _ (by omega) rfl (by rw [rx1_run_rx_buf]; decide)⟩
          rw [spi_rx_buf_log, hlog, List.append_assoc]
        · rename_i x1 d1 hd1
          split
          · split
            · refine ⟨List.replicate k (Ev.rx 1) ++
                [Ev.rx_buf ix (if sz ≤ DATA_PKT_SZ then sz else DATA_PKT_SZ), Ev.rx 2], ?_,
                rx1_run_chunk k _ (by omega) rfl
                  (by rw [rx1_run_rx_buf, rx1_run_rx2]; decide)⟩
              rw [spi_rx_log, spi_rx_buf_log, hlog]
              simp
            · obtain ⟨ext, he, hr⟩ := ih (spi_rx (spi_rx_buf (rx_hdr_scan 10 bus).2.2 ix
                (if sz ≤ DATA_PKT_SZ then sz else DATA_PKT_SZ)).2 2).2
                (buf_store b ix (if sz ≤ DATA_PKT_SZ then sz else DATA_PKT_SZ) d1)
                (ix + (if sz ≤ DATA_PKT_SZ then sz else DATA_PKT_SZ))
                (sz - (if sz ≤ DATA_PKT_SZ then sz else DATA_PKT_SZ))
              refine ⟨List.replicate k (Ev.rx 1) ++
                (Ev.rx_buf ix (if sz ≤ DATA_PKT_SZ then sz else DATA_PKT_SZ) :: Ev.rx 2 :: ext),
                ?_, rx1_run_chunk k _ (by omega) rfl
                  (by rw [rx1_run_rx_buf, rx1_run_rx2]; exact hr)⟩
              rw [he, spi_rx_log, spi_rx_buf_log, hlog]
              simp
          · obtain ⟨ext, he, hr⟩ := ih (spi_rx_buf (rx_hdr_scan 10 bus).2.2 ix
              (if sz ≤ DATA_PKT_SZ then sz else DATA_PKT_SZ)).2
              (buf_store b ix (if sz ≤ DATA_PKT_SZ then sz else DATA_PKT_SZ) d1)
              (ix + (if sz ≤ DATA_PKT_SZ then sz else DATA_PKT_SZ))
              (sz - (if sz ≤ DATA_PKT_SZ then sz else DATA_PKT_SZ))
            refine ⟨List.replicate k (Ev.rx 1) ++
              (Ev.rx_buf ix (if sz ≤ DATA_PKT_SZ then sz else DATA_PKT_SZ) :: ext), ?_,
              rx1_run_chunk k _ (by omega) rfl (by rw [rx1_run_rx_buf]; exact hr)⟩
            rw [he, spi_rx_buf_log, hlog]
            simp
    · exact ⟨[], (List.append_nil _).symm, by decide⟩

/-- Transport calls `pre` that do not end a run, followed by a part without long runs. -/
theorem runs_extend (base pre : List Ev) (bus1 bus2 : Bus) (hb : bus1.log = base ++ pre)
    (hsafe : ∀ ext, rx1_longest_run ext ≤ 11 → rx1_longest_run (pre ++ ext) ≤ 11)
    (h : ∃ ext, bus2.log = bus1.log ++ ext ∧ rx1_longest_run ext ≤ 11) :
    ∃ ext, bus2.log = base ++ ext ∧ rx1_longest_run ext ≤ 11 := by
  obtain ⟨ext, he, hr⟩ := h
  exact ⟨pre ++ ext, by rw [he, hb, List.append_assoc], hsafe ext hr⟩

theorem rx_buf_rx_log (bus : Bus) (ix nbytes len : Nat) :
    (spi_rx (spi_rx_buf bus ix nbytes).2 len).2.log
      = bus.log ++ [Ev.rx_buf ix nbytes, Ev.rx len] := by
  simp

theorem dma_read_data_runs (g : wilc_spi) (bus : Bus) (rb : List Nat) (len2 rix : Nat)
    (b : List Nat) (sz : Nat) :
    ∃ ext, (dma_read_data g bus rb len2 rix b sz).bus.log = bus.log ++ ext ∧
      rx1_longest_run ext ≤ 11 := by
  unfold dma_read_data
  dsimp only
  split
  · split
    · exact ⟨_, spi_rx_buf_log _ _ _, by rw [rx1_run_rx_buf]; decide⟩
    · split
      · split
        · exact ⟨_, rx_buf_rx_log _ _ _ _, by rw [rx1_run_rx_buf, rx1_run_rx2]; decide⟩
        · exact runs_extend bus.log _ _ _ (rx_buf_rx_log _ _ _ _)
            (fun ext h => by
              rw [List.cons_append, List.cons_append, List.nil_append, rx1_run_rx_buf,
                rx1_run_rx2]
              exact h)
            (dma_read_rest_runs g _ _ _ _ _)
      · exact runs_extend bus.log _ _ _ (spi_rx_buf_log _ _ _)
          (fun ext h => by
            rw [List.cons_append, List.nil_append, rx1_run_rx_buf]
            exact h)
          (dma_read_rest_runs g _ _ _ _ _)
  · exact ⟨[], (List.append_nil _).symm, by decide⟩

theorem spi_cmd_complete_rsp_runs (g : wilc_spi) (bus : Bus) (cmd : Nat) (b : List Nat)
    (sz : Nat) (rb : List Nat) (len len2 : Nat) :
    ∃ ext, (spi_cmd_complete_rsp g bus cmd b sz rb len len2).bus.log = bus.log ++ ext ∧
      rx1_longest_run ext ≤ 11 := by
  have nil : ∃ ext, bus.log = bus.log ++ ext ∧ rx1_longest_run ext ≤ 11 :=
    ⟨[], (List.append_nil _).symm, by decide⟩
  unfold spi_cmd_complete_rsp
  dsimp only
  generalize (if is_ctl cmd = true then len + 1 else len) = rix
  split
  · exact nil
  · split
    · exact nil
    · split
      · unfold spi_cmd_complete_data
        dsimp only
        split
        · exact nil
        · split
          · rw [reg_read_data_bus]
            exact nil
          · split
            · exact dma_read_data_runs g _ _ _ _ _ _
            · exact nil
      · exact nil

theorem spi_cmd_complete_runs (g : wilc_spi) (bus : Bus) (cmd adr : Nat) (b : List Nat)
    (sz clockless : Nat) :
    ∃ ext, (spi_cmd_complete g bus cmd adr b sz clockless).bus.log = bus.log ++ ext ∧
      rx1_longest_run ext ≤ 11 := by
  have nil : ∃ ext, bus.log = bus.log ++ ext ∧ rx1_longest_run ext ≤ 11 :=
    ⟨[], (List.append_nil _).symm, by decide⟩
  unfold spi_cmd_complete
  split
  · exact nil
  · dsimp only
    split
    · exact nil
    · split
      · exact ⟨_, spi_trx_log _ _, by rw [rx1_run_trx]; decide⟩
      · exact runs_extend bus.log _ _ _ (spi_trx_log _ _)
          (fun ext h => by
            rw [List.cons_append, List.nil_append, rx1_run_trx]
            exact h)
          (spi_cmd_complete_rsp_runs g _ _ _ _ _ _ _)

/-- A scan of `k` receives and one packet (payload, then the checksum bytes `crc` when the
checksum is on), followed by a part without long runs. -/
theorem scan_pkt_extend (base : List Ev) (k ix nb : Nat) (crc : List Ev)
    (hcrc : crc = [] ∨ crc = [Ev.rx 2]) (hk : k ≤ 11) (bus1 bus2 : Bus)
    (hb : bus1.log = base ++ (List.replicate k (Ev.rx 1) ++ (Ev.rx_buf ix nb :: crc)))
    (h : ∃ ext, bus2.log = bus1.log ++ ext ∧ rx1_longest_run ext ≤ 11) :
    ∃ ext, bus2.log = base ++ ext ∧ rx1_longest_run ext ≤ 11 := by
  refine runs_extend base _ bus1 bus2 hb (fun ext he => ?_) h
  rw [List.append_assoc]
  refine rx1_run_chunk k _ hk rfl ?_
  rw [List.cons_append, rx1_run_rx_buf]
  rcases hcrc with c | c <;> subst c
  · exact he
  · rw [List.cons_append, List.nil_append, rx1_run_rx2]
    exact he

theorem runs_nil (bus : Bus) : ∃ ext, bus.log = bus.log ++ ext ∧ rx1_longest_run ext ≤ 11 :=
  ⟨[], (List.append_nil _).symm, by decide⟩

/-- In `spi_data_read` no data header scan makes more than 11 receives. -/
theorem spi_data_read_loop_runs (g : wilc_spi) : ∀ (fuel : Nat) (bus : Bus) (b : List Nat)
    (ix sz : Nat), ∃ ext, (spi_data_read_loop g fuel bus b ix sz).bus.log = bus.log ++ ext ∧
      rx1_longest_run ext ≤ 11 := by
  intro fuel
  induction fuel using Nat.strong_induction_on with
  | _ fuel ih =>
    intro bus b ix sz
    obtain ⟨k, hk1, hk2, hlog, _⟩ := rx_hdr_scan_shape 10 bus
    have hk : k ≤ 11 := by omega
    have hb1 : (spi_rx_buf (rx_hdr_scan 10 bus).2.2 ix
        (if sz ≤ DATA_PKT_SZ then sz else DATA_PKT_SZ)).2.log = bus.log ++
          (List.replicate k (Ev.rx 1) ++
            (Ev.rx_buf ix (if sz ≤ DATA_PKT_SZ then sz else DATA_PKT_SZ) :: [])) := by
      rw [spi_rx_buf_log, hlog, List.append_assoc]
    have hb2 : (spi_rx (spi_rx_buf (rx_hdr_scan 10 bus).2.2 ix
        (if sz ≤ DATA_PKT_SZ then sz else DATA_PKT_SZ)).2 2).2.log = bus.log ++
          (List.replicate k (Ev.rx 1) ++
            (Ev.rx_buf ix (if sz ≤ DATA_PKT_SZ then sz else DATA_PKT_SZ) :: [Ev.rx 2])) := by
      rw [rx_buf_rx_log, hlog, List.append_assoc]
    rw [spi_data_read_loop]
    dsimp only
    generalize (if sz ≤ DATA_PKT_SZ then sz else DATA_PKT_SZ) = nb at hb1 hb2 ⊢
    split
    · exact ⟨_, hlog, rx1_run_scan k hk⟩
    · split
      · exact ⟨_, hlog, rx1_run_scan k hk⟩
      · split
        · exact scan_pkt_extend bus.log k ix _ [] (Or.inl rfl) hk _ _ hb1 (runs_nil _)
        · by_cases hc : g.crc_off = 0
          · simp only [hc, if_true]
            split
            · exact scan_pkt_extend bus.log k ix _ [Ev.rx 2] (Or.inr rfl) hk _ _ hb2
                (runs_nil _)
            · split
              · split
                · exact scan_pkt_extend bus.log k ix _ [Ev.rx 2] (Or.inr rfl) hk _ _ hb2
                    (runs_nil _)
                · exact scan_pkt_extend bus.log k ix _ [Ev.rx 2] (Or.inr rfl) hk _ _ hb2
                    (ih _ (by omega) _ _ _ _)
              · exact scan_pkt_extend bus.log k ix _ [Ev.rx 2] (Or.inr rfl) hk _ _ hb2
                  (runs_nil _)
          · simp only [hc, if_false]
            split
            · split
              · exact scan_pkt_extend bus.log k ix _ [] (Or.inl rfl) hk _ _ hb1 (runs_nil _)
              · exact scan_pkt_extend bus.log k ix _ [] (Or.inl rfl) hk _ _ hb1
                  (ih _ (by omega) _ _ _ _)
            · exact scan_pkt_extend bus.log k ix _ [] (Or.inl rfl) hk _ _ hb1 (runs_nil _)

/-- Claim C24 fails on the code: when no received byte is a data header, the scan of
`spi_data_read` makes 11 one-byte receives, and so does the scan for the second packet in
`spi_cmd_complete`. -/
theorem hdr_scan_makes_11_receives :
    (spi_data_read g_crc_on (bus_ok [0x00]) (List.replicate 8 0) 8).bus.log
      = List.replicate 11 (Ev.rx 1) ∧
    rx1_longest_run (spi_data_read g_crc_on (bus_ok [0x00]) (List.replicate 8 0) 8).bus.log
      = 11 ∧
    rx1_longest_run (spi_cmd_complete g_crc_on bus_hdr_timeout CMD_DMA_EXT_READ 0
      (List.replicate 8200 0) 8200 0).bus.log = 11 ∧
    ¬ (11 ≤ 10) := by
  refine ⟨?_, ?_, ?_, ?_⟩ <;> decide

/-- Claim C24 as amended: the data header scan for a packet is `retry = 10; do { ... }
while (retry--);`, which makes between 1 and 11 one-byte receives (the first attempt and up
to 10 retries) and no other transport call; in the transport calls of `spi_data_read` and
of `spi_cmd_complete`, whatever the opcode and whatever is received, no run of consecutive
one-byte receives is longer than 11. -/
theorem hdr_scan_at_most_11 (g : wilc_spi) (bus : Bus) (cmd adr : Nat) (b : List Nat)
    (sz clockless : Nat) :
    (∃ k, 1 ≤ k ∧ k ≤ 11 ∧
      (rx_hdr_scan 10 bus).2.2.log = bus.log ++ List.replicate k (Ev.rx 1)) ∧
    (∃ ext, (spi_data_read g bus b sz).bus.log = bus.log ++ ext ∧
      rx1_longest_run ext ≤ 11) ∧
    (∃ ext, (spi_cmd_complete g bus cmd adr b sz clockless).bus.log = bus.log ++ ext ∧
      rx1_longest_run ext ≤ 11) := by
  obtain ⟨k, h1, h2, h3, _⟩ := rx_hdr_scan_shape 10 bus
  exact ⟨⟨k, h1, h2, h3⟩, spi_data_read_loop_runs g sz bus b 0 sz,
    spi_cmd_complete_runs g bus cmd adr b sz clockless⟩

/-! ## The buffer of a DMA read -/

theorem buf_store_succ (b : List Nat) (ix n : Nat) (d : List Nat) :
    buf_store b ix (n + 1) d = (buf_store b ix n d).set (ix + n) (rd d n) := by
  unfold buf_store
  rw [List.range_succ, List.foldl_append]
  rfl

theorem buf_store_length (b : List Nat) (ix : Nat) (d : List Nat) :
    ∀ n, (buf_store b ix n d).length = b.length := by
  intro n
  induction n with
  | zero => rfl
  | succ n ih => rw [buf_store_succ, List.length_set, ih]

/-- A receive of `n` bytes at `b[ix]` leaves every other byte of the buffer as it was. -/
theorem buf_store_getD (b : List Nat) (ix : Nat) (d : List Nat) (i : Nat) :
    ∀ n, (i < ix ∨ ix + n ≤ i) → (buf_store b ix n d).getD i 0 = b.getD i 0 := by
  intro n
  induction n with
  | zero => intro _; rfl
  | succ n ih =>
    intro h
    rw [buf_store_succ, List.getD_eq_getElem?_getD, List.getElem?_set_ne (by omega),
      ← List.getD_eq_getElem?_getD]
    exact ih (by omega)

/-- A receive of `n` bytes at `b[ix]` stores byte `i - ix` of the received data at `b[i]`. -/
theorem buf_store_getD_in (b : List Nat) (ix : Nat) (d : List Nat) (i : Nat)
    (hi : i < b.length) :
    ∀ n, ix ≤ i → i < ix + n → (buf_store b ix n d).getD i 0 = rd d (i - ix) := by
  intro n
  induction n with
  | zero => intro h1 h2; omega
  | succ n ih =>
    intro h1 h2
    rw [buf_store_succ, List.getD_eq_getElem?_getD]
    by_cases e : i = ix + n
    · subst e
      rw [List.getElem?_set_self (by rw [buf_store_length]; exact hi), Nat.add_sub_cancel_left]
      rfl
    · rw [List.getElem?_set_ne (by omega), ← List.getD_eq_getElem?_getD]
      exact ih h1 (by omega)

theorem set_getD_self (b : List Nat) (i v : Nat) (hi : i < b.length) :
    (b.set i v).getD i 0 = v := by
  rw [List.getD_eq_getElem?_getD, List.getElem?_set_self hi]
  rfl

/-- The loop that copies the bytes left in the combined buffer: it stores
`min (len2 - rix) (sz - ix)` bytes of `rb`, from `rb[rix]` on, to `b[ix]` and the bytes
behind it, and leaves the other bytes of `b` as they were. -/
theorem copy_dummy_spec (rb : List Nat) (len2 sz : Nat) : ∀ (n rix ix : Nat) (b : List Nat),
    n = len2 - rix → ix ≤ sz →
    (copy_dummy rb len2 sz n rix ix b).1 = ix + min n (sz - ix) ∧
    (copy_dummy rb len2 sz n rix ix b).2.length = b.length ∧
    (∀ i, (i < ix ∨ ix + min n (sz - ix) ≤ i) →
      (copy_dummy rb len2 sz n rix ix b).2.getD i 0 = b.getD i 0) ∧
    ∀ j, j < min n (sz - ix) → ix + j < b.length →
      (copy_dummy rb len2 sz n rix ix b).2.getD (ix + j) 0 = rd rb (rix + j) := by
  intro n
  induction n with
  | zero =>
    intro rix ix b _ _
    exact ⟨by simp [copy_dummy], rfl, fun i _ => rfl, fun j hj _ => by omega⟩
  | succ n ih =>
    intro rix ix b hn hix
    unfold copy_dummy
    by_cases hlt : ix < sz
    · rw [if_pos ⟨by omega, hlt⟩]
      obtain ⟨h1, h2, h3, h4⟩ := ih (rix + 1) (ix + 1) (b.set ix (rd rb rix)) (by omega)
        (by omega)
      have e : ix + 1 + min n (sz - (ix + 1)) = ix + min (n + 1) (sz - ix) := by omega
      refine ⟨by rw [h1, e], by rw [h2, List.length_set], ?_, ?_⟩
      · intro i hi
        rw [h3 i (by omega), List.getD_eq_getElem?_getD, List.getElem?_set_ne (by omega),
          ← List.getD_eq_getElem?_getD]
      · intro j hj hjb
        cases j with
        | zero =>
          have h := h3 ix (Or.inl (by omega))
          rw [set_getD_self b ix _ hjb] at h
          exact h
        | succ j =>
          have h := h4 j (by omega) (by rw [List.length_set]; omega)
          rw [show ix + 1 + j = ix + (j + 1) by omega,
            show rix + 1 + j = rix + (j + 1) by omega] at h
          exact h
    · rw [if_neg (by omega)]
      exact ⟨by omega, rfl, fun i _ => rfl, fun j hj _ => by omega⟩

theorem payload_receives_append (l1 l2 : List Ev) :
    payload_receives (l1 ++ l2) = payload_receives l1 ++ payload_receives l2 := by
  unfold payload_receives
  rw [List.filterMap_append]

theorem payload_receives_scan (k : Nat) : payload_receives (List.replicate k (Ev.rx 1)) = [] := by
  induction k with
  | zero => rfl
  | succ k ih =>
    rw [List.replicate_succ]
    unfold payload_receives at ih ⊢
    rw [List.filterMap_cons]
    exact ih

/-- With every transport call succeeding, the scan on the bus receives every byte. -/
theorem rx_hdr_scan_ok : ∀ (retry : Nat) (bus : Bus), (∀ k, (bus.resp k).isSome = true) →
    (rx_hdr_scan retry bus).1 = true := by
  intro retry
  induction retry with
  | zero =>
    intro bus hok
    unfold rx_hdr_scan
    dsimp only
    split
    · rename_i heq
      have h := hok bus.log.length
      rw [show bus.resp bus.log.length = none from heq] at h
      exact absurd h (by simp)
    · split <;> rfl
  | succ n ih =>
    intro bus hok
    unfold rx_hdr_scan
    dsimp only
    split
    · rename_i heq
      have h := hok bus.log.length
      rw [show bus.resp bus.log.length = none from heq] at h
      exact absurd h (by simp)
    · split
      · rfl
      · exact ih _ hok

/-- One pass of the `while (sz > 0)` loop of `spi_cmd_complete` when every transport call
succeeds: a scan, the payload receive of `min sz 8192` bytes at `b[ix]`, and the checksum
receive when the checksum is on. -/
theorem dma_read_rest_pass (g : wilc_spi) (n : Nat) (bus : Bus) (b : List Nat) (ix sz : Nat)
    (hz : sz > 0) (hok : ∀ k, (bus.resp k).isSome = true) :
    ∃ (k : Nat) (d : List Nat) (bus1 : Bus), bus1.resp = bus.resp ∧
      bus1.log = bus.log ++ (List.replicate k (Ev.rx 1) ++
        (Ev.rx_buf ix (if sz ≤ DATA_PKT_SZ then sz else DATA_PKT_SZ)
          :: (if g.crc_off = 0 then [Ev.rx 2] else []))) ∧
      bus.resp (bus.log.length + k) = some d ∧
      dma_read_rest g (n + 1) bus b ix sz =
        dma_read_rest g n bus1
          (buf_store b ix (if sz ≤ DATA_PKT_SZ then sz else DATA_PKT_SZ) d)
          (ix + (if sz ≤ DATA_PKT_SZ then sz else DATA_PKT_SZ))
          (sz - (if sz ≤ DATA_PKT_SZ then sz else DATA_PKT_SZ)) := by
  obtain ⟨k, _, _, hlog, hresp⟩ := rx_hdr_scan_shape 10 bus
  have hs1 := rx_hdr_scan_ok 10 bus hok
  rw [dma_read_rest, if_pos hz]
  dsimp only
  rw [hs1]
  generalize (if sz ≤ DATA_PKT_SZ then sz else DATA_PKT_SZ) = nb
  generalize (rx_hdr_scan 10 bus).2.2 = S at hlog hresp ⊢
  have hokS : ∀ k, (S.resp k).isSome = true := by rw [hresp]; exact hok
  obtain ⟨d, hd⟩ := Option.isSome_iff_exists.mp (hokS S.log.length)
  have hd' : (spi_rx_buf S ix nb).1 = some d := hd
  have hdk : bus.resp (bus.log.length + k) = some d := by
    rw [hlog, List.length_append, List.length_replicate, hresp] at hd
    exact hd
  simp only [Bool.not_true, Bool.false_eq_true, if_false, hd']
  by_cases hc : g.crc_off = 0
  · obtain ⟨d2, hd2⟩ := Option.isSome_iff_exists.mp (hokS (spi_rx_buf S ix nb).2.log.length)
    have hd2' : (spi_rx (spi_rx_buf S ix nb).2 2).1 = some d2 := hd2
    simp only [hc, if_true, hd2']
    refine ⟨k, d, _, ?_, ?_, hdk, rfl⟩
    · exact hresp
    · rw [rx_buf_rx_log, hlog, List.append_assoc]
  · simp only [hc, if_false]
    refine ⟨k, d, _, ?_, ?_, hdk, rfl⟩
    · exact hresp
    · rw [spi_rx_buf_log, hlog, List.append_assoc]

theorem payload_receives_pass (k ix nb : Nat) (crc ext : List Ev)
    (hcrc : crc = [] ∨ crc = [Ev.rx 2]) :
    payload_receives ((List.replicate k (Ev.rx 1) ++ (Ev.rx_buf ix nb :: crc)) ++ ext)
      = (ix, nb) :: payload_receives ext := by
  rw [payload_receives_append, payload_receives_append, payload_receives_scan, List.nil_append]
  rcases hcrc with c | c <;> subst c <;> rfl

theorem crc_events (g : wilc_spi) :
    (if g.crc_off = 0 then [Ev.rx 2] else []) = [] ∨
    (if g.crc_off = 0 then [Ev.rx 2] else []) = [Ev.rx 2] := by
  by_cases hc : g.crc_off = 0
  · right; rw [if_pos hc]
  · left; rw [if_neg hc]

/-- The payload receive of a pass is the invocation behind the `k` receives of its scan. -/
theorem getElem_pass (base : List Ev) (k : Nat) (e : Ev) (tail ext : List Ev) :
    ((base ++ (List.replicate k (Ev.rx 1) ++ (e :: tail))) ++ ext)[base.length + k]?
      = some e := by
  rw [List.append_assoc, List.getElem?_append_right (by omega), Nat.add_sub_cancel_left,
    List.append_assoc, List.getElem?_append_right (by rw [List.length_replicate]),
    List.length_replicate, Nat.sub_self]
  simp

/-- With every transport call succeeding, the `while (sz > 0)` loop of `spi_cmd_complete`
returns `N_OK`; its payload receives fill `b[ix .. ix + sz)` in increasing order without
gap or overlap, each between 1 and 8192 bytes, every byte of that range ends up as the
byte received for it, and the other bytes of `b` stay as they were. -/
theorem dma_read_rest_fill (g : wilc_spi) : ∀ (n : Nat) (bus : Bus) (b : List Nat)
    (ix sz : Nat), sz ≤ n → (∀ k, (bus.resp k).isSome = true) →
    (dma_read_rest g n bus b ix sz).result = N_OK ∧
    (dma_read_rest g n bus b ix sz).b.length = b.length ∧
    (∀ i, (i < ix ∨ ix + sz ≤ i) → (dma_read_rest g n bus b ix sz).b.getD i 0 = b.getD i 0) ∧
    (∀ i, ix ≤ i → i < ix + sz → i < b.length →
      received_at bus.resp (dma_read_rest g n bus b ix sz).bus.log
        (dma_read_rest g n bus b ix sz).b i) ∧
    ∃ ext, (dma_read_rest g n bus b ix sz).bus.log = bus.log ++ ext ∧
      segments_end ix (payload_receives ext) = some (ix + sz) := by
  intro n
  induction n with
  | zero =>
    intro bus b ix sz hn _
    have hz : sz = 0 := by omega
    subst hz
    exact ⟨rfl, rfl, fun i _ => rfl, fun i h1 h2 _ => by omega, [],
      (List.append_nil _).symm, rfl⟩
  | succ n ih =>
    intro bus b ix sz hn hok
    by_cases hz : sz > 0
    · obtain ⟨k, d, bus1, hresp, hlog, hdk, e⟩ := dma_read_rest_pass g n bus b ix sz hz hok
      have hnb : 1 ≤ (if sz ≤ DATA_PKT_SZ then sz else DATA_PKT_SZ) ∧
          (if sz ≤ DATA_PKT_SZ then sz else DATA_PKT_SZ) ≤ 8192 ∧
          (if sz ≤ DATA_PKT_SZ then sz else DATA_PKT_SZ) ≤ sz := by
        simp only [DATA_PKT_SZ, DATA_PKT_SZ_8K]
        split_ifs <;> omega
      generalize (if sz ≤ DATA_PKT_SZ then sz else DATA_PKT_SZ) = nb at hlog e hnb
      obtain ⟨r1, r2, r3, rc, ext, r4, r5⟩ := ih bus1 (buf_store b ix nb d) (ix + nb) (sz - nb)
        (by omega) (by rw [hresp]; exact hok)
      rw [e]
      refine ⟨r1, by rw [r2, buf_store_length], ?_, ?_,
        (List.replicate k (Ev.rx 1) ++ (Ev.rx_buf ix nb
          :: (if g.crc_off = 0 then [Ev.rx 2] else []))) ++ ext,
        by rw [r4, hlog, List.append_assoc], ?_⟩
      · intro i hi
        rw [r3 i (by omega), buf_store_getD b ix d i nb (by omega)]
      · intro i h1 h2 hib
        by_cases hin : i < ix + nb
        · refine ⟨bus.log.length + k, ix, nb, d, ?_, h1, hin, hdk, ?_⟩
          · rw [r4, hlog]
            exact getElem_pass bus.log k _ _ ext
          · rw [r3 i (Or.inl hin)]
            exact buf_store_getD_in b ix d i hib nb h1 hin
        · have h := rc i (by omega) (by omega) (by rw [buf_store_length]; exact hib)
          rw [hresp] at h
          exact h
      · rw [payload_receives_pass k ix nb _ ext (crc_events g), segments_end,
          if_pos ⟨rfl, hnb.1, hnb.2.1⟩, r5]
        congr 1
        omega
    · have hz0 : sz = 0 := by omega
      subst hz0
      rw [dma_read_rest, if_neg hz]
      exact ⟨rfl, rfl, fun i _ => rfl, fun i h1 h2 _ => by omega, [],
        (List.append_nil _).symm, rfl⟩

/-- The first packet of a DMA read and the packets behind it, when every transport call
succeeds and the combined buffer holds fewer bytes behind the data header than are asked
for: `c0 = len2 - rix` bytes are copied from the combined buffer to `b[0 .. c0)`, the first
payload receive brings the total to `min sz 8192`, and the loop reads the rest; every byte
of `b[c0 .. sz)` ends up as the byte received for it. -/
theorem dma_read_data_fill (g : wilc_spi) (bus : Bus) (rb : List Nat) (len2 rix : Nat)
    (b : List Nat) (sz : Nat) (hok : ∀ k, (bus.resp k).isSome = true)
    (hc0 : len2 - rix < sz) (h8 : len2 - rix < 8192) :
    (copy_dummy rb len2 sz (len2 - rix) rix 0 b).1 = len2 - rix ∧
    (dma_read_data g bus rb len2 rix b sz).result = N_OK ∧
    (dma_read_data g bus rb len2 rix b sz).b.length = b.length ∧
    (∀ i, sz ≤ i → (dma_read_data g bus rb len2 rix b sz).b.getD i 0 = b.getD i 0) ∧
    (∀ i, i < len2 - rix → i < b.length →
      (dma_read_data g bus rb len2 rix b sz).b.getD i 0 = rd rb (rix + i)) ∧
    (∀ i, len2 - rix ≤ i → i < sz → i < b.length →
      received_at bus.resp (dma_read_data g bus rb len2 rix b sz).bus.log
        (dma_read_data g bus rb len2 rix b sz).b i) ∧
    ∃ ext, (dma_read_data g bus rb len2 rix b sz).bus.log = bus.log ++ ext ∧
      (∃ n1 rest, payload_receives ext = (len2 - rix, n1) :: rest ∧
        len2 - rix + n1 = min sz 8192) ∧
      segments_end (len2 - rix) (payload_receives ext) = some sz := by
  obtain ⟨c1, c2, c3, c4⟩ := copy_dummy_spec rb len2 sz (len2 - rix) rix 0 b rfl
    (Nat.zero_le _)
  have c1' : (copy_dummy rb len2 sz (len2 - rix) rix 0 b).1 = len2 - rix := by
    rw [c1]; omega
  have c4' : ∀ i, i < len2 - rix → i < b.length →
      (copy_dummy rb len2 sz (len2 - rix) rix 0 b).2.getD i 0 = rd rb (rix + i) := by
    intro i h1 h2
    have h := c4 i (by omega) (by omega)
    rwa [Nat.zero_add] at h
  have c3' : ∀ i, len2 - rix ≤ i →
      (copy_dummy rb len2 sz (len2 - rix) rix 0 b).2.getD i 0 = b.getD i 0 :=
    fun i h => c3 i (Or.inr (by omega))
  clear c1 c3 c4
  refine ⟨c1', ?_⟩
  unfold dma_read_data
  dsimp only
  generalize copy_dummy rb len2 sz (len2 - rix) rix 0 b = c at c2 c3' c4' c1' ⊢
  rw [c1']
  generalize len2 - rix = c0 at *
  rw [if_pos (by omega)]
  have hnb : 1 ≤ (if sz - c0 ≤ DATA_PKT_SZ - c0 then sz - c0 else DATA_PKT_SZ - c0) ∧
      (if sz - c0 ≤ DATA_PKT_SZ - c0 then sz - c0 else DATA_PKT_SZ - c0) ≤ 8192 ∧
      c0 + (if sz - c0 ≤ DATA_PKT_SZ - c0 then sz - c0 else DATA_PKT_SZ - c0) = min sz 8192 := by
    simp only [DATA_PKT_SZ, DATA_PKT_SZ_8K]
    split_ifs <;> omega
  generalize (if sz - c0 ≤ DATA_PKT_SZ - c0 then sz - c0 else DATA_PKT_SZ - c0) = nb at hnb ⊢
  obtain ⟨d, hd⟩ := Option.isSome_iff_exists.mp (hok bus.log.length)
  have hd' : (spi_rx_buf bus c0 nb).1 = some d := hd
  simp only [hd']
  have hfin : ∀ (bus1 : Bus), bus1.resp = bus.resp →
      bus1.log = bus.log ++ (List.replicate 0 (Ev.rx 1) ++
        (Ev.rx_buf c0 nb :: (if g.crc_off = 0 then [Ev.rx 2] else []))) →
      (dma_read_rest g (sz - c0 - nb) bus1 (buf_store c.2 c0 nb d) (c0 + nb)
        (sz - c0 - nb)).result = N_OK ∧
      (dma_read_rest g (sz - c0 - nb) bus1 (buf_store c.2 c0 nb d) (c0 + nb)
        (sz - c0 - nb)).b.length = b.length ∧
      (∀ i, sz ≤ i → (dma_read_rest g (sz - c0 - nb) bus1 (buf_store c.2 c0 nb d) (c0 + nb)
        (sz - c0 - nb)).b.getD i 0 = b.getD i 0) ∧
      (∀ i, i < c0 → i < b.length →
        (dma_read_rest g (sz - c0 - nb) bus1 (buf_store c.2 c0 nb d) (c0 + nb)
          (sz - c0 - nb)).b.getD i 0 = rd rb (rix + i)) ∧
      (∀ i, c0 ≤ i → i < sz → i < b.length →
        received_at bus.resp
          (dma_read_rest g (sz - c0 - nb) bus1 (buf_store c.2 c0 nb d) (c0 + nb)
            (sz - c0 - nb)).bus.log
          (dma_read_rest g (sz - c0 - nb) bus1 (buf_store c.2 c0 nb d) (c0 + nb)
            (sz - c0 - nb)).b i) ∧
      ∃ ext, (dma_read_rest g (sz - c0 - nb) bus1 (buf_store c.2 c0 nb d) (c0 + nb)
          (sz - c0 - nb)).bus.log = bus.log ++ ext ∧
        (∃ n1 rest, payload_receives ext = (c0, n1) :: rest ∧ c0 + n1 = min sz 8192) ∧
        segments_end c0 (payload_receives ext) = some sz := by
    intro bus1 hresp hlog
    obtain ⟨r1, r2, r3, rc, ext, r4, r5⟩ := dma_read_rest_fill g (sz - c0 - nb) bus1
      (buf_store c.2 c0 nb d) (c0 + nb) (sz - c0 - nb) (le_refl _)
      (by rw [hresp]; exact hok)
    have hp := payload_receives_pass 0 c0 nb _ ext (crc_events g)
    refine ⟨r1, by rw [r2, buf_store_length, c2], ?_, ?_, ?_,
      (List.replicate 0 (Ev.rx 1) ++ (Ev.rx_buf c0 nb
        :: (if g.crc_off = 0 then [Ev.rx 2] else []))) ++ ext,
      by rw [r4, hlog, List.append_assoc], ?_, ?_⟩
    · intro i hi
      rw [r3 i (by omega), buf_store_getD c.2 c0 d i nb (by omega), c3' i (by omega)]
    · intro i h1 h2
      rw [r3 i (by omega), buf_store_getD c.2 c0 d i nb (by omega)]
      exact c4' i h1 h2
    · intro i h1 h2 hib
      by_cases hin : i < c0 + nb
      · refine ⟨bus.log.length + 0, c0, nb, d, ?_, h1, hin, hd, ?_⟩
        · rw [r4, hlog]
          exact getElem_pass bus.log 0 _ _ ext
        · rw [r3 i (Or.inl hin)]
          exact buf_store_getD_in c.2 c0 d i (by rw [c2]; exact hib) nb h1 hin
      · have h := rc i (by omega) (by omega) (by rw [buf_store_length, c2]; exact hib)
        rw [hresp] at h
        exact h
    · exact ⟨nb, _, hp, hnb.2.2⟩
    · rw [hp, segments_end, if_pos ⟨rfl, hnb.1, hnb.2.1⟩, r5]
      congr 1
      omega
  by_cases hc : g.crc_off = 0
  · obtain ⟨d2, hd2⟩ := Option.isSome_iff_exists.mp (hok (spi_rx_buf bus c0 nb).2.log.length)
    have hd2' : (spi_rx (spi_rx_buf bus c0 nb).2 2).1 = some d2 := hd2
    simp only [hc, if_true, hd2']
    have h := hfin (spi_rx (spi_rx_buf bus c0 nb).2 2).2 rfl (by
      rw [rx_buf_rx_log, if_pos hc]; rfl)
    simpa only [hc, if_true] using h
  · simp only [hc, if_false]
    have h := hfin (spi_rx_buf bus c0 nb).2 rfl (by rw [spi_rx_buf_log, if_neg hc]; rfl)
    simpa only [hc, if_false] using h

/-- The lengths of a DmaExtRead: `len2` is 5 more than the command length. -/
theorem dma_ext_read_len2 (g : wilc_spi) :
    spi_cmd_complete_len2 g CMD_DMA_EXT_READ (cmd_len g 8) = cmd_len g 8 + 5 := by
  unfold spi_cmd_complete_len2
  rw [if_neg (by decide), if_neg (by decide)]
  rfl

/-- A DmaExtRead whose combined transaction holds the echo, a zero state byte and a first
data header at index `m` hands over to the data branch behind that header. -/
theorem dma_ext_read_found (g : wilc_spi) (bus : Bus) (adr : Nat) (b : List Nat)
    (sz clockless : Nat) (rb : List Nat) (m : Nat)
    (htrx : bus.resp bus.log.length = some rb)
    (hecho : rd rb (cmd_len g 8) = CMD_DMA_EXT_READ)
    (hstate : rd rb (cmd_len g 8 + 1) = 0)
    (hm1 : cmd_len g 8 + 2 ≤ m)
    (hm2 : m < cmd_len g 8 + 5)
    (hfirst : ∀ i, cmd_len g 8 + 2 ≤ i → i < m → is_data_hdr (rd rb i) = false)
    (hmark : is_data_hdr (rd rb m) = true) :
    ∃ bus1, bus1.resp = bus.resp ∧ (∃ wb, bus1.log = bus.log ++ [Ev.trx wb]) ∧
      spi_cmd_complete g bus CMD_DMA_EXT_READ adr b sz clockless
        = dma_read_data g bus1 rb (cmd_len g 8 + 5) (m + 1) b sz := by
  have hwb : spi_cmd_complete_wb CMD_DMA_EXT_READ adr b sz clockless
      = some ([CMD_DMA_EXT_READ, u8 (adr >>> 16), u8 (adr >>> 8), u8 adr,
          u8 (sz >>> 16), u8 (sz >>> 8), u8 sz], 8) := rfl
  refine ⟨(spi_trx bus (cmd_frame g [CMD_DMA_EXT_READ, u8 (adr >>> 16), u8 (adr >>> 8), u8 adr,
      u8 (sz >>> 16), u8 (sz >>> 8), u8 sz] 8 ++ List.replicate
    (spi_cmd_complete_len2 g CMD_DMA_EXT_READ (cmd_len g 8) - cmd_len g 8) 0)).2, rfl,
    ⟨_, rfl⟩, ?_⟩
  rw [spi_cmd_complete_parsed g bus CMD_DMA_EXT_READ adr b sz clockless _ 8 rb hwb htrx,
    dma_ext_read_len2]
  unfold spi_cmd_complete_rsp
  dsimp only
  have hctl : is_ctl CMD_DMA_EXT_READ = false := by decide
  have hreg : is_reg_read CMD_DMA_EXT_READ = false := by decide
  have hdma : is_dma_read CMD_DMA_EXT_READ = true := by decide
  simp only [hctl, Bool.false_eq_true, if_false, hecho, hstate, ne_eq, not_true_eq_false,
    hreg, hdma, or_true, if_true]
  unfold spi_cmd_complete_data
  dsimp only
  rw [data_hdr_scan_found rb _ m 100 _ hm1 hm2 (by omega) hfirst hmark]
  simp only [hreg, hdma, Bool.false_eq_true, if_false, if_true]
  rw [if_neg (by omega)]

/-- Claim C25: for a bulk read of `4 < sz < 2^31` bytes (the sizes for which the `int`
offset `ix` of the source does not overflow) into a buffer of at least `sz` bytes, through
`spi_cmd_complete` with DmaExtRead, in which every transport call succeeds and the combined
buffer holds the echo, a zero state byte and the first data header at index `m`, the
result is `N_OK`. The `c0 = len2 - (m + 1)` bytes behind the header are copied to
`b[0 .. c0)`; the payload receives then fill `b[c0 .. sz)` in increasing order without gap
or overlap, each between 1 and 8192 bytes long, the first one bringing the total to
`min sz 8192`, and they end exactly at `sz`. Afterwards every `b[i]` with `i < c0` is
`rb[m + 1 + i]`, every `b[i]` with `c0 <= i < sz` is the byte that the payload receive
covering `i` delivered for it, the buffer has kept its length and every byte from `b[sz]`
on is as it was. -/
theorem dma_ext_read_fills_buffer (g : wilc_spi) (bus : Bus) (adr : Nat) (b : List Nat)
    (sz clockless : Nat) (rb : List Nat) (m : Nat)
    (hsz : 4 < sz) (hmax : sz < 2 ^ 31) (hb : sz ≤ b.length)
    (hok : ∀ k, (bus.resp k).isSome = true)
    (htrx : bus.resp bus.log.length = some rb)
    (hecho : rd rb (cmd_len g 8) = CMD_DMA_EXT_READ)
    (hstate : rd rb (cmd_len g 8 + 1) = 0)
    (hm1 : cmd_len g 8 + 2 ≤ m)
    (hm2 : m < spi_cmd_complete_len2 g CMD_DMA_EXT_READ (cmd_len g 8))
    (hfirst : ∀ i, cmd_len g 8 + 2 ≤ i → i < m → is_data_hdr (rd rb i) = false)
    (hmark : is_data_hdr (rd rb m) = true) :
    (spi_cmd_complete g bus CMD_DMA_EXT_READ adr b sz clockless).result = N_OK ∧
    (copy_dummy rb (spi_cmd_complete_len2 g CMD_DMA_EXT_READ (cmd_len g 8)) sz
      (spi_cmd_complete_len2 g CMD_DMA_EXT_READ (cmd_len g 8) - (m + 1)) (m + 1) 0 b).1
      = spi_cmd_complete_len2 g CMD_DMA_EXT_READ (cmd_len g 8) - (m + 1) ∧
    (∃ n1 rest,
      payload_receives ((spi_cmd_complete g bus CMD_DMA_EXT_READ adr b sz clockless).bus.log.drop
        bus.log.length)
        = (spi_cmd_complete_len2 g CMD_DMA_EXT_READ (cmd_len g 8) - (m + 1), n1) :: rest ∧
      spi_cmd_complete_len2 g CMD_DMA_EXT_READ (cmd_len g 8) - (m + 1) + n1 = min sz 8192) ∧
    segments_end (spi_cmd_complete_len2 g CMD_DMA_EXT_READ (cmd_len g 8) - (m + 1))
      (payload_receives ((spi_cmd_complete g bus CMD_DMA_EXT_READ adr b sz clockless).bus.log.drop
        bus.log.length)) = some sz ∧
    (∀ i, i < spi_cmd_complete_len2 g CMD_DMA_EXT_READ (cmd_len g 8) - (m + 1) →
      (spi_cmd_complete g bus CMD_DMA_EXT_READ adr b sz clockless).b.getD i 0
        = rd rb (m + 1 + i)) ∧
    (∀ i, spi_cmd_complete_len2 g CMD_DMA_EXT_READ (cmd_len g 8) - (m + 1) ≤ i → i < sz →
      received_at bus.resp
        (spi_cmd_complete g bus CMD_DMA_EXT_READ adr b sz clockless).bus.log
        (spi_cmd_complete g bus CMD_DMA_EXT_READ adr b sz clockless).b i) ∧
    (spi_cmd_complete g bus CMD_DMA_EXT_READ adr b sz clockless).b.length = b.length ∧
    (∀ i, sz ≤ i →
      (spi_cmd_complete g bus CMD_DMA_EXT_READ adr b sz clockless).b.getD i 0 = b.getD i 0) := by
  have _ := hmax
  rw [dma_ext_read_len2] at hm2 ⊢
  obtain ⟨bus1, hresp, ⟨wb, hlog⟩, e⟩ := dma_ext_read_found g bus adr b sz clockless rb m htrx
    hecho hstate hm1 hm2 hfirst hmark
  obtain ⟨f0, f1, f2, f3, fa, fb, ext, f4, f5, f6⟩ := dma_read_data_fill g bus1 rb
    (cmd_len g 8 + 5) (m + 1) b sz (by rw [hresp]; exact hok) (by omega) (by omega)
  have hdrop : (dma_read_data g bus1 rb (cmd_len g 8 + 5) (m + 1) b sz).bus.log.drop
      bus.log.length = [Ev.trx wb] ++ ext := by
    rw [f4, hlog, List.append_assoc, List.drop_left]
  have hpay : payload_receives ([Ev.trx wb] ++ ext) = payload_receives ext := rfl
  rw [e, hdrop, hpay]
  refine ⟨f1, f0, f5, f6, fun i hi => fa i hi (by omega), ?_, f2, f3⟩
  intro i h1 h2
  have h := fb i h1 h2 (by omega)
  rw [hresp] at h
  exact h

theorem dma_ext_read_fills_buffer_witness :
    4 < 20000 ∧ 20000 < 2 ^ 31 ∧ 20000 ≤ (List.replicate 20000 0).length ∧
    (∀ k, (bus_read_sample.resp k).isSome = true) ∧
    rd [0, 0, 0, 0, 0, 0, 0, 0, 0xc8, 0, 0xf3, 0x11, 0x22] (cmd_len g_crc_on 8)
      = CMD_DMA_EXT_READ ∧
    rd [0, 0, 0, 0, 0, 0, 0, 0, 0xc8, 0, 0xf3, 0x11, 0x22] (cmd_len g_crc_on 8 + 1) = 0 ∧
    is_data_hdr (rd [0, 0, 0, 0, 0, 0, 0, 0, 0xc8, 0, 0xf3, 0x11, 0x22] 10) = true ∧
    (spi_cmd_complete g_crc_on bus_read_sample CMD_DMA_EXT_READ 0 (List.replicate 20000 0)
      20000 0).result = N_OK ∧
    payload_receives ((spi_cmd_complete g_crc_on bus_read_sample CMD_DMA_EXT_READ 0
      (List.replicate 20000 0) 20000 0).bus.log.drop 0)
      = [(2, 8190), (8192, 8192), (16384, 3616)] ∧
    segments_end (spi_cmd_complete_len2 g_crc_on CMD_DMA_EXT_READ (cmd_len g_crc_on 8) - (10 + 1))
      (payload_receives ((spi_cmd_complete g_crc_on bus_read_sample CMD_DMA_EXT_READ 0
        (List.replicate 20000 0) 20000 0).bus.log.drop bus_read_sample.log.length))
      = some 20000 ∧
    (∀ i, spi_cmd_complete_len2 g_crc_on CMD_DMA_EXT_READ (cmd_len g_crc_on 8) - (10 + 1) ≤ i →
      i < 20000 →
      received_at bus_read_sample.resp
        (spi_cmd_complete g_crc_on bus_read_sample CMD_DMA_EXT_READ 0 (List.replicate 20000 0)
          20000 0).bus.log
        (spi_cmd_complete g_crc_on bus_read_sample CMD_DMA_EXT_READ 0 (List.replicate 20000 0)
          20000 0).b i) ∧
    (spi_cmd_complete g_crc_on bus_read_sample CMD_DMA_EXT_READ 0
      [0, 0, 0, 0, 0, 0, 0, 0, 0x99] 8 0).b
      = [0x11, 0x22, 0xf1, 0xa1, 0xa2, 0xa3, 0xa4, 0xa5, 0x99] ∧
    (spi_cmd_complete g_crc_on bus_read_sample CMD_DMA_EXT_READ 0
      [0, 0, 0, 0, 0, 0, 0, 0, 0x99] 8 0).bus.log
      = [Ev.trx [0xc8, 0, 0, 0, 0, 0, 8, 0xac, 0, 0, 0, 0, 0], Ev.rx_buf 2 6, Ev.rx 2] := by
  have hok : ∀ k, (bus_read_sample.resp k).isSome = true := by
    intro k
    unfold bus_read_sample
    dsimp only
    split <;> rfl
  have h := dma_ext_read_fills_buffer g_crc_on bus_read_sample 0 (List.replicate 20000 0)
    20000 0 [0, 0, 0, 0, 0, 0, 0, 0, 0xc8, 0, 0xf3, 0x11, 0x22] 10 (by decide) (by decide)
    (by rw [List.length_replicate]) hok rfl (by decide) (by decide) (by decide) (by decide)
    (fun i h1 h2 => absurd h1 (Nat.not_le.mpr h2)) (by decide)
  exact ⟨by decide, by decide, by rw [List.length_replicate], hok, by decide, by decide,
    by decide, h.1, by decide,
    h.2.2.2.1, h.2.2.2.2.2.1, by decide, by decide⟩

end Wilc
